import Mathlib

/-!
Verification of the flash-lob core matching engine.

The definitions below are a shallow embedding of the Rust sources:
  src/arena.rs        (Arena, OrderNode, free list)
  src/price_level.rs  (PriceLevel FIFO; the intrusive doubly linked chain is
                       represented by the list of arena indices it stores,
                       head first; the pointer surgery of the source realises
                       exactly these list operations)
  src/order_book.rs   (OrderBook; the two FxHashMap sides and the locator are
                       represented by association lists with distinct keys;
                       key iteration is only used through max and min, which
                       are order independent)
  src/command.rs      (commands and events)
  src/matching.rs     (MatchingEngine; the two matching loops are written with
                       an explicit fuel argument that is large enough on every
                       well formed state)
  src/engine.rs       (Engine dispatch, modify as cancel plus place)

Machine integers u64 and u32 are modelled as Nat.  All additions in the hot
path are bounded far below 2 to the 64 (quantities are u32, counts are bounded
by the arena capacity, which is below 2 to the 32), and every subtraction in
the source is guarded to be non negative, so plain Nat arithmetic coincides
with the machine arithmetic on the states the engine reaches.  The one place
where u32 subtraction can underflow, Arena.new with capacity 0, is modelled
explicitly (see Arena.new below).
-/

/-- Sentinel index, u32 MAX, from src/arena.rs. -/
def NULL_INDEX : Nat := 2 ^ 32 - 1

/-- Order side, from src/command.rs. -/
inductive Side where
  | Bid : Side
  | Ask : Side
deriving DecidableEq, Repr

/-- Opposite side, from src/command.rs. -/
def Side.opposite : Side → Side
  | .Bid => .Ask
  | .Ask => .Bid

/-- Order type, from src/command.rs. -/
inductive OrderType where
  | Limit : OrderType
  | IOC : OrderType
  | FOK : OrderType
deriving DecidableEq, Repr

/-- Place command payload, from src/command.rs. -/
structure PlaceOrder where
  order_id : Nat
  user_id : Nat
  side : Side
  price : Nat
  qty : Nat
  order_type : OrderType
deriving DecidableEq, Repr

/-- Cancel command payload, from src/command.rs. -/
structure CancelOrder where
  order_id : Nat
deriving DecidableEq, Repr

/-- Modify command payload, from src/command.rs. -/
structure ModifyOrder where
  order_id : Nat
  new_order_id : Nat
  new_price : Nat
  new_qty : Nat
deriving DecidableEq, Repr

/-- Input command, from src/command.rs. -/
inductive Command where
  | Place : PlaceOrder → Command
  | Cancel : CancelOrder → Command
  | Modify : ModifyOrder → Command
deriving DecidableEq, Repr

/-- Trade event, from src/command.rs. -/
structure TradeEvent where
  price : Nat
  qty : Nat
  maker_order_id : Nat
  taker_order_id : Nat
  maker_user_id : Nat
  taker_user_id : Nat
  taker_side : Side
deriving DecidableEq, Repr

/-- Book level update event, from src/command.rs. -/
structure BookUpdate where
  side : Side
  price : Nat
  new_qty : Nat
  new_count : Nat
deriving DecidableEq, Repr

/-- Acceptance event, from src/command.rs. -/
structure OrderAccepted where
  order_id : Nat
  price : Nat
  qty : Nat
  side : Side
deriving DecidableEq, Repr

/-- Cancellation event, from src/command.rs. -/
structure OrderCanceled where
  order_id : Nat
  canceled_qty : Nat
deriving DecidableEq, Repr

/-- Rejection reasons, from src/command.rs. -/
inductive RejectReason where
  | DuplicateOrderId : RejectReason
  | OrderNotFound : RejectReason
  | ArenaFull : RejectReason
  | InvalidPrice : RejectReason
  | InvalidQuantity : RejectReason
  | InsufficientLiquidity : RejectReason
deriving DecidableEq, Repr

/-- Rejection event, from src/command.rs. -/
structure OrderRejected where
  order_id : Nat
  reason : RejectReason
deriving DecidableEq, Repr

/-- Output event, from src/command.rs. -/
inductive OutputEvent where
  | Trade : TradeEvent → OutputEvent
  | BookDelta : BookUpdate → OutputEvent
  | Accepted : OrderAccepted → OutputEvent
  | Canceled : OrderCanceled → OutputEvent
  | Rejected : OrderRejected → OutputEvent
deriving DecidableEq, Repr

/-- Projection keeping only trade events, in emission order. -/
def tradesOf (evs : List OutputEvent) : List TradeEvent :=
  evs.filterMap fun ev =>
    match ev with
    | .Trade t => some t
    | _ => none

/-- Tests whether an event is a trade or a book delta (market data only). -/
def OutputEvent.isMarketData : OutputEvent → Bool
  | .Trade _ => true
  | .BookDelta _ => true
  | _ => false

/-- Tests whether an event is a cancellation acknowledgement. -/
def OutputEvent.isCanceled : OutputEvent → Bool
  | .Canceled _ => true
  | _ => false

/-- Order record, from src/arena.rs.  The reserved padding bytes carry no
information and are omitted. -/
structure OrderNode where
  price : Nat
  qty : Nat
  order_id : Nat
  user_id : Nat
  next : Nat
  prev : Nat
deriving DecidableEq, Repr

/-- Empty record, from OrderNode.empty in src/arena.rs. -/
def OrderNode.empty : OrderNode :=
  { price := 0, qty := 0, order_id := 0, user_id := 0
    next := NULL_INDEX, prev := NULL_INDEX }

/-- Arena, from src/arena.rs.  The contiguous node array is a list indexed by
position. -/
structure Arena where
  nodes : List OrderNode
  free_head : Nat
  allocated_count : Nat
  capacity : Nat
deriving DecidableEq, Repr

/-- Indexed read, from Arena.get.  Out of range reads are debug assertions in
the source; they never happen on well formed states and default to the empty
record here. -/
def Arena.get (a : Arena) (index : Nat) : OrderNode :=
  a.nodes.getD index OrderNode.empty

/-- In place update of one node, the effect of Arena.get_mut followed by a
field write. -/
def Arena.set_node (a : Arena) (index : Nat) (f : OrderNode → OrderNode) : Arena :=
  { a with nodes := a.nodes.set index (f (a.get index)) }

/-- The successful body of Arena.new: every record empty, the free list
threaded through next in index order, from src/arena.rs lines 165 to 182. -/
def Arena.init (capacity : Nat) : Arena :=
  { nodes := (List.range capacity).map fun i =>
      { OrderNode.empty with next := if i + 1 = capacity then NULL_INDEX else i + 1 }
    free_head := if 0 < capacity then 0 else NULL_INDEX
    allocated_count := 0
    capacity := capacity }

/-- Arena.new from src/arena.rs.  The source asserts capacity below
NULL_INDEX, then runs the threading loop for i in 0..(capacity - 1) on u32.
For capacity = 0 that bound underflows: the subtraction aborts in debug
builds, and in release builds the wrapped bound 2 to the 32 minus 1 makes the
first iteration index an empty vector, which also aborts.  Both failure modes
are modelled as none. -/
def Arena.new (capacity : Nat) : Option Arena :=
  if capacity < NULL_INDEX then
    if capacity = 0 then none
    else some (Arena.init capacity)
  else none

/-- Arena.alloc from src/arena.rs: pop the free list head, count it, clear its
linkage. -/
def Arena.alloc (a : Arena) : Option (Nat × Arena) :=
  if a.free_head = NULL_INDEX then none
  else
    let index := a.free_head
    let a1 := { a with free_head := (a.get index).next
                       allocated_count := a.allocated_count + 1 }
    some (index, a1.set_node index fun n => { n with next := NULL_INDEX, prev := NULL_INDEX })

/-- Arena.free from src/arena.rs: reset the record, push it on the free list,
uncount it. -/
def Arena.free (a : Arena) (index : Nat) : Arena :=
  let a1 := a.set_node index fun _ => { OrderNode.empty with next := a.free_head }
  { a1 with free_head := index, allocated_count := a.allocated_count - 1 }

/-- Arena.allocated from src/arena.rs. -/
def Arena.allocated (a : Arena) : Nat := a.allocated_count

/-- Executable walk of the free list, fuelled by the capacity; used to state
how Arena.init threads the free list. -/
def Arena.chain_from (a : Arena) : Nat → Nat → List Nat
  | 0, _ => []
  | fuel + 1, i => if i = NULL_INDEX then [] else i :: a.chain_from fuel (a.get i).next

/-- The free list as a list of indices, starting at free_head. -/
def Arena.free_chain (a : Arena) : List Nat :=
  a.chain_from a.capacity a.free_head

/-- Price level, from src/price_level.rs.  The field orders lists the arena
indices of the FIFO chain, oldest first; head and tail of the source are its
first and last elements.  The aggregate fields total_qty and count are
maintained separately, exactly as in the source. -/
structure PriceLevel where
  orders : List Nat
  total_qty : Nat
  count : Nat
deriving DecidableEq, Repr

/-- PriceLevel.new from src/price_level.rs. -/
def PriceLevel.new : PriceLevel :=
  { orders := [], total_qty := 0, count := 0 }

/-- PriceLevel.is_empty from src/price_level.rs (count based, as in the
source). -/
def PriceLevel.is_empty (l : PriceLevel) : Bool := l.count == 0

/-- PriceLevel.push_back from src/price_level.rs: append at the tail, add the
quantity read from the arena record. -/
def PriceLevel.push_back (l : PriceLevel) (arena : Arena) (index : Nat) : PriceLevel :=
  { orders := l.orders ++ [index]
    total_qty := l.total_qty + (arena.get index).qty
    count := l.count + 1 }

/-- PriceLevel.pop_front from src/price_level.rs: detach the head, subtract
its quantity.  The record itself is not freed. -/
def PriceLevel.pop_front (l : PriceLevel) (arena : Arena) : Option (Nat × PriceLevel) :=
  match l.orders with
  | [] => none
  | index :: rest =>
    some (index, { orders := rest
                   total_qty := l.total_qty - (arena.get index).qty
                   count := l.count - 1 })

/-- PriceLevel.remove from src/price_level.rs: detach one known member (the
four pointer cases of the source all realise removal of that index from the
chain), subtract its quantity, and report whether the level became empty. -/
def PriceLevel.remove (l : PriceLevel) (arena : Arena) (index : Nat) : PriceLevel × Bool :=
  let l1 : PriceLevel :=
    { orders := l.orders.erase index
      total_qty := l.total_qty - (arena.get index).qty
      count := l.count - 1 }
  (l1, l1.count == 0)

/-- PriceLevel.peek_head from src/price_level.rs. -/
def PriceLevel.peek_head (l : PriceLevel) : Nat :=
  match l.orders with
  | [] => NULL_INDEX
  | index :: _ => index

/-- PriceLevel.subtract_qty from src/price_level.rs. -/
def PriceLevel.subtract_qty (l : PriceLevel) (qty : Nat) : PriceLevel :=
  { l with total_qty := l.total_qty - qty }

/-- Lookup in an association list with Nat keys (models FxHashMap get). -/
def lookupA {β : Type} : List (Nat × β) → Nat → Option β
  | [], _ => none
  | e :: rest, k => if e.1 = k then some e.2 else lookupA rest k

/-- Key membership test (models FxHashMap contains_key). -/
def containsA {β : Type} (m : List (Nat × β)) (k : Nat) : Bool :=
  (lookupA m k).isSome

/-- Replace the value stored at one key, leaving everything else alone
(models mutation through a FxHashMap get_mut borrow). -/
def updateA {β : Type} (m : List (Nat × β)) (k : Nat) (v : β) : List (Nat × β) :=
  m.map fun e => if e.1 = k then (k, v) else e

/-- Remove the entry of one key (models FxHashMap remove). -/
def eraseA {β : Type} : List (Nat × β) → Nat → List (Nat × β)
  | [], _ => []
  | e :: rest, k => if e.1 = k then rest else e :: eraseA rest k

/-- The keys of an association list. -/
def keysA {β : Type} (m : List (Nat × β)) : List Nat :=
  m.map fun e => e.1

/-- Maximum of a key list (models keys().max(); none on the empty map). -/
def keyMax : List Nat → Option Nat
  | [] => none
  | k :: rest =>
    match keyMax rest with
    | none => some k
    | some m => some (max k m)

/-- Minimum of a key list (models keys().min(); none on the empty map). -/
def keyMin : List Nat → Option Nat
  | [] => none
  | k :: rest =>
    match keyMin rest with
    | none => some k
    | some m => some (min k m)

/-- Locator record, from src/order_book.rs. -/
structure OrderInfo where
  arena_index : Nat
  side : Side
  price : Nat
  user_id : Nat
deriving DecidableEq, Repr

/-- Order book, from src/order_book.rs.  The two hash map sides and the
locator are association lists with pairwise distinct keys (the well formed
invariant below); only max and min of the keys are ever taken, so the entry
order carries no information. -/
structure OrderBook where
  bids : List (Nat × PriceLevel)
  asks : List (Nat × PriceLevel)
  best_bid : Option Nat
  best_ask : Option Nat
  order_map : List (Nat × OrderInfo)
deriving DecidableEq, Repr

/-- OrderBook.with_capacity from src/order_book.rs; the capacity hints only
preallocate and do not affect behaviour. -/
def OrderBook.with_capacity (_levels _orders : Nat) : OrderBook :=
  { bids := [], asks := [], best_bid := none, best_ask := none, order_map := [] }

/-- The side map selected by a side. -/
def OrderBook.sideOf (b : OrderBook) : Side → List (Nat × PriceLevel)
  | .Bid => b.bids
  | .Ask => b.asks

/-- OrderBook.best_price from src/order_book.rs. -/
def OrderBook.best_price (b : OrderBook) : Side → Option Nat
  | .Bid => b.best_bid
  | .Ask => b.best_ask

/-- OrderBook.best_opposite_price from src/order_book.rs. -/
def OrderBook.best_opposite_price (b : OrderBook) : Side → Option Nat
  | .Bid => b.best_ask
  | .Ask => b.best_bid

/-- OrderBook.get_level from src/order_book.rs. -/
def OrderBook.get_level (b : OrderBook) (side : Side) (price : Nat) : Option PriceLevel :=
  lookupA (b.sideOf side) price

/-- Write back a level under its key, the effect of mutation through
get_level_mut or the or_insert entry borrow. -/
def OrderBook.set_level (b : OrderBook) (side : Side) (price : Nat) (l : PriceLevel) : OrderBook :=
  match side with
  | .Bid => { b with bids := updateA b.bids price l }
  | .Ask => { b with asks := updateA b.asks price l }

/-- OrderBook.get_or_create_level from src/order_book.rs: entry or_insert of
an empty level.  Returns the level and the book with the level present. -/
def OrderBook.get_or_create_level (b : OrderBook) (side : Side) (price : Nat) :
    PriceLevel × OrderBook :=
  match b.get_level side price with
  | some l => (l, b)
  | none =>
    match side with
    | .Bid => (PriceLevel.new, { b with bids := (price, PriceLevel.new) :: b.bids })
    | .Ask => (PriceLevel.new, { b with asks := (price, PriceLevel.new) :: b.asks })

/-- OrderBook.update_best_price_on_add from src/order_book.rs. -/
def OrderBook.update_best_price_on_add (b : OrderBook) (side : Side) (price : Nat) : OrderBook :=
  match side with
  | .Bid =>
    if b.best_bid.all (fun best => best < price) then { b with best_bid := some price } else b
  | .Ask =>
    if b.best_ask.all (fun best => price < best) then { b with best_ask := some price } else b

/-- OrderBook.recalculate_best_bid from src/order_book.rs: full scan of the
remaining keys. -/
def OrderBook.recalculate_best_bid (b : OrderBook) : OrderBook :=
  { b with best_bid := keyMax (keysA b.bids) }

/-- OrderBook.recalculate_best_ask from src/order_book.rs. -/
def OrderBook.recalculate_best_ask (b : OrderBook) : OrderBook :=
  { b with best_ask := keyMin (keysA b.asks) }

/-- OrderBook.remove_empty_level from src/order_book.rs: drop the map entry
and recompute the best price if the dropped level was the best. -/
def OrderBook.remove_empty_level (b : OrderBook) (side : Side) (price : Nat) : OrderBook :=
  match side with
  | .Bid =>
    let b1 := { b with bids := eraseA b.bids price }
    if b1.best_bid = some price then b1.recalculate_best_bid else b1
  | .Ask =>
    let b1 := { b with asks := eraseA b.asks price }
    if b1.best_ask = some price then b1.recalculate_best_ask else b1

/-- OrderBook.add_order from src/order_book.rs: duplicate check, locator
insert, append to the created if absent level, monotone best update. -/
def OrderBook.add_order (b : OrderBook) (arena : Arena) (order_id user_id : Nat)
    (side : Side) (price : Nat) (arena_index : Nat) : OrderBook × Bool :=
  if containsA b.order_map order_id then (b, false)
  else
    let b1 := { b with order_map :=
      (order_id, ⟨arena_index, side, price, user_id⟩) :: b.order_map }
    let gres := b1.get_or_create_level side price
    let b3 := gres.2.set_level side price (gres.1.push_back arena arena_index)
    (b3.update_best_price_on_add side price, true)

/-- OrderBook.remove_order from src/order_book.rs: locator remove, level
detach, level cleanup with best recomputation. -/
def OrderBook.remove_order (b : OrderBook) (arena : Arena) (order_id : Nat) :
    OrderBook × Option OrderInfo :=
  match lookupA b.order_map order_id with
  | none => (b, none)
  | some info =>
    let b1 := { b with order_map := eraseA b.order_map order_id }
    match b1.get_level info.side info.price with
    | none => (b1, some info)
    | some level =>
      let lres := level.remove arena info.arena_index
      let b2 := b1.set_level info.side info.price lres.1
      if lres.2 then (b2.remove_empty_level info.side info.price, some info)
      else (b2, some info)

/-- OrderBook.get_order from src/order_book.rs. -/
def OrderBook.get_order (b : OrderBook) (order_id : Nat) : Option OrderInfo :=
  lookupA b.order_map order_id

/-- OrderBook.contains_order from src/order_book.rs. -/
def OrderBook.contains_order (b : OrderBook) (order_id : Nat) : Bool :=
  containsA b.order_map order_id

/-- OrderBook.remove_order_from_map from src/order_book.rs. -/
def OrderBook.remove_order_from_map (b : OrderBook) (order_id : Nat) : OrderBook :=
  { b with order_map := eraseA b.order_map order_id }

/-- OrderBook.order_count from src/order_book.rs. -/
def OrderBook.order_count (b : OrderBook) : Nat := b.order_map.length

/-- OrderBook.depth_at from src/order_book.rs. -/
def OrderBook.depth_at (b : OrderBook) (side : Side) (price : Nat) : Nat × Nat :=
  match b.get_level side price with
  | some l => (l.total_qty, l.count)
  | none => (0, 0)

/-- The matching engine, from src/matching.rs. -/
structure MatchingEngine where
  arena : Arena
  book : OrderBook
deriving DecidableEq, Repr

/-- MatchingEngine.new from src/matching.rs.  The source builds the arena
with Arena.new, which aborts for capacity 0 or capacity at least NULL_INDEX
(see Arena.new); Arena.init is its successful body, and every theorem about
constructed engines restricts the capacity accordingly. -/
def MatchingEngine.new (capacity : Nat) : MatchingEngine :=
  { arena := Arena.init capacity
    book := OrderBook.with_capacity 1000 capacity }

/-- MatchingEngine.prices_cross from src/matching.rs. -/
def prices_cross (order_price opposite_best : Nat) (order_side : Side) : Bool :=
  match order_side with
  | .Bid => decide (opposite_best ≤ order_price)
  | .Ask => decide (order_price ≤ opposite_best)

/-- Number of orders stored at one level, zero when the level is absent;
used only to size the fuel of the inner matching loop. -/
def MatchingEngine.level_len (e : MatchingEngine) (side : Side) (price : Nat) : Nat :=
  match e.book.get_level side price with
  | some l => l.orders.length
  | none => 0

/-- MatchingEngine.match_at_level from src/matching.rs.  One iteration of the
source loop per fuel unit; the fuel passed by cross_order always suffices on
well formed states, so fuel exhaustion is unreachable there.  Returns the
engine, the remaining taker quantity and the emitted events in order. -/
def MatchingEngine.match_at_level (fuel : Nat) (e : MatchingEngine) (taker : PlaceOrder)
    (price : Nat) (maker_side : Side) (remaining_qty : Nat) :
    MatchingEngine × Nat × List OutputEvent :=
  match fuel with
  | 0 => (e, remaining_qty, [])
  | fuel + 1 =>
    if remaining_qty = 0 then (e, remaining_qty, [])
    else
      match e.book.get_level maker_side price with
      | none => (e, remaining_qty, [])
      | some level =>
        if level.is_empty then (e, remaining_qty, [])
        else
          let maker_idx := level.peek_head
          if maker_idx = NULL_INDEX then (e, remaining_qty, [])
          else
            let maker := e.arena.get maker_idx
            let trade_qty := min remaining_qty maker.qty
            let tradeEv : OutputEvent := .Trade
              { price := price, qty := trade_qty
                maker_order_id := maker.order_id, taker_order_id := taker.order_id
                maker_user_id := maker.user_id, taker_user_id := taker.user_id
                taker_side := taker.side }
            let remaining1 := remaining_qty - trade_qty
            let new_maker_qty := maker.qty - trade_qty
            if new_maker_qty = 0 then
              let level1 :=
                match level.pop_front e.arena with
                | some (_, l1) => l1
                | none => level
              let book1 := (e.book.set_level maker_side price level1).remove_order_from_map
                maker.order_id
              let arena1 := e.arena.free maker_idx
              let e1 : MatchingEngine := { arena := arena1, book := book1 }
              if (e1.book.get_level maker_side price).all PriceLevel.is_empty then
                let deltaEv : OutputEvent := .BookDelta
                  { side := maker_side, price := price, new_qty := 0, new_count := 0 }
                let e2 : MatchingEngine :=
                  { e1 with book := e1.book.remove_empty_level maker_side price }
                let res := MatchingEngine.match_at_level fuel e2 taker price maker_side remaining1
                (res.1, res.2.1, tradeEv :: deltaEv :: res.2.2)
              else
                let lvl := (e1.book.get_level maker_side price).getD PriceLevel.new
                let deltaEv : OutputEvent := .BookDelta
                  { side := maker_side, price := price
                    new_qty := lvl.total_qty, new_count := lvl.count }
                let res := MatchingEngine.match_at_level fuel e1 taker price maker_side remaining1
                (res.1, res.2.1, tradeEv :: deltaEv :: res.2.2)
            else
              let arena1 := e.arena.set_node maker_idx fun n => { n with qty := new_maker_qty }
              let level1 := level.subtract_qty trade_qty
              let book1 := e.book.set_level maker_side price level1
              let e1 : MatchingEngine := { arena := arena1, book := book1 }
              let deltaEv : OutputEvent := .BookDelta
                { side := maker_side, price := price
                  new_qty := level1.total_qty, new_count := level1.count }
              let res := MatchingEngine.match_at_level fuel e1 taker price maker_side remaining1
              (res.1, res.2.1, tradeEv :: deltaEv :: res.2.2)

/-- MatchingEngine.cross_order from src/matching.rs.  One iteration of the
outer loop per fuel unit; each iteration rereads the best opposite price and
hands the whole level to match_at_level with fuel sized by that level. -/
def MatchingEngine.cross_order (fuel : Nat) (e : MatchingEngine) (order : PlaceOrder)
    (remaining_qty : Nat) : MatchingEngine × Nat × List OutputEvent :=
  match fuel with
  | 0 => (e, remaining_qty, [])
  | fuel + 1 =>
    if remaining_qty = 0 then (e, remaining_qty, [])
    else
      match e.book.best_opposite_price order.side with
      | none => (e, remaining_qty, [])
      | some best_opposite =>
        if prices_cross order.price best_opposite order.side then
          let opposite_side := order.side.opposite
          let inner_fuel := e.level_len opposite_side best_opposite + 1
          let res := MatchingEngine.match_at_level inner_fuel e order best_opposite
            opposite_side remaining_qty
          let res2 := MatchingEngine.cross_order fuel res.1 order res.2.1
          (res2.1, res2.2.1, res.2.2 ++ res2.2.2)
        else (e, remaining_qty, [])

/-- Phase one of process_place: the cross loop on the full order quantity,
with fuel one more than the number of opposite levels, which suffices on
every well formed state because each inner call that leaves quantity behind
has drained and removed one opposite level. -/
def MatchingEngine.cross_phase (e : MatchingEngine) (order : PlaceOrder) :
    MatchingEngine × Nat × List OutputEvent :=
  MatchingEngine.cross_order ((e.book.sideOf order.side.opposite).length + 1) e order order.qty

/-- Modelled from the spec: the FOK pre check of section 4.4 step 2.  The
revision of src/matching.rs in the tree predates the order_type field and
carries no FOK handling, while src/command.rs, src/engine.rs and the test
suite all use it; the spec is the stated authority for this part.  The spec
accumulates crossable quantity level by level from the best price until the
incoming quantity is covered or the next level fails to cross; summing the
aggregate quantity of every crossing opposite level gives the same comparison
against qty, since the scan stops early only once qty is already covered. -/
def MatchingEngine.crossable_qty (e : MatchingEngine) (order : PlaceOrder) : Nat :=
  (e.book.sideOf order.side.opposite).foldr
    (fun pl acc => if prices_cross order.price pl.1 order.side then acc + pl.2.total_qty else acc) 0

/-- MatchingEngine.rest_order from src/matching.rs: allocate, populate the
record, insert through OrderBook.add_order, emit acceptance and book delta.
The in tree matching.rs predates the user_id parameter of add_order;
following the spec (populate the record with id, user, price, remaining) the
user id of the incoming order is passed through. -/
def MatchingEngine.rest_order (e : MatchingEngine) (order : PlaceOrder) (qty : Nat) :
    Option (MatchingEngine × List OutputEvent) :=
  match e.arena.alloc with
  | none => none
  | some (arena_idx, arena1) =>
    let arena2 := arena1.set_node arena_idx fun n =>
      { n with order_id := order.order_id, user_id := order.user_id
               price := order.price, qty := qty }
    let book1 := (e.book.add_order arena2 order.order_id order.user_id order.side
      order.price arena_idx).1
    let acceptedEv : OutputEvent := .Accepted
      { order_id := order.order_id, price := order.price, qty := qty, side := order.side }
    let level := (book1.get_level order.side order.price).getD PriceLevel.new
    let deltaEv : OutputEvent := .BookDelta
      { side := order.side, price := order.price
        new_qty := level.total_qty, new_count := level.count }
    some ({ arena := arena2, book := book1 }, [acceptedEv, deltaEv])

/-- Modelled from the spec: MatchingEngine.process_place.  Validation and the
cross and rest phases follow src/matching.rs lines 53 to 93; the order type
dispatch (FOK pre check before the cross loop, IOC discarding its unfilled
remainder instead of resting) follows spec section 4.4 steps 2 and 4, because
the in tree revision of matching.rs predates the order_type field (see
crossable_qty above). -/
def MatchingEngine.process_place (e : MatchingEngine) (order : PlaceOrder) :
    MatchingEngine × List OutputEvent :=
  if order.qty = 0 then
    (e, [.Rejected { order_id := order.order_id, reason := .InvalidQuantity }])
  else if e.book.contains_order order.order_id then
    (e, [.Rejected { order_id := order.order_id, reason := .DuplicateOrderId }])
  else if order.order_type = .FOK ∧ e.crossable_qty order < order.qty then
    (e, [.Rejected { order_id := order.order_id, reason := .InsufficientLiquidity }])
  else
    let res := e.cross_phase order
    if res.2.1 > 0 then
      match order.order_type with
      | .IOC => (res.1, res.2.2)
      | _ =>
        match (res.1).rest_order order res.2.1 with
        | some (e2, evs2) => (e2, res.2.2 ++ evs2)
        | none =>
          (res.1, res.2.2 ++ [.Rejected { order_id := order.order_id, reason := .ArenaFull }])
    else (res.1, res.2.2)

/-- MatchingEngine.process_cancel from src/matching.rs. -/
def MatchingEngine.process_cancel (e : MatchingEngine) (cancel : CancelOrder) :
    MatchingEngine × List OutputEvent :=
  match e.book.get_order cancel.order_id with
  | none =>
    (e, [.Rejected { order_id := cancel.order_id, reason := .OrderNotFound }])
  | some info =>
    let canceled_qty := (e.arena.get info.arena_index).qty
    let book1 := (e.book.remove_order e.arena cancel.order_id).1
    let arena1 := e.arena.free info.arena_index
    let canceledEv : OutputEvent := .Canceled
      { order_id := cancel.order_id, canceled_qty := canceled_qty }
    let depth := book1.depth_at info.side info.price
    let deltaEv : OutputEvent := .BookDelta
      { side := info.side, price := info.price, new_qty := depth.1, new_count := depth.2 }
    ({ arena := arena1, book := book1 }, [canceledEv, deltaEv])

/-- MatchingEngine.order_count from src/matching.rs. -/
def MatchingEngine.order_count (e : MatchingEngine) : Nat := e.book.order_count

/-- The data fed by MatchingEngine.state_hash into the fixed key hasher:
best bid, best ask, order count, allocated count, in this order.  The source
digests exactly this tuple with std DefaultHasher, whose output over equal
inputs is equal; the tuple itself is taken as the deterministic digest. -/
structure StateHash where
  best_bid : Option Nat
  best_ask : Option Nat
  order_count : Nat
  allocated : Nat
deriving DecidableEq, Repr

/-- MatchingEngine.state_hash from src/matching.rs. -/
def MatchingEngine.state_hash (e : MatchingEngine) : StateHash :=
  { best_bid := e.book.best_bid
    best_ask := e.book.best_ask
    order_count := e.order_count
    allocated := e.arena.allocated }

/-- The engine wrapper, from src/engine.rs. -/
structure Engine where
  matcher : MatchingEngine
deriving DecidableEq, Repr

/-- Engine.new from src/engine.rs. -/
def Engine.new (capacity : Nat) : Engine :=
  { matcher := MatchingEngine.new capacity }

/-- Engine.process_command from src/engine.rs: dispatch, with modify as
snapshot, cancel, then place of a Limit order when the cancel succeeded. -/
def Engine.process_command (e : Engine) (cmd : Command) : Engine × List OutputEvent :=
  match cmd with
  | .Place order =>
    let res := e.matcher.process_place order
    ({ matcher := res.1 }, res.2)
  | .Cancel cancel =>
    let res := e.matcher.process_cancel cancel
    ({ matcher := res.1 }, res.2)
  | .Modify modify =>
    let original_info := e.matcher.book.get_order modify.order_id
    let cres := e.matcher.process_cancel { order_id := modify.order_id }
    let cancel_succeeded := cres.2.any OutputEvent.isCanceled
    if cancel_succeeded then
      match original_info with
      | some info =>
        let pres := (cres.1).process_place
          { order_id := modify.new_order_id, user_id := info.user_id, side := info.side
            price := modify.new_price, qty := modify.new_qty, order_type := .Limit }
        ({ matcher := pres.1 }, cres.2 ++ pres.2)
      | none => ({ matcher := cres.1 }, cres.2)
    else ({ matcher := cres.1 }, cres.2)

/-- Engine.state_hash from src/engine.rs. -/
def Engine.state_hash (e : Engine) : StateHash := e.matcher.state_hash

/-- Fold a command sequence through the engine, keeping the final state. -/
def Engine.run_all (e : Engine) : List Command → Engine
  | [] => e
  | cmd :: cmds => ((e.process_command cmd).1).run_all cmds

/-- The observable trace of a command sequence: for each command, the emitted
event list and the state hash after it. -/
def Engine.trace (e : Engine) : List Command → List (List OutputEvent × StateHash)
  | [] => []
  | cmd :: cmds =>
    let res := e.process_command cmd
    (res.2, (res.1).state_hash) :: (res.1).trace cmds

/-- A maker as the spec sees it: identity, attribution and remaining
quantity of one resting order. -/
structure Maker where
  order_id : Nat
  user_id : Nat
  qty : Nat
deriving DecidableEq, Repr

/-- The maker stored at one arena index. -/
def makerOf (arena : Arena) (index : Nat) : Maker :=
  { order_id := (arena.get index).order_id
    user_id := (arena.get index).user_id
    qty := (arena.get index).qty }

/-- The opposite side of the book as the spec describes it: price to FIFO
list of makers, oldest first. -/
def MatchingEngine.book_view (e : MatchingEngine) (side : Side) : List (Nat × List Maker) :=
  (e.book.sideOf side).map fun pl => (pl.1, pl.2.orders.map (makerOf e.arena))

/-- Reference from the words of the spec, section 4.4 step 3: walking one
price level from its head, each trade takes the minimum of the taker
remainder and the head maker remainder; returns trades and the remainder. -/
def spec_level_trades (taker : PlaceOrder) (price : Nat) :
    List Maker → Nat → List TradeEvent × Nat
  | [], remaining => ([], remaining)
  | m :: rest, remaining =>
    if remaining = 0 then ([], 0)
    else
      let t := min remaining m.qty
      let res := spec_level_trades taker price rest (remaining - t)
      ({ price := price, qty := t
         maker_order_id := m.order_id, taker_order_id := taker.order_id
         maker_user_id := m.user_id, taker_user_id := taker.user_id
         taker_side := taker.side } :: res.1, res.2)

/-- Best price of a spec view: minimum price for asks, maximum for bids. -/
def spec_best (view : List (Nat × List Maker)) : Side → Option Nat
  | .Ask => keyMin (keysA view)
  | .Bid => keyMax (keysA view)

/-- Reference from the words of the spec, section 4.4 step 3: levels are
consumed from the best opposite price outward while the price crosses, in
FIFO order inside each level; returns all trades and the final remainder. -/
def spec_cross (taker : PlaceOrder) : Nat → List (Nat × List Maker) → Nat →
    List TradeEvent × Nat
  | 0, _, remaining => ([], remaining)
  | fuel + 1, view, remaining =>
    if remaining = 0 then ([], 0)
    else
      match spec_best view taker.side.opposite with
      | none => ([], remaining)
      | some best =>
        if prices_cross taker.price best taker.side then
          let makers := (lookupA view best).getD []
          let res := spec_level_trades taker best makers remaining
          let res2 := spec_cross taker fuel (eraseA view best) res.2
          (res.1 ++ res2.1, res2.2)
        else ([], remaining)

/-- Total quantity of the crossing levels of a spec view. -/
def spec_crossable (taker : PlaceOrder) (view : List (Nat × List Maker)) : Nat :=
  view.foldr
    (fun pl acc =>
      if prices_cross taker.price pl.1 taker.side then acc + (pl.2.map Maker.qty).sum else acc) 0

/-- The free list as a relation: the chain starting at a head index consists
exactly of the given indices. -/
inductive FreeChain (a : Arena) : Nat → List Nat → Prop where
  | nil : FreeChain a NULL_INDEX []
  | cons {i : Nat} {rest : List Nat} :
      i ≠ NULL_INDEX → FreeChain a (a.get i).next rest → FreeChain a i (i :: rest)

/-- An arena index is live when some level of the book stores it. -/
def OrderBook.Live (b : OrderBook) (index : Nat) : Prop :=
  ∃ side price level, b.get_level side price = some level ∧ index ∈ level.orders

/-- Well formedness of one price level stored in the book. -/
structure LevelWF (arena : Arena) (level : PriceLevel) : Prop where
  ne : level.orders ≠ []
  nodup : level.orders.Nodup
  count_eq : level.count = level.orders.length
  total_eq : level.total_qty = (level.orders.map fun i => (arena.get i).qty).sum
  bounded : ∀ i ∈ level.orders, i < arena.capacity

/-- The reachable state invariant of the matching engine. -/
structure EngineInv (e : MatchingEngine) : Prop where
  cap_lt : e.arena.capacity < NULL_INDEX
  nodes_len : e.arena.nodes.length = e.arena.capacity
  bids_nodup : (keysA e.book.bids).Nodup
  asks_nodup : (keysA e.book.asks).Nodup
  levels_wf : ∀ side price level, e.book.get_level side price = some level →
    LevelWF e.arena level
  best_bid_eq : e.book.best_bid = keyMax (keysA e.book.bids)
  best_ask_eq : e.book.best_ask = keyMin (keysA e.book.asks)
  not_crossed : ∀ b a, e.book.best_bid = some b → e.book.best_ask = some a → b < a
  live_uniq : ∀ s1 p1 l1 s2 p2 l2 i, e.book.get_level s1 p1 = some l1 →
    e.book.get_level s2 p2 = some l2 → i ∈ l1.orders → i ∈ l2.orders →
    s1 = s2 ∧ p1 = p2
  omap_nodup : (keysA e.book.order_map).Nodup
  omap_wf : ∀ id info, lookupA e.book.order_map id = some info →
    info.arena_index < e.arena.capacity ∧
    (e.arena.get info.arena_index).order_id = id ∧
    ∃ level, e.book.get_level info.side info.price = some level ∧
      info.arena_index ∈ level.orders
  free_ok : ∃ fl, FreeChain e.arena e.arena.free_head fl ∧ fl.Nodup ∧
    (∀ i ∈ fl, i < e.arena.capacity) ∧ ∀ i ∈ fl, ¬ e.book.Live i

/-- Canonical run of the spec cross walk: the fuel one more than the number
of levels always suffices, because each step erases the best level. -/
def spec_cross_run (taker : PlaceOrder) (view : List (Nat × List Maker)) (r : Nat) :
    List TradeEvent × Nat :=
  spec_cross taker (view.length + 1) view r

/-- Facts established about one run of match_at_level from a well formed
state: well formedness is preserved, the emitted trades and the remainder
realise the spec walk of the level, only market data is emitted, the other
side of the book and its cache are untouched, locator keys only shrink, and
a positive remainder means the level was drained and removed. -/
structure MatchOutcome (e : MatchingEngine) (o : PlaceOrder) (p : Nat) (ms : Side)
    (makers : List Maker) (r : Nat)
    (res : MatchingEngine × Nat × List OutputEvent) : Prop where
  inv : EngineInv res.1
  trades_eq : tradesOf res.2.2 = (spec_level_trades o p makers r).1
  rem_eq : res.2.1 = (spec_level_trades o p makers r).2
  md_only : ∀ ev ∈ res.2.2, ev.isMarketData = true
  other_side_eq : res.1.book.sideOf ms.opposite = e.book.sideOf ms.opposite
  best_other : res.1.book.best_price ms.opposite = e.book.best_price ms.opposite
  omap_sub : ∀ id, id ∈ keysA res.1.book.order_map → id ∈ keysA e.book.order_map
  drained : 0 < res.2.1 → res.1.book.sideOf ms = eraseA (e.book.sideOf ms) p
  view_drained : 0 < res.2.1 → res.1.book_view ms = eraseA (e.book_view ms) p

/-- Facts established about one run of cross_order from a well formed state:
well formedness is preserved, trades and remainder realise the spec cross
walk over the pre state view of the opposite side, only market data is
emitted, the taker side of the book and its cache are untouched, locator
keys only shrink, and a positive remainder means no opposite price crosses
any more. -/
structure CrossOutcome (e : MatchingEngine) (o : PlaceOrder) (r : Nat)
    (res : MatchingEngine × Nat × List OutputEvent) : Prop where
  inv : EngineInv res.1
  trades_eq : tradesOf res.2.2 = (spec_cross_run o (e.book_view o.side.opposite) r).1
  rem_eq : res.2.1 = (spec_cross_run o (e.book_view o.side.opposite) r).2
  md_only : ∀ ev ∈ res.2.2, ev.isMarketData = true
  same_side_eq : res.1.book.sideOf o.side = e.book.sideOf o.side
  best_same : res.1.book.best_price o.side = e.book.best_price o.side
  omap_sub : ∀ id, id ∈ keysA res.1.book.order_map → id ∈ keysA e.book.order_map
  no_cross_left : 0 < res.2.1 → ∀ bp, res.1.book.best_opposite_price o.side = some bp →
    prices_cross o.price bp o.side = false

/-- Simulation facts of one run of cross_order with the spec walk run at the
same fuel; the canonical statement over spec_cross_run follows by fuel
invariance of the spec walk. -/
structure CrossSim (e : MatchingEngine) (o : PlaceOrder) (f : Nat) (r : Nat)
    (res : MatchingEngine × Nat × List OutputEvent) : Prop where
  inv : EngineInv res.1
  trades_eq : tradesOf res.2.2 = (spec_cross o f (e.book_view o.side.opposite) r).1
  rem_eq : res.2.1 = (spec_cross o f (e.book_view o.side.opposite) r).2
  md_only : ∀ ev ∈ res.2.2, ev.isMarketData = true
  same_side_eq : res.1.book.sideOf o.side = e.book.sideOf o.side
  best_same : res.1.book.best_price o.side = e.book.best_price o.side
  omap_sub : ∀ id, id ∈ keysA res.1.book.order_map → id ∈ keysA e.book.order_map
  no_cross_left : 0 < res.2.1 → ∀ bp, res.1.book.best_opposite_price o.side = some bp →
    prices_cross o.price bp o.side = false

/-! ## Association list lemmas -/

theorem lookupA_cons_self {β : Type} (v : β) (m : List (Nat × β)) (k : Nat) :
    lookupA ((k, v) :: m) k = some v := by
  simp [lookupA]

theorem lookupA_cons_ne {β : Type} (e : Nat × β) (m : List (Nat × β)) (k : Nat)
    (h : e.1 ≠ k) : lookupA (e :: m) k = lookupA m k := by
  simp [lookupA, h]

theorem lookupA_isSome_iff_mem_keys {β : Type} (m : List (Nat × β)) (k : Nat) :
    (lookupA m k).isSome ↔ k ∈ keysA m := by
  induction m with
  | nil => simp [lookupA, keysA]
  | cons e rest ih =>
    by_cases h : e.1 = k
    · subst h; simp [lookupA, keysA]
    · simp [lookupA, keysA, h, ih, Ne.symm h]

theorem lookupA_eq_none_of_not_mem {β : Type} (m : List (Nat × β)) (k : Nat)
    (h : k ∉ keysA m) : lookupA m k = none := by
  have h2 := (lookupA_isSome_iff_mem_keys m k).not.2 h
  cases hl : lookupA m k with
  | none => rfl
  | some v => rw [hl] at h2; simp at h2

theorem mem_keys_of_lookupA {β : Type} {m : List (Nat × β)} {k : Nat} {v : β}
    (h : lookupA m k = some v) : k ∈ keysA m := by
  have h2 : (lookupA m k).isSome := by rw [h]; rfl
  exact (lookupA_isSome_iff_mem_keys m k).1 h2

theorem mem_of_lookupA {β : Type} {m : List (Nat × β)} {k : Nat} {v : β}
    (h : lookupA m k = some v) : (k, v) ∈ m := by
  induction m with
  | nil => simp [lookupA] at h
  | cons e rest ih =>
    obtain ⟨ek, ev⟩ := e
    rw [lookupA] at h
    by_cases he : ek = k
    · subst he
      simp at h
      subst h
      exact List.mem_cons_self _ _
    · simp only [he, if_false] at h
      exact List.mem_cons_of_mem _ (ih h)

theorem lookupA_of_mem {β : Type} {m : List (Nat × β)} {k : Nat} {v : β}
    (hnd : (keysA m).Nodup) (h : (k, v) ∈ m) : lookupA m k = some v := by
  induction m with
  | nil => simp at h
  | cons e rest ih =>
    obtain ⟨ek, ev⟩ := e
    have hnd2 := hnd
    simp only [keysA, List.map_cons, List.nodup_cons] at hnd2
    rcases List.mem_cons.1 h with h1 | h1
    · rw [Prod.mk.injEq] at h1
      rw [lookupA, if_pos h1.1.symm, h1.2]
    · have hkm : k ∈ keysA rest := List.mem_map.2 ⟨(k, v), h1, rfl⟩
      have hne : ek ≠ k := by
        intro hek
        subst hek
        exact hnd2.1 hkm
      rw [lookupA, if_neg hne]
      exact ih hnd2.2 h1

theorem containsA_eq_true_iff {β : Type} (m : List (Nat × β)) (k : Nat) :
    containsA m k = true ↔ k ∈ keysA m := by
  rw [containsA]
  exact lookupA_isSome_iff_mem_keys m k

theorem containsA_eq_false_iff {β : Type} (m : List (Nat × β)) (k : Nat) :
    containsA m k = false ↔ k ∉ keysA m := by
  rw [← containsA_eq_true_iff]
  cases containsA m k <;> simp

theorem keysA_updateA {β : Type} (m : List (Nat × β)) (k : Nat) (v : β) :
    keysA (updateA m k v) = keysA m := by
  induction m with
  | nil => rfl
  | cons e rest ih =>
    by_cases h : e.1 = k
    · subst h
      simp only [updateA, keysA, List.map_cons, if_pos rfl] at ih ⊢
      exact congrArg _ ih
    · simp only [updateA, keysA, List.map_cons, if_neg h] at ih ⊢
      exact congrArg _ ih

theorem updateA_id_of_not_mem {β : Type} (m : List (Nat × β)) (k : Nat) (v : β)
    (h : k ∉ keysA m) : updateA m k v = m := by
  induction m with
  | nil => rfl
  | cons e rest ih =>
    simp only [keysA, List.map_cons, List.mem_cons] at h
    push_neg at h
    rw [updateA, List.map_cons]
    have he : e.1 ≠ k := fun hek => h.1 hek.symm
    rw [if_neg he]
    have := ih (by simpa [keysA] using h.2)
    rw [updateA] at this
    rw [this]

theorem lookupA_updateA_self {β : Type} (m : List (Nat × β)) (k : Nat) (v : β)
    (h : k ∈ keysA m) : lookupA (updateA m k v) k = some v := by
  induction m with
  | nil => simp [keysA] at h
  | cons e rest ih =>
    by_cases he : e.1 = k
    · subst he; simp [updateA, lookupA]
    · simp only [keysA, List.map_cons, List.mem_cons] at h
      rcases h with h | h
      · exact absurd h.symm he
      · rw [updateA, List.map_cons, if_neg he, lookupA, if_neg he]
        have := ih h
        rw [updateA] at this
        exact this

theorem lookupA_updateA_ne {β : Type} (m : List (Nat × β)) (k j : Nat) (v : β)
    (h : j ≠ k) : lookupA (updateA m k v) j = lookupA m j := by
  induction m with
  | nil => rfl
  | cons e rest ih =>
    by_cases he : e.1 = k
    · subst he
      rw [updateA, List.map_cons, if_pos rfl, lookupA, if_neg (Ne.symm h),
        lookupA, if_neg (fun hj => h hj.symm)]
      have := ih
      rw [updateA] at this
      exact this
    · by_cases hej : e.1 = j
      · subst hej
        rw [updateA, List.map_cons, if_neg he, lookupA, if_pos rfl, lookupA, if_pos rfl]
      · rw [updateA, List.map_cons, if_neg he, lookupA, if_neg hej, lookupA, if_neg hej]
        have := ih
        rw [updateA] at this
        exact this

theorem keysA_eraseA {β : Type} (m : List (Nat × β)) (k : Nat) :
    keysA (eraseA m k) = (keysA m).erase k := by
  induction m with
  | nil => rfl
  | cons e rest ih =>
    by_cases h : e.1 = k
    · subst h
      simp [eraseA, keysA, List.erase_cons_head]
    · simp only [eraseA, if_neg h, keysA, List.map_cons]
      rw [List.erase_cons_tail]
      · exact congrArg _ ih
      · simp [h]

theorem lookupA_eraseA_ne {β : Type} (m : List (Nat × β)) (k j : Nat)
    (h : j ≠ k) : lookupA (eraseA m k) j = lookupA m j := by
  induction m with
  | nil => rfl
  | cons e rest ih =>
    by_cases he : e.1 = k
    · subst he
      rw [eraseA, if_pos rfl, lookupA, if_neg (fun hj => h hj.symm)]
    · rw [eraseA, if_neg he]
      by_cases hej : e.1 = j
      · subst hej; simp [lookupA]
      · rw [lookupA, if_neg hej, lookupA, if_neg hej, ih]

theorem lookupA_eraseA_self {β : Type} (m : List (Nat × β)) (k : Nat)
    (hnd : (keysA m).Nodup) : lookupA (eraseA m k) k = none := by
  induction m with
  | nil => rfl
  | cons e rest ih =>
    have hnd2 := hnd
    simp only [keysA, List.map_cons, List.nodup_cons] at hnd2
    by_cases he : e.1 = k
    · rw [eraseA, if_pos he]
      apply lookupA_eq_none_of_not_mem
      rw [← he]
      exact hnd2.1
    · rw [eraseA, if_neg he, lookupA, if_neg he]
      exact ih hnd2.2

theorem length_eraseA_of_mem {β : Type} (m : List (Nat × β)) (k : Nat)
    (h : k ∈ keysA m) : (eraseA m k).length = m.length - 1 := by
  induction m with
  | nil => simp [keysA] at h
  | cons e rest ih =>
    by_cases he : e.1 = k
    · simp [eraseA, he]
    · simp only [keysA, List.map_cons, List.mem_cons] at h
      rcases h with h | h
      · exact absurd h.symm he
      · have hr : k ∈ keysA rest := h
        have hrest : rest.length ≠ 0 := by
          intro h0
          rw [List.length_eq_zero] at h0
          subst h0
          simp [keysA] at hr
        rw [eraseA, if_neg he]
        simp only [List.length_cons]
        rw [ih hr]
        omega

theorem eraseA_updateA {β : Type} (m : List (Nat × β)) (k : Nat) (v : β)
    (hnd : (keysA m).Nodup) : eraseA (updateA m k v) k = eraseA m k := by
  induction m with
  | nil => rfl
  | cons e rest ih =>
    have hnd2 := hnd
    simp only [keysA, List.map_cons, List.nodup_cons] at hnd2
    by_cases he : e.1 = k
    · subst he
      rw [updateA, List.map_cons, if_pos rfl, eraseA, if_pos rfl, eraseA, if_pos rfl]
      exact updateA_id_of_not_mem rest e.1 v hnd2.1
    · rw [updateA, List.map_cons, if_neg he, eraseA, if_neg he, eraseA, if_neg he]
      have := ih hnd2.2
      rw [updateA] at this
      exact congrArg _ this

/-! ## Key extremum lemmas -/

theorem keyMax_eq_none_iff (l : List Nat) : keyMax l = none ↔ l = [] := by
  cases l with
  | nil => simp [keyMax]
  | cons k rest =>
    simp only [keyMax]
    cases keyMax rest <;> simp

theorem keyMax_spec {l : List Nat} {m : Nat} (h : keyMax l = some m) :
    m ∈ l ∧ ∀ j ∈ l, j ≤ m := by
  induction l generalizing m with
  | nil => simp [keyMax] at h
  | cons k rest ih =>
    rw [keyMax] at h
    cases hr : keyMax rest with
    | none =>
      rw [hr] at h
      simp at h
      subst h
      have hre : rest = [] := (keyMax_eq_none_iff rest).1 hr
      subst hre
      simp
    | some mr =>
      rw [hr] at h
      simp at h
      subst h
      rcases ih hr with ⟨hmem, hbound⟩
      constructor
      · rcases max_choice k mr with hc | hc <;> rw [hc]
        · exact List.mem_cons_self k rest
        · exact List.mem_cons_of_mem k hmem
      · intro j hj
        rcases List.mem_cons.1 hj with hj | hj
        · subst hj; exact le_max_left _ _
        · exact le_trans (hbound j hj) (le_max_right k mr)

theorem keyMax_eq_some_of {l : List Nat} {m : Nat} (hmem : m ∈ l)
    (hbound : ∀ j ∈ l, j ≤ m) : keyMax l = some m := by
  induction l with
  | nil => simp at hmem
  | cons k rest ih =>
    rw [keyMax]
    cases hr : keyMax rest with
    | none =>
      have hre : rest = [] := (keyMax_eq_none_iff rest).1 hr
      subst hre
      simp at hmem
      simp [hmem]
    | some mr =>
      rcases keyMax_spec hr with ⟨hmr, hmrb⟩
      rcases List.mem_cons.1 hmem with h | h
      · subst h
        have h1 : mr ≤ m := hbound mr (List.mem_cons_of_mem _ hmr)
        simp [max_eq_left h1]
      · have h1 : mr ≤ m := hbound mr (List.mem_cons_of_mem _ hmr)
        have h2 : m ≤ mr := hmrb m h
        have h3 : m = mr := le_antisymm h2 h1
        subst h3
        have h4 : k ≤ m := hbound k (List.mem_cons_self k rest)
        simp [max_eq_right h4]

theorem keyMin_eq_none_iff (l : List Nat) : keyMin l = none ↔ l = [] := by
  cases l with
  | nil => simp [keyMin]
  | cons k rest =>
    simp only [keyMin]
    cases keyMin rest <;> simp

theorem keyMin_spec {l : List Nat} {m : Nat} (h : keyMin l = some m) :
    m ∈ l ∧ ∀ j ∈ l, m ≤ j := by
  induction l generalizing m with
  | nil => simp [keyMin] at h
  | cons k rest ih =>
    rw [keyMin] at h
    cases hr : keyMin rest with
    | none =>
      rw [hr] at h
      simp at h
      subst h
      have hre : rest = [] := (keyMin_eq_none_iff rest).1 hr
      subst hre
      simp
    | some mr =>
      rw [hr] at h
      simp at h
      subst h
      rcases ih hr with ⟨hmem, hbound⟩
      constructor
      · rcases min_choice k mr with hc | hc <;> rw [hc]
        · exact List.mem_cons_self k rest
        · exact List.mem_cons_of_mem k hmem
      · intro j hj
        rcases List.mem_cons.1 hj with hj | hj
        · subst hj; exact min_le_left _ _
        · exact le_trans (min_le_right k mr) (hbound j hj)

theorem keyMin_eq_some_of {l : List Nat} {m : Nat} (hmem : m ∈ l)
    (hbound : ∀ j ∈ l, m ≤ j) : keyMin l = some m := by
  induction l with
  | nil => simp at hmem
  | cons k rest ih =>
    rw [keyMin]
    cases hr : keyMin rest with
    | none =>
      have hre : rest = [] := (keyMin_eq_none_iff rest).1 hr
      subst hre
      simp at hmem
      simp [hmem]
    | some mr =>
      rcases keyMin_spec hr with ⟨hmr, hmrb⟩
      rcases List.mem_cons.1 hmem with h | h
      · subst h
        have h1 : m ≤ mr := hbound mr (List.mem_cons_of_mem _ hmr)
        simp [min_eq_left h1]
      · have h1 : m ≤ mr := hbound mr (List.mem_cons_of_mem _ hmr)
        have h2 : mr ≤ m := hmrb m h
        have h3 : m = mr := le_antisymm h1 h2
        subst h3
        have h4 : m ≤ k := hbound k (List.mem_cons_self k rest)
        simp [min_eq_right h4]

/-! ## Arena lemmas -/

theorem Arena.get_set_node_self (a : Arena) (i : Nat) (f : OrderNode → OrderNode)
    (h : i < a.nodes.length) : (a.set_node i f).get i = f (a.get i) := by
  simp [Arena.get, Arena.set_node, List.getD_eq_getElem?_getD, List.getElem?_set_self, h]

theorem Arena.get_set_node_ne (a : Arena) (i j : Nat) (f : OrderNode → OrderNode)
    (h : j ≠ i) : (a.set_node i f).get j = a.get j := by
  simp [Arena.get, Arena.set_node, List.getD_eq_getElem?_getD,
    List.getElem?_set_ne (fun hij => h hij.symm)]

theorem Arena.set_node_nodes_length (a : Arena) (i : Nat) (f : OrderNode → OrderNode) :
    (a.set_node i f).nodes.length = a.nodes.length := by
  simp [Arena.set_node]

theorem Arena.set_node_capacity (a : Arena) (i : Nat) (f : OrderNode → OrderNode) :
    (a.set_node i f).capacity = a.capacity := rfl

theorem Arena.set_node_free_head (a : Arena) (i : Nat) (f : OrderNode → OrderNode) :
    (a.set_node i f).free_head = a.free_head := rfl

theorem Arena.set_node_allocated (a : Arena) (i : Nat) (f : OrderNode → OrderNode) :
    (a.set_node i f).allocated_count = a.allocated_count := rfl

theorem FreeChain.stable {a a2 : Arena} {h : Nat} {fl : List Nat}
    (hc : FreeChain a h fl) (hget : ∀ i ∈ fl, (a2.get i).next = (a.get i).next) :
    FreeChain a2 h fl := by
  induction hc with
  | nil => exact FreeChain.nil
  | @cons i rest hne _ ih =>
    refine FreeChain.cons hne ?_
    rw [hget i (List.mem_cons_self i rest)]
    exact ih fun j hj => hget j (List.mem_cons_of_mem i hj)

theorem FreeChain.nil_inv {a : Arena} {h : Nat} (hc : FreeChain a h []) :
    h = NULL_INDEX := by
  cases hc; rfl

theorem FreeChain.cons_inv {a : Arena} {h i : Nat} {tl : List Nat}
    (hc : FreeChain a h (i :: tl)) :
    h = i ∧ i ≠ NULL_INDEX ∧ FreeChain a (a.get i).next tl := by
  cases hc with
  | cons hne hrest => exact ⟨rfl, hne, hrest⟩

theorem FreeChain.alloc_none {a : Arena} (hc : FreeChain a a.free_head []) :
    a.alloc = none := by
  have h := FreeChain.nil_inv hc
  rw [Arena.alloc, if_pos h]

theorem Arena.free_spec (a : Arena) (idx : Nat) (hidx : idx < a.nodes.length) :
    (a.free idx).free_head = idx ∧
    (a.free idx).allocated_count = a.allocated_count - 1 ∧
    (a.free idx).capacity = a.capacity ∧
    (a.free idx).nodes.length = a.nodes.length ∧
    (∀ j, j ≠ idx → (a.free idx).get j = a.get j) ∧
    (a.free idx).get idx = { OrderNode.empty with next := a.free_head } := by
  refine ⟨rfl, rfl, rfl, ?_, ?_, ?_⟩
  · simp [Arena.free, Arena.set_node]
  · intro j hj
    have := Arena.get_set_node_ne a idx j (fun _ => { OrderNode.empty with next := a.free_head }) hj
    simpa [Arena.free, Arena.get] using this
  · have := Arena.get_set_node_self a idx (fun _ => { OrderNode.empty with next := a.free_head }) hidx
    simpa [Arena.free, Arena.get] using this

theorem FreeChain.after_free {a : Arena} {fl : List Nat} {idx : Nat}
    (hc : FreeChain a a.free_head fl) (hidx : idx < a.nodes.length)
    (hnotin : idx ∉ fl) (hne : idx ≠ NULL_INDEX) :
    FreeChain (a.free idx) (a.free idx).free_head (idx :: fl) := by
  obtain ⟨hfh, _, _, _, hoth, hself⟩ := Arena.free_spec a idx hidx
  rw [hfh]
  refine FreeChain.cons hne ?_
  rw [hself]
  show FreeChain (a.free idx) a.free_head fl
  refine hc.stable fun j hj => ?_
  rw [hoth j (fun hji => hnotin (hji ▸ hj))]

theorem Arena.alloc_spec {a : Arena} {i : Nat} {tl : List Nat}
    (hc : FreeChain a a.free_head (i :: tl)) (hnd : (i :: tl).Nodup)
    (hi : i < a.nodes.length) :
    ∃ a2, a.alloc = some (i, a2) ∧
      a2.free_head = (a.get i).next ∧
      a2.allocated_count = a.allocated_count + 1 ∧
      a2.capacity = a.capacity ∧
      a2.nodes.length = a.nodes.length ∧
      (∀ j, j ≠ i → a2.get j = a.get j) ∧
      a2.get i = { a.get i with next := NULL_INDEX, prev := NULL_INDEX } ∧
      FreeChain a2 a2.free_head tl := by
  obtain ⟨hhead, hne, hrest⟩ := FreeChain.cons_inv hc
  have hinotin : i ∉ tl := (List.nodup_cons.1 hnd).1
  set a2 : Arena := ({ a with free_head := (a.get i).next, allocated_count := a.allocated_count + 1 } : Arena).set_node i (fun n => { n with next := NULL_INDEX, prev := NULL_INDEX }) with ha2
  refine ⟨a2, ?_, ?_, ?_, ?_, ?_, ?_, ?_, ?_⟩
  · rw [Arena.alloc, if_neg (by rw [hhead]; exact hne)]
    rw [hhead, ha2]
  · rw [ha2]; rfl
  · rw [ha2]; rfl
  · rw [ha2]; rfl
  · rw [ha2]; simp [Arena.set_node]
  · intro j hj
    rw [ha2]
    exact Arena.get_set_node_ne _ i j _ hj
  · rw [ha2]
    exact Arena.get_set_node_self
      { a with free_head := (a.get i).next, allocated_count := a.allocated_count + 1 } i _ hi
  · have hfh : a2.free_head = (a.get i).next := by rw [ha2]; rfl
    rw [hfh, ha2]
    refine hrest.stable fun j hj => ?_
    have hji : j ≠ i := fun hj2 => hinotin (hj2 ▸ hj)
    rw [Arena.get_set_node_ne _ i j _ hji]
    rfl

/-! ## Further extremum lemmas -/

theorem keyMax_erase_of_ne {l : List Nat} {m p : Nat} (h : keyMax l = some m)
    (hne : p ≠ m) : keyMax (l.erase p) = some m := by
  rcases keyMax_spec h with ⟨hmem, hbound⟩
  refine keyMax_eq_some_of ((List.mem_erase_of_ne (fun h2 => hne h2.symm)).2 hmem) ?_
  intro j hj
  exact hbound j (List.erase_subset _ _ hj)

theorem keyMax_erase_le {l : List Nat} {m m2 p : Nat} (h : keyMax l = some m)
    (h2 : keyMax (l.erase p) = some m2) : m2 ≤ m := by
  rcases keyMax_spec h2 with ⟨hmem, _⟩
  exact (keyMax_spec h).2 m2 (List.erase_subset _ _ hmem)

theorem keyMin_erase_of_ne {l : List Nat} {m p : Nat} (h : keyMin l = some m)
    (hne : p ≠ m) : keyMin (l.erase p) = some m := by
  rcases keyMin_spec h with ⟨hmem, hbound⟩
  refine keyMin_eq_some_of ((List.mem_erase_of_ne (fun h2 => hne h2.symm)).2 hmem) ?_
  intro j hj
  exact hbound j (List.erase_subset _ _ hj)

theorem keyMin_erase_ge {l : List Nat} {m m2 p : Nat} (h : keyMin l = some m)
    (h2 : keyMin (l.erase p) = some m2) : m ≤ m2 := by
  rcases keyMin_spec h2 with ⟨hmem, _⟩
  exact (keyMin_spec h).2 m2 (List.erase_subset _ _ hmem)

/-! ## Side and book operation lemmas -/

theorem Side.opposite_opposite (s : Side) : s.opposite.opposite = s := by
  cases s <;> rfl

theorem Side.opposite_ne (s : Side) : s.opposite ≠ s := by
  cases s <;> simp [Side.opposite]

theorem OrderBook.sideOf_set_level_same (b : OrderBook) (s : Side) (p : Nat) (L : PriceLevel) :
    (b.set_level s p L).sideOf s = updateA (b.sideOf s) p L := by
  cases s <;> rfl

theorem OrderBook.sideOf_set_level_other (b : OrderBook) (s s2 : Side) (p : Nat) (L : PriceLevel)
    (h : s2 ≠ s) : (b.set_level s p L).sideOf s2 = b.sideOf s2 := by
  cases s <;> cases s2 <;> first | rfl | exact absurd rfl h

theorem OrderBook.set_level_best_bid (b : OrderBook) (s : Side) (p : Nat) (L : PriceLevel) :
    (b.set_level s p L).best_bid = b.best_bid := by
  cases s <;> rfl

theorem OrderBook.set_level_best_ask (b : OrderBook) (s : Side) (p : Nat) (L : PriceLevel) :
    (b.set_level s p L).best_ask = b.best_ask := by
  cases s <;> rfl

theorem OrderBook.set_level_order_map (b : OrderBook) (s : Side) (p : Nat) (L : PriceLevel) :
    (b.set_level s p L).order_map = b.order_map := by
  cases s <;> rfl

theorem OrderBook.get_level_eq_lookup (b : OrderBook) (s : Side) (p : Nat) :
    b.get_level s p = lookupA (b.sideOf s) p := rfl

theorem OrderBook.get_level_set_level_self (b : OrderBook) (s : Side) (p : Nat) (L : PriceLevel)
    (h : p ∈ keysA (b.sideOf s)) : (b.set_level s p L).get_level s p = some L := by
  rw [OrderBook.get_level_eq_lookup, OrderBook.sideOf_set_level_same]
  exact lookupA_updateA_self _ p L h

theorem OrderBook.get_level_set_level_ne (b : OrderBook) (s : Side) (p q : Nat) (L : PriceLevel)
    (h : q ≠ p) : (b.set_level s p L).get_level s q = b.get_level s q := by
  rw [OrderBook.get_level_eq_lookup, OrderBook.sideOf_set_level_same,
    OrderBook.get_level_eq_lookup]
  exact lookupA_updateA_ne _ p q L h

theorem OrderBook.get_level_set_level_other (b : OrderBook) (s s2 : Side) (p q : Nat)
    (L : PriceLevel) (h : s2 ≠ s) : (b.set_level s p L).get_level s2 q = b.get_level s2 q := by
  rw [OrderBook.get_level_eq_lookup, OrderBook.sideOf_set_level_other b s s2 p L h,
    OrderBook.get_level_eq_lookup]

theorem OrderBook.sideOf_remove_empty_same (b : OrderBook) (s : Side) (p : Nat) :
    (b.remove_empty_level s p).sideOf s = eraseA (b.sideOf s) p := by
  cases s <;> simp [OrderBook.remove_empty_level, OrderBook.sideOf,
    OrderBook.recalculate_best_bid, OrderBook.recalculate_best_ask] <;> split <;> rfl

theorem OrderBook.sideOf_remove_empty_other (b : OrderBook) (s s2 : Side) (p : Nat)
    (h : s2 ≠ s) : (b.remove_empty_level s p).sideOf s2 = b.sideOf s2 := by
  cases s <;> cases s2 <;>
    first
    | exact absurd rfl h
    | simp [OrderBook.remove_empty_level, OrderBook.sideOf,
        OrderBook.recalculate_best_bid, OrderBook.recalculate_best_ask] <;> split <;> rfl

theorem OrderBook.remove_empty_level_order_map (b : OrderBook) (s : Side) (p : Nat) :
    (b.remove_empty_level s p).order_map = b.order_map := by
  cases s <;> simp [OrderBook.remove_empty_level,
    OrderBook.recalculate_best_bid, OrderBook.recalculate_best_ask] <;> split <;> rfl

theorem OrderBook.remove_empty_level_best_other_bid (b : OrderBook) (p : Nat) :
    (b.remove_empty_level .Ask p).best_bid = b.best_bid := by
  simp [OrderBook.remove_empty_level, OrderBook.recalculate_best_ask]
  split <;> rfl

theorem OrderBook.remove_empty_level_best_other_ask (b : OrderBook) (p : Nat) :
    (b.remove_empty_level .Bid p).best_ask = b.best_ask := by
  simp [OrderBook.remove_empty_level, OrderBook.recalculate_best_bid]
  split <;> rfl

theorem OrderBook.remove_empty_level_caches (b : OrderBook) (s : Side) (p : Nat)
    (hbb : b.best_bid = keyMax (keysA b.bids)) (hba : b.best_ask = keyMin (keysA b.asks)) :
    (b.remove_empty_level s p).best_bid = keyMax (keysA (b.remove_empty_level s p).bids) ∧
    (b.remove_empty_level s p).best_ask = keyMin (keysA (b.remove_empty_level s p).asks) := by
  cases s with
  | Bid =>
    simp only [OrderBook.remove_empty_level]
    split
    · constructor
      · simp [OrderBook.recalculate_best_bid]
      · simp [OrderBook.recalculate_best_bid, hba]
    · rename_i hnp
      constructor
      · simp only []
        rw [keysA_eraseA]
        cases hm : keyMax (keysA b.bids) with
        | none =>
          have : keysA b.bids = [] := (keyMax_eq_none_iff _).1 hm
          rw [this]
          simpa [this] using hbb
        | some m =>
          have hpm : p ≠ m := by
            intro hpm
            subst hpm
            exact hnp (by simpa [hm] using hbb)
          rw [keyMax_erase_of_ne hm hpm]
          rw [hbb, hm]
      · exact hba
  | Ask =>
    simp only [OrderBook.remove_empty_level]
    split
    · constructor
      · simp [OrderBook.recalculate_best_ask, hbb]
      · simp [OrderBook.recalculate_best_ask]
    · rename_i hnp
      constructor
      · exact hbb
      · simp only []
        rw [keysA_eraseA]
        cases hm : keyMin (keysA b.asks) with
        | none =>
          have : keysA b.asks = [] := (keyMin_eq_none_iff _).1 hm
          rw [this]
          simpa [this] using hba
        | some m =>
          have hpm : p ≠ m := by
            intro hpm
            subst hpm
            exact hnp (by simpa [hm] using hba)
          rw [keyMin_erase_of_ne hm hpm]
          rw [hba, hm]

theorem OrderBook.remove_empty_level_not_crossed (b : OrderBook) (s : Side) (p : Nat)
    (hbb : b.best_bid = keyMax (keysA b.bids)) (hba : b.best_ask = keyMin (keysA b.asks))
    (hnc : ∀ x y, b.best_bid = some x → b.best_ask = some y → x < y) :
    ∀ x y, (b.remove_empty_level s p).best_bid = some x →
      (b.remove_empty_level s p).best_ask = some y → x < y := by
  cases s with
  | Bid =>
    intro x y hx hy
    simp only [OrderBook.remove_empty_level] at hx hy
    by_cases hc : b.best_bid = some p
    · rw [if_pos hc] at hx hy
      simp only [OrderBook.recalculate_best_bid] at hx hy
      have hy2 : b.best_ask = some y := hy
      have hx2 : keyMax (keysA (eraseA b.bids p)) = some x := hx
      rw [keysA_eraseA] at hx2
      have hple : x ≤ p := by
        refine keyMax_erase_le ?_ hx2
        rw [← hbb]; exact hc
      exact lt_of_le_of_lt hple (hnc p y hc hy2)
    · rw [if_neg hc] at hx hy
      exact hnc x y hx hy
  | Ask =>
    intro x y hx hy
    simp only [OrderBook.remove_empty_level] at hx hy
    by_cases hc : b.best_ask = some p
    · rw [if_pos hc] at hx hy
      simp only [OrderBook.recalculate_best_ask] at hx hy
      have hx2 : b.best_bid = some x := hx
      have hy2 : keyMin (keysA (eraseA b.asks p)) = some y := hy
      rw [keysA_eraseA] at hy2
      have hple : p ≤ y := by
        refine keyMin_erase_ge ?_ hy2
        rw [← hba]; exact hc
      exact lt_of_lt_of_le (hnc x p hx2 hc) hple
    · rw [if_neg hc] at hx hy
      exact hnc x y hx hy

theorem OrderBook.update_best_sideOf (b : OrderBook) (s s2 : Side) (p : Nat) :
    (b.update_best_price_on_add s p).sideOf s2 = b.sideOf s2 := by
  cases s <;> cases s2 <;>
    simp [OrderBook.update_best_price_on_add, OrderBook.sideOf] <;> split <;> rfl

theorem OrderBook.update_best_order_map (b : OrderBook) (s : Side) (p : Nat) :
    (b.update_best_price_on_add s p).order_map = b.order_map := by
  cases s <;> simp [OrderBook.update_best_price_on_add] <;> split <;> rfl

theorem OrderBook.update_best_bid_of_ask (b : OrderBook) (p : Nat) :
    (b.update_best_price_on_add .Ask p).best_bid = b.best_bid := by
  simp [OrderBook.update_best_price_on_add]
  split <;> rfl

theorem OrderBook.update_best_ask_of_bid (b : OrderBook) (p : Nat) :
    (b.update_best_price_on_add .Bid p).best_ask = b.best_ask := by
  simp [OrderBook.update_best_price_on_add]
  split <;> rfl

theorem OrderBook.update_best_new_bid (b : OrderBook) (p : Nat)
    (hbb : b.best_bid = keyMax (keysA b.bids)) :
    (b.update_best_price_on_add .Bid p).best_bid = keyMax (p :: keysA b.bids) := by
  simp only [OrderBook.update_best_price_on_add]
  cases hm : keyMax (keysA b.bids) with
  | none =>
    rw [hbb, hm]
    simp [keyMax, hm]
  | some m =>
    rw [hbb, hm]
    by_cases hlt : m < p
    · simp only [Option.all_some, decide_eq_true_eq]
      rw [if_pos hlt]
      rw [keyMax, hm]
      simp [max_eq_left (le_of_lt hlt)]
    · simp only [Option.all_some, decide_eq_true_eq]
      rw [if_neg hlt]
      rw [keyMax, hm]
      simp [hbb, hm, max_eq_right (le_of_not_lt hlt)]

theorem OrderBook.update_best_new_ask (b : OrderBook) (p : Nat)
    (hba : b.best_ask = keyMin (keysA b.asks)) :
    (b.update_best_price_on_add .Ask p).best_ask = keyMin (p :: keysA b.asks) := by
  simp only [OrderBook.update_best_price_on_add]
  cases hm : keyMin (keysA b.asks) with
  | none =>
    rw [hba, hm]
    simp [keyMin, hm]
  | some m =>
    rw [hba, hm]
    by_cases hlt : p < m
    · simp only [Option.all_some, decide_eq_true_eq]
      rw [if_pos hlt]
      rw [keyMin, hm]
      simp [min_eq_left (le_of_lt hlt)]
    · simp only [Option.all_some, decide_eq_true_eq]
      rw [if_neg hlt]
      rw [keyMin, hm]
      simp [hba, hm, min_eq_right (le_of_not_lt hlt)]

theorem OrderBook.update_best_existing (b : OrderBook) (s : Side) (p : Nat)
    (hbb : b.best_bid = keyMax (keysA b.bids)) (hba : b.best_ask = keyMin (keysA b.asks))
    (hmem : p ∈ keysA (b.sideOf s)) :
    b.update_best_price_on_add s p = b := by
  cases s with
  | Bid =>
    have hne : keysA b.bids ≠ [] := by
      intro h0
      rw [OrderBook.sideOf] at hmem
      rw [h0] at hmem
      simp at hmem
    cases hm : keyMax (keysA b.bids) with
    | none => exact absurd ((keyMax_eq_none_iff _).1 hm) hne
    | some m =>
      have hple : p ≤ m := (keyMax_spec hm).2 p hmem
      simp only [OrderBook.update_best_price_on_add]
      rw [hbb, hm]
      simp only [Option.all_some, decide_eq_true_eq]
      rw [if_neg (not_lt_of_le hple)]
  | Ask =>
    have hne : keysA b.asks ≠ [] := by
      intro h0
      rw [OrderBook.sideOf] at hmem
      rw [h0] at hmem
      simp at hmem
    cases hm : keyMin (keysA b.asks) with
    | none => exact absurd ((keyMin_eq_none_iff _).1 hm) hne
    | some m =>
      have hple : m ≤ p := (keyMin_spec hm).2 p hmem
      simp only [OrderBook.update_best_price_on_add]
      rw [hba, hm]
      simp only [Option.all_some, decide_eq_true_eq]
      rw [if_neg (not_lt_of_le hple)]

/-! ## Spec reference lemmas -/

theorem spec_level_trades_zero (o : PlaceOrder) (p : Nat) (ms : List Maker) :
    spec_level_trades o p ms 0 = ([], 0) := by
  cases ms with
  | nil => rfl
  | cons m rest => simp [spec_level_trades]

theorem spec_level_trades_rem (o : PlaceOrder) (p : Nat) (ms : List Maker) (r : Nat) :
    (spec_level_trades o p ms r).2 = r - min r ((ms.map Maker.qty).sum) := by
  induction ms generalizing r with
  | nil => simp [spec_level_trades]
  | cons m rest ih =>
    by_cases hr : r = 0
    · subst hr
      simp [spec_level_trades]
    · rw [spec_level_trades, if_neg hr]
      simp only [List.map_cons, List.sum_cons]
      rw [ih (r - min r m.qty)]
      have a1 := Nat.min_le_left r m.qty
      have a2 := Nat.min_le_right r m.qty
      have b1 := Nat.min_le_left (r - min r m.qty) ((rest.map Maker.qty).sum)
      have b2 := Nat.min_le_right (r - min r m.qty) ((rest.map Maker.qty).sum)
      have c1 := Nat.min_le_left r (m.qty + (rest.map Maker.qty).sum)
      have c2 := Nat.min_le_right r (m.qty + (rest.map Maker.qty).sum)
      rcases min_choice r m.qty with h1 | h1 <;>
        rcases min_choice (r - min r m.qty) ((rest.map Maker.qty).sum) with h2 | h2 <;>
        rcases min_choice r (m.qty + (rest.map Maker.qty).sum) with h3 | h3 <;>
        omega

theorem spec_level_trades_qty_sum (o : PlaceOrder) (p : Nat) (ms : List Maker) (r : Nat) :
    (((spec_level_trades o p ms r).1).map TradeEvent.qty).sum
      = min r ((ms.map Maker.qty).sum) := by
  induction ms generalizing r with
  | nil => simp [spec_level_trades]
  | cons m rest ih =>
    by_cases hr : r = 0
    · subst hr
      simp [spec_level_trades]
    · rw [spec_level_trades, if_neg hr]
      simp only [List.map_cons, List.sum_cons]
      rw [ih (r - min r m.qty)]
      have a1 := Nat.min_le_left r m.qty
      have a2 := Nat.min_le_right r m.qty
      have b1 := Nat.min_le_left (r - min r m.qty) ((rest.map Maker.qty).sum)
      have b2 := Nat.min_le_right (r - min r m.qty) ((rest.map Maker.qty).sum)
      have c1 := Nat.min_le_left r (m.qty + (rest.map Maker.qty).sum)
      have c2 := Nat.min_le_right r (m.qty + (rest.map Maker.qty).sum)
      rcases min_choice r m.qty with h1 | h1 <;>
        rcases min_choice (r - min r m.qty) ((rest.map Maker.qty).sum) with h2 | h2 <;>
        rcases min_choice r (m.qty + (rest.map Maker.qty).sum) with h3 | h3 <;>
        omega

theorem spec_cross_zero (o : PlaceOrder) (f : Nat) (view : List (Nat × List Maker)) :
    spec_cross o f view 0 = ([], 0) := by
  cases f with
  | zero => rfl
  | succ f => simp [spec_cross]

theorem keysA_nil_iff {β : Type} (m : List (Nat × β)) : keysA m = [] ↔ m = [] := by
  cases m <;> simp [keysA]

theorem prices_cross_Bid (op bp : Nat) :
    prices_cross op bp .Bid = decide (bp ≤ op) := rfl

theorem prices_cross_Ask (op bp : Nat) :
    prices_cross op bp .Ask = decide (op ≤ bp) := rfl

theorem spec_best_Bid (view : List (Nat × List Maker)) :
    spec_best view .Bid = keyMax (keysA view) := rfl

theorem spec_best_Ask (view : List (Nat × List Maker)) :
    spec_best view .Ask = keyMin (keysA view) := rfl

theorem spec_cross_fuel_inv (o : PlaceOrder) (f1 f2 : Nat) (view : List (Nat × List Maker))
    (r : Nat) (h1 : view.length < f1) (h2 : view.length < f2) :
    spec_cross o f1 view r = spec_cross o f2 view r := by
  induction f1 generalizing f2 view r with
  | zero => omega
  | succ f1 ih =>
    cases f2 with
    | zero => omega
    | succ f2 =>
      by_cases hr : r = 0
      · subst hr
        simp [spec_cross]
      · rw [spec_cross, spec_cross, if_neg hr, if_neg hr]
        cases hb : spec_best view o.side.opposite with
        | none => rfl
        | some best =>
          dsimp only
          by_cases hc : prices_cross o.price best o.side
          · rw [if_pos hc, if_pos hc]
            have hmem : best ∈ keysA view := by
              cases ho : o.side.opposite <;> rw [ho] at hb
              · rw [spec_best_Bid] at hb
                exact (keyMax_spec hb).1
              · rw [spec_best_Ask] at hb
                exact (keyMin_spec hb).1
            have hlen : (eraseA view best).length < view.length := by
              rw [length_eraseA_of_mem view best hmem]
              have : view.length ≠ 0 := by
                intro h0
                rw [List.length_eq_zero] at h0
                subst h0
                simp [keysA] at hmem
              omega
            rw [ih f2 (eraseA view best) _ (by omega) (by omega)]
          · rw [if_neg hc, if_neg hc]

theorem spec_crossable_nil (o : PlaceOrder) : spec_crossable o [] = 0 := rfl

theorem spec_crossable_split (o : PlaceOrder) (view : List (Nat × List Maker)) (k : Nat)
    (ms : List Maker) (hl : lookupA view k = some ms)
    (hc : prices_cross o.price k o.side = true) :
    spec_crossable o view = (ms.map Maker.qty).sum + spec_crossable o (eraseA view k) := by
  induction view with
  | nil => simp [lookupA] at hl
  | cons e rest ih =>
    by_cases he : e.1 = k
    · subst he
      rw [lookupA] at hl
      simp at hl
      rw [eraseA, if_pos rfl, spec_crossable, List.foldr_cons, if_pos hc, hl]
      rw [Nat.add_comm]
      rfl
    · rw [lookupA_cons_ne e rest k he] at hl
      rw [eraseA, if_neg he]
      rw [spec_crossable, List.foldr_cons, spec_crossable, List.foldr_cons]
      by_cases hec : prices_cross o.price e.1 o.side
      · rw [if_pos hec, if_pos hec]
        have := ih hl
        rw [spec_crossable] at this
        rw [this]
        rw [spec_crossable]
        omega
      · rw [if_neg hec, if_neg hec]
        have := ih hl
        rw [spec_crossable] at this
        rw [this]
        rfl

theorem spec_crossable_zero_of_no_cross (o : PlaceOrder) (view : List (Nat × List Maker))
    (h : ∀ k ∈ keysA view, prices_cross o.price k o.side = false) :
    spec_crossable o view = 0 := by
  induction view with
  | nil => rfl
  | cons e rest ih =>
    rw [spec_crossable, List.foldr_cons]
    rw [h e.1 (by simp [keysA])]
    simp only [Bool.false_eq_true, if_false]
    have := ih fun k hk => h k (by simp [keysA] at hk ⊢; right; exact hk)
    rw [spec_crossable] at this
    exact this

theorem spec_cross_rem (o : PlaceOrder) (f : Nat) (view : List (Nat × List Maker)) (r : Nat)
    (hf : view.length < f) :
    (spec_cross o f view r).2 = r - min r (spec_crossable o view) := by
  induction f generalizing view r with
  | zero => omega
  | succ f ih =>
    by_cases hr : r = 0
    · subst hr
      simp [spec_cross]
    · rw [spec_cross, if_neg hr]
      cases hb : spec_best view o.side.opposite with
      | none =>
        have hk : keysA view = [] := by
          cases ho : o.side.opposite <;> rw [ho] at hb
          · rw [spec_best_Bid] at hb
            exact (keyMax_eq_none_iff _).1 hb
          · rw [spec_best_Ask] at hb
            exact (keyMin_eq_none_iff _).1 hb
        have hv : view = [] := (keysA_nil_iff view).1 hk
        subst hv
        simp [spec_crossable_nil]
      | some best =>
        dsimp only
        by_cases hc : prices_cross o.price best o.side
        · rw [if_pos hc]
          have hmem : best ∈ keysA view := by
            cases ho : o.side.opposite <;> rw [ho] at hb
            · rw [spec_best_Bid] at hb
              exact (keyMax_spec hb).1
            · rw [spec_best_Ask] at hb
              exact (keyMin_spec hb).1
          obtain ⟨ms, hms⟩ : ∃ ms, lookupA view best = some ms := by
            have := (lookupA_isSome_iff_mem_keys view best).2 hmem
            exact Option.isSome_iff_exists.1 this
          have hlen : (eraseA view best).length < view.length := by
            rw [length_eraseA_of_mem view best hmem]
            have : view.length ≠ 0 := by
              intro h0
              rw [List.length_eq_zero] at h0
              subst h0
              simp [keysA] at hmem
            omega
          have hrec := ih (eraseA view best) (spec_level_trades o best ms r).2 (by omega)
          simp only [hms, Option.getD_some]
          rw [hrec]
          rw [spec_level_trades_rem]
          rw [spec_crossable_split o view best ms hms hc]
          set sq := (ms.map Maker.qty).sum with hsq
          set S2 := spec_crossable o (eraseA view best) with hS2
          have a1 := Nat.min_le_left r sq
          have a2 := Nat.min_le_right r sq
          have b1 := Nat.min_le_left (r - min r sq) S2
          have b2 := Nat.min_le_right (r - min r sq) S2
          have c1 := Nat.min_le_left r (sq + S2)
          have c2 := Nat.min_le_right r (sq + S2)
          rcases min_choice r sq with h1 | h1 <;>
            rcases min_choice (r - min r sq) S2 with h2 | h2 <;>
            rcases min_choice r (sq + S2) with h3 | h3 <;>
            omega
        · rw [if_neg hc]
          have hz : spec_crossable o view = 0 := by
            refine spec_crossable_zero_of_no_cross o view fun k hk => ?_
            cases hs : o.side with
            | Bid =>
              have hbk : best ≤ k := by
                have ho : o.side.opposite = Side.Ask := by rw [hs]; rfl
                rw [ho] at hb
                rw [spec_best_Ask] at hb
                exact (keyMin_spec hb).2 k hk
              rw [hs] at hc
              simp [prices_cross_Bid] at hc ⊢
              omega
            | Ask =>
              have hbk : k ≤ best := by
                have ho : o.side.opposite = Side.Bid := by rw [hs]; rfl
                rw [ho] at hb
                rw [spec_best_Bid] at hb
                exact (keyMax_spec hb).2 k hk
              rw [hs] at hc
              simp [prices_cross_Ask] at hc ⊢
              omega
          rw [hz]
          simp

theorem spec_cross_qty_sum (o : PlaceOrder) (f : Nat) (view : List (Nat × List Maker)) (r : Nat)
    (hf : view.length < f) :
    (((spec_cross o f view r).1).map TradeEvent.qty).sum = min r (spec_crossable o view) := by
  induction f generalizing view r with
  | zero => omega
  | succ f ih =>
    by_cases hr : r = 0
    · subst hr
      simp [spec_cross]
    · rw [spec_cross, if_neg hr]
      cases hb : spec_best view o.side.opposite with
      | none =>
        have hk : keysA view = [] := by
          cases ho : o.side.opposite <;> rw [ho] at hb
          · rw [spec_best_Bid] at hb
            exact (keyMax_eq_none_iff _).1 hb
          · rw [spec_best_Ask] at hb
            exact (keyMin_eq_none_iff _).1 hb
        have hv : view = [] := (keysA_nil_iff view).1 hk
        subst hv
        simp [spec_crossable_nil]
      | some best =>
        dsimp only
        by_cases hc : prices_cross o.price best o.side
        · rw [if_pos hc]
          have hmem : best ∈ keysA view := by
            cases ho : o.side.opposite <;> rw [ho] at hb
            · rw [spec_best_Bid] at hb
              exact (keyMax_spec hb).1
            · rw [spec_best_Ask] at hb
              exact (keyMin_spec hb).1
          obtain ⟨ms, hms⟩ : ∃ ms, lookupA view best = some ms := by
            have := (lookupA_isSome_iff_mem_keys view best).2 hmem
            exact Option.isSome_iff_exists.1 this
          have hlen : (eraseA view best).length < view.length := by
            rw [length_eraseA_of_mem view best hmem]
            have : view.length ≠ 0 := by
              intro h0
              rw [List.length_eq_zero] at h0
              subst h0
              simp [keysA] at hmem
            omega
          simp only [hms, Option.getD_some]
          simp only [List.map_append, List.sum_append]
          rw [spec_level_trades_qty_sum]
          rw [ih (eraseA view best) (spec_level_trades o best ms r).2 (by omega)]
          rw [spec_level_trades_rem]
          rw [spec_crossable_split o view best ms hms hc]
          set sq := (ms.map Maker.qty).sum with hsq
          set S2 := spec_crossable o (eraseA view best) with hS2
          have a1 := Nat.min_le_left r sq
          have a2 := Nat.min_le_right r sq
          have b1 := Nat.min_le_left (r - min r sq) S2
          have b2 := Nat.min_le_right (r - min r sq) S2
          have c1 := Nat.min_le_left r (sq + S2)
          have c2 := Nat.min_le_right r (sq + S2)
          rcases min_choice r sq with h1 | h1 <;>
            rcases min_choice (r - min r sq) S2 with h2 | h2 <;>
            rcases min_choice r (sq + S2) with h3 | h3 <;>
            omega
        · rw [if_neg hc]
          have hz : spec_crossable o view = 0 := by
            refine spec_crossable_zero_of_no_cross o view fun k hk => ?_
            cases hs : o.side with
            | Bid =>
              have hbk : best ≤ k := by
                have ho : o.side.opposite = Side.Ask := by rw [hs]; rfl
                rw [ho] at hb
                rw [spec_best_Ask] at hb
                exact (keyMin_spec hb).2 k hk
              rw [hs] at hc
              simp [prices_cross_Bid] at hc ⊢
              omega
            | Ask =>
              have hbk : k ≤ best := by
                have ho : o.side.opposite = Side.Bid := by rw [hs]; rfl
                rw [ho] at hb
                rw [spec_best_Bid] at hb
                exact (keyMax_spec hb).2 k hk
              rw [hs] at hc
              simp [prices_cross_Ask] at hc ⊢
              omega
          rw [hz]
          simp

/-! ## Invariant preservation through one matching step -/

theorem EngineInv.level_wf {e : MatchingEngine} (hinv : EngineInv e) {s : Side} {p : Nat}
    {L : PriceLevel} (h : e.book.get_level s p = some L) : LevelWF e.arena L :=
  hinv.levels_wf s p L h

theorem EngineInv.mem_disjoint {e : MatchingEngine} (hinv : EngineInv e) {s1 s2 : Side}
    {p1 p2 : Nat} {L1 L2 : PriceLevel} (h1 : e.book.get_level s1 p1 = some L1)
    (h2 : e.book.get_level s2 p2 = some L2) (hne : ¬ (s1 = s2 ∧ p1 = p2)) {i : Nat}
    (hm : i ∈ L1.orders) : i ∉ L2.orders := by
  intro hm2
  exact hne (hinv.live_uniq s1 p1 L1 s2 p2 L2 i h1 h2 hm hm2)

theorem get_level_remove_map (b : OrderBook) (id : Nat) (s : Side) (p : Nat) :
    (b.remove_order_from_map id).get_level s p = b.get_level s p := by
  cases s <;> rfl

theorem sideOf_remove_map (b : OrderBook) (id : Nat) (s : Side) :
    (b.remove_order_from_map id).sideOf s = b.sideOf s := by
  cases s <;> rfl

theorem inv_partial_fill {e : MatchingEngine} {ms : Side} {p : Nat} {L : PriceLevel}
    {i : Nat} {rest : List Nat} {trade : Nat}
    (hinv : EngineInv e) (hL : e.book.get_level ms p = some L)
    (ho : L.orders = i :: rest) (htr : trade ≤ (e.arena.get i).qty) :
    EngineInv { arena := e.arena.set_node i fun n => { n with qty := (e.arena.get i).qty - trade }
                book := e.book.set_level ms p (L.subtract_qty trade) } := by
  have hwf := hinv.level_wf hL
  have hiL : i ∈ L.orders := by rw [ho]; exact List.mem_cons_self i rest
  have hicap : i < e.arena.capacity := hwf.bounded i hiL
  have hilen : i < e.arena.nodes.length := by rw [hinv.nodes_len]; exact hicap
  have hpk : p ∈ keysA (e.book.sideOf ms) := by
    have := mem_keys_of_lookupA (m := e.book.sideOf ms) (k := p) hL
    exact this
  have hgetne : ∀ j, j ≠ i →
      (e.arena.set_node i fun n => { n with qty := (e.arena.get i).qty - trade }).get j
        = e.arena.get j := fun j hj => Arena.get_set_node_ne _ i j _ hj
  have hgeti : (e.arena.set_node i fun n => { n with qty := (e.arena.get i).qty - trade }).get i
      = { e.arena.get i with qty := (e.arena.get i).qty - trade } :=
    Arena.get_set_node_self _ i _ hilen
  refine { cap_lt := hinv.cap_lt, nodes_len := ?_, bids_nodup := ?_, asks_nodup := ?_,
           levels_wf := ?_, best_bid_eq := ?_, best_ask_eq := ?_, not_crossed := ?_,
           live_uniq := ?_, omap_nodup := ?_, omap_wf := ?_, free_ok := ?_ }
  · rw [Arena.set_node_nodes_length]
    exact hinv.nodes_len
  · show keysA ((e.book.set_level ms p (L.subtract_qty trade)).sideOf Side.Bid) |>.Nodup
    cases ms
    · rw [OrderBook.sideOf_set_level_same, keysA_updateA]
      exact hinv.bids_nodup
    · rw [OrderBook.sideOf_set_level_other _ _ _ _ _ (by simp)]
      exact hinv.bids_nodup
  · show keysA ((e.book.set_level ms p (L.subtract_qty trade)).sideOf Side.Ask) |>.Nodup
    cases ms
    · rw [OrderBook.sideOf_set_level_other _ _ _ _ _ (by simp)]
      exact hinv.asks_nodup
    · rw [OrderBook.sideOf_set_level_same, keysA_updateA]
      exact hinv.asks_nodup
  · intro s2 p2 L2 hL2
    by_cases hsame : s2 = ms ∧ p2 = p
    · obtain ⟨hs2, hp2⟩ := hsame
      subst hs2; subst hp2
      rw [OrderBook.get_level_set_level_self _ _ _ _ hpk] at hL2
      cases hL2
      refine { ne := ?_, nodup := ?_, count_eq := ?_, total_eq := ?_, bounded := ?_ }
      · show L.orders ≠ []
        exact hwf.ne
      · exact hwf.nodup
      · exact hwf.count_eq
      · show L.total_qty - trade = _
        have horders : (PriceLevel.subtract_qty L trade).orders = L.orders := rfl
        rw [horders]
        have hsum : (L.orders.map fun j =>
            ((e.arena.set_node i fun n => { n with qty := (e.arena.get i).qty - trade }).get
              j).qty).sum
            = ((e.arena.get i).qty - trade) + (rest.map fun j => (e.arena.get j).qty).sum := by
          rw [ho]
          rw [List.map_cons, List.sum_cons, hgeti]
          congr 1
          refine congrArg List.sum (List.map_congr_left fun j hj => ?_)
          have hji : j ≠ i := by
            intro hji2
            subst hji2
            have := hwf.nodup
            rw [ho] at this
            exact (List.nodup_cons.1 this).1 hj
          rw [hgetne j hji]
        rw [hsum]
        have htot := hwf.total_eq
        rw [ho, List.map_cons, List.sum_cons] at htot
        rw [htot]
        omega
      · intro j hj
        exact hwf.bounded j hj
    · have hL2e : e.book.get_level s2 p2 = some L2 := by
        by_cases hs : s2 = ms
        · subst hs
          have hp2 : p2 ≠ p := fun hp => hsame ⟨rfl, hp⟩
          rw [OrderBook.get_level_set_level_ne _ _ _ _ _ hp2] at hL2
          exact hL2
        · rw [OrderBook.get_level_set_level_other _ _ _ _ _ _ hs] at hL2
          exact hL2
      have hwf2 := hinv.level_wf hL2e
      refine { ne := hwf2.ne, nodup := hwf2.nodup, count_eq := hwf2.count_eq,
               total_eq := ?_, bounded := hwf2.bounded }
      rw [hwf2.total_eq]
      refine congrArg _ (List.map_congr_left fun j hj => ?_)
      have hji : j ≠ i := by
        intro hji2
        subst hji2
        exact hinv.mem_disjoint hL2e hL hsame hj hiL
      exact (congrArg OrderNode.qty (hgetne j hji)).symm
  · show (e.book.set_level ms p (L.subtract_qty trade)).best_bid
      = keyMax (keysA ((e.book.set_level ms p (L.subtract_qty trade)).sideOf Side.Bid))
    rw [OrderBook.set_level_best_bid]
    cases ms
    · rw [OrderBook.sideOf_set_level_same, keysA_updateA]
      exact hinv.best_bid_eq
    · rw [OrderBook.sideOf_set_level_other _ _ _ _ _ (by simp)]
      exact hinv.best_bid_eq
  · show (e.book.set_level ms p (L.subtract_qty trade)).best_ask
      = keyMin (keysA ((e.book.set_level ms p (L.subtract_qty trade)).sideOf Side.Ask))
    rw [OrderBook.set_level_best_ask]
    cases ms
    · rw [OrderBook.sideOf_set_level_other _ _ _ _ _ (by simp)]
      exact hinv.best_ask_eq
    · rw [OrderBook.sideOf_set_level_same, keysA_updateA]
      exact hinv.best_ask_eq
  · intro x y hx hy
    rw [OrderBook.set_level_best_bid] at hx
    rw [OrderBook.set_level_best_ask] at hy
    exact hinv.not_crossed x y hx hy
  · intro s1 p1 l1 s2 p2 l2 j h1 h2 hj1 hj2
    have back : ∀ s3 p3 l3, (e.book.set_level ms p (L.subtract_qty trade)).get_level s3 p3
        = some l3 → ∃ l0, e.book.get_level s3 p3 = some l0 ∧ l3.orders = l0.orders := by
      intro s3 p3 l3 h3
      by_cases hsame : s3 = ms ∧ p3 = p
      · obtain ⟨hs3, hp3⟩ := hsame
        rw [hs3, hp3] at h3 ⊢
        rw [OrderBook.get_level_set_level_self _ _ _ _ hpk] at h3
        cases h3
        exact ⟨L, hL, rfl⟩
      · by_cases hs : s3 = ms
        · subst hs
          have hp3 : p3 ≠ p := fun hp => hsame ⟨rfl, hp⟩
          rw [OrderBook.get_level_set_level_ne _ _ _ _ _ hp3] at h3
          exact ⟨l3, h3, rfl⟩
        · rw [OrderBook.get_level_set_level_other _ _ _ _ _ _ hs] at h3
          exact ⟨l3, h3, rfl⟩
    obtain ⟨l01, h01, he1⟩ := back s1 p1 l1 h1
    obtain ⟨l02, h02, he2⟩ := back s2 p2 l2 h2
    rw [he1] at hj1
    rw [he2] at hj2
    exact hinv.live_uniq s1 p1 l01 s2 p2 l02 j h01 h02 hj1 hj2
  · show keysA ((e.book.set_level ms p (L.subtract_qty trade)).order_map) |>.Nodup
    rw [OrderBook.set_level_order_map]
    exact hinv.omap_nodup
  · intro id info hlk
    rw [show (e.book.set_level ms p (L.subtract_qty trade)).order_map = e.book.order_map
      from OrderBook.set_level_order_map _ _ _ _] at hlk
    obtain ⟨hcap2, hoid, Lw, hLw, hmem⟩ := hinv.omap_wf id info hlk
    refine ⟨hcap2, ?_, ?_⟩
    · by_cases hii : info.arena_index = i
      · rw [hii, hgeti]
        rw [hii] at hoid
        exact hoid
      · rw [hgetne _ hii]
        exact hoid
    · by_cases hsame : info.side = ms ∧ info.price = p
      · obtain ⟨hs3, hp3⟩ := hsame
        refine ⟨L.subtract_qty trade, ?_, ?_⟩
        · rw [hs3, hp3]
          exact OrderBook.get_level_set_level_self _ _ _ _ hpk
        · show info.arena_index ∈ L.orders
          rw [hs3, hp3] at hLw
          rw [hLw] at hL
          cases hL
          exact hmem
      · refine ⟨Lw, ?_, hmem⟩
        by_cases hs : info.side = ms
        · have hp3 : info.price ≠ p := fun hp => hsame ⟨hs, hp⟩
          rw [hs] at hLw ⊢
          rw [OrderBook.get_level_set_level_ne _ _ _ _ _ hp3]
          exact hLw
        · rw [OrderBook.get_level_set_level_other _ _ _ _ _ _ hs]
          exact hLw
  · obtain ⟨fl, hchain, hnd, hbound, hdisj⟩ := hinv.free_ok
    refine ⟨fl, ?_, hnd, hbound, ?_⟩
    · have hfh : (e.arena.set_node i fun n =>
          { n with qty := (e.arena.get i).qty - trade }).free_head = e.arena.free_head :=
        Arena.set_node_free_head _ _ _
      rw [hfh]
      refine hchain.stable fun j hj => ?_
      have hji : j ≠ i := by
        intro hji2
        subst hji2
        exact hdisj j hj ⟨ms, p, L, hL, hiL⟩
      rw [hgetne j hji]
    · intro j hj hlive
      obtain ⟨s3, p3, l3, h3, hm3⟩ := hlive
      refine hdisj j hj ?_
      by_cases hsame : s3 = ms ∧ p3 = p
      · obtain ⟨hs3, hp3⟩ := hsame
        rw [hs3, hp3] at h3
        rw [OrderBook.get_level_set_level_self _ _ _ _ hpk] at h3
        cases h3
        exact ⟨ms, p, L, hL, hm3⟩
      · by_cases hs : s3 = ms
        · have hp3 : p3 ≠ p := fun hp => hsame ⟨hs, hp⟩
          rw [hs] at h3
          rw [OrderBook.get_level_set_level_ne _ _ _ _ _ hp3] at h3
          exact ⟨ms, p3, l3, h3, hm3⟩
        · rw [OrderBook.get_level_set_level_other _ _ _ _ _ _ hs] at h3
          exact ⟨s3, p3, l3, h3, hm3⟩

theorem inv_full_fill_keep {e : MatchingEngine} {ms : Side} {p : Nat} {L : PriceLevel}
    {i : Nat} {rest : List Nat}
    (hinv : EngineInv e) (hL : e.book.get_level ms p = some L)
    (ho : L.orders = i :: rest) (hrest : rest ≠ []) :
    EngineInv { arena := e.arena.free i
                book := (e.book.set_level ms p
                  { orders := rest, total_qty := L.total_qty - (e.arena.get i).qty,
                    count := L.count - 1 }).remove_order_from_map
                  (e.arena.get i).order_id } := by
  have hwf := hinv.level_wf hL
  have hiL : i ∈ L.orders := by rw [ho]; exact List.mem_cons_self i rest
  have hicap : i < e.arena.capacity := hwf.bounded i hiL
  have hilen : i < e.arena.nodes.length := by rw [hinv.nodes_len]; exact hicap
  have hinull : i ≠ NULL_INDEX := by
    intro h0
    rw [h0] at hicap
    exact absurd (lt_trans hicap hinv.cap_lt) (lt_irrefl _)
  have hpk : p ∈ keysA (e.book.sideOf ms) :=
    mem_keys_of_lookupA (m := e.book.sideOf ms) (k := p) hL
  have hirest : i ∉ rest := by
    have := hwf.nodup
    rw [ho] at this
    exact (List.nodup_cons.1 this).1
  obtain ⟨hfh, hallocd, hcapd, hlend, hgetne, hgeti⟩ := Arena.free_spec e.arena i hilen
  set L1 : PriceLevel := { orders := rest, total_qty := L.total_qty - (e.arena.get i).qty, count := L.count - 1 } with hL1
  set mid := (e.arena.get i).order_id with hmid
  set B1 := (e.book.set_level ms p L1).remove_order_from_map mid with hB1
  have hlev : ∀ s3 p3, B1.get_level s3 p3
      = if s3 = ms ∧ p3 = p then some L1 else e.book.get_level s3 p3 := by
    intro s3 p3
    rw [hB1, get_level_remove_map]
    by_cases hsame : s3 = ms ∧ p3 = p
    · rw [if_pos hsame, hsame.1, hsame.2]
      exact OrderBook.get_level_set_level_self _ _ _ _ hpk
    · rw [if_neg hsame]
      by_cases hs : s3 = ms
      · have hp3 : p3 ≠ p := fun hp => hsame ⟨hs, hp⟩
        rw [hs]
        exact OrderBook.get_level_set_level_ne _ _ _ _ _ hp3
      · exact OrderBook.get_level_set_level_other _ _ _ _ _ _ hs
  have homap : B1.order_map = eraseA e.book.order_map mid := by
    rw [hB1, OrderBook.remove_order_from_map, OrderBook.set_level_order_map]
  have hmemL1 : ∀ j ∈ L1.orders, j ∈ L.orders ∧ j ≠ i := by
    intro j hj
    have hj2 : j ∈ rest := hj
    exact ⟨by rw [ho]; exact List.mem_cons_of_mem i hj2, fun hji => hirest (hji ▸ hj2)⟩
  have hmem_other : ∀ s3 p3 l3, ¬ (s3 = ms ∧ p3 = p) → e.book.get_level s3 p3 = some l3 →
      ∀ j ∈ l3.orders, j ≠ i := by
    intro s3 p3 l3 hne3 h3 j hj hji
    subst hji
    exact hinv.mem_disjoint h3 hL (fun hx => hne3 hx) hj hiL
  have hsides : ∀ s3, B1.sideOf s3
      = if s3 = ms then updateA (e.book.sideOf ms) p L1 else e.book.sideOf s3 := by
    intro s3
    rw [hB1, sideOf_remove_map]
    by_cases hs : s3 = ms
    · rw [if_pos hs, hs, OrderBook.sideOf_set_level_same]
    · rw [if_neg hs, OrderBook.sideOf_set_level_other _ _ _ _ _ hs]
  have hkeys : ∀ s3, keysA (B1.sideOf s3) = keysA (e.book.sideOf s3) := by
    intro s3
    rw [hsides s3]
    by_cases hs : s3 = ms
    · rw [if_pos hs, keysA_updateA, hs]
    · rw [if_neg hs]
  have hbb : B1.best_bid = e.book.best_bid := by
    rw [hB1]
    show (e.book.set_level ms p L1).best_bid = _
    exact OrderBook.set_level_best_bid _ _ _ _
  have hba : B1.best_ask = e.book.best_ask := by
    rw [hB1]
    show (e.book.set_level ms p L1).best_ask = _
    exact OrderBook.set_level_best_ask _ _ _ _
  refine { cap_lt := ?_, nodes_len := ?_, bids_nodup := ?_, asks_nodup := ?_,
           levels_wf := ?_, best_bid_eq := ?_, best_ask_eq := ?_, not_crossed := ?_,
           live_uniq := ?_, omap_nodup := ?_, omap_wf := ?_, free_ok := ?_ }
  · show (e.arena.free i).capacity < NULL_INDEX
    rw [hcapd]
    exact hinv.cap_lt
  · show (e.arena.free i).nodes.length = (e.arena.free i).capacity
    rw [hlend, hcapd]
    exact hinv.nodes_len
  · show (keysA (B1.sideOf Side.Bid)).Nodup
    rw [hkeys]
    exact hinv.bids_nodup
  · show (keysA (B1.sideOf Side.Ask)).Nodup
    rw [hkeys]
    exact hinv.asks_nodup
  · intro s2 p2 L2 hL2
    show LevelWF (e.arena.free i) L2
    rw [show ({ arena := e.arena.free i, book := B1 } : MatchingEngine).book.get_level s2 p2
      = B1.get_level s2 p2 from rfl, hlev] at hL2
    by_cases hsame : s2 = ms ∧ p2 = p
    · rw [if_pos hsame] at hL2
      cases hL2
      refine { ne := hrest, nodup := ?_, count_eq := ?_, total_eq := ?_, bounded := ?_ }
      · have := hwf.nodup
        rw [ho] at this
        exact (List.nodup_cons.1 this).2
      · show L.count - 1 = rest.length
        have := hwf.count_eq
        rw [ho, List.length_cons] at this
        omega
      · show L.total_qty - (e.arena.get i).qty
          = ((rest.map fun j => ((e.arena.free i).get j).qty)).sum
        have hmap : (rest.map fun j => ((e.arena.free i).get j).qty)
            = rest.map fun j => (e.arena.get j).qty := by
          refine List.map_congr_left fun j hj => ?_
          rw [hgetne j (fun hji => hirest (hji ▸ hj))]
        rw [hmap]
        have htot := hwf.total_eq
        rw [ho, List.map_cons, List.sum_cons] at htot
        omega
      · intro j hj
        have := hwf.bounded j ((hmemL1 j hj).1)
        rw [show ((e.arena.free i).capacity) = e.arena.capacity from hcapd] at *
        exact this
    · rw [if_neg hsame] at hL2
      have hwf2 := hinv.level_wf hL2
      refine { ne := hwf2.ne, nodup := hwf2.nodup, count_eq := hwf2.count_eq,
               total_eq := ?_, bounded := ?_ }
      · rw [hwf2.total_eq]
        refine congrArg _ (List.map_congr_left fun j hj => ?_)
        exact (congrArg OrderNode.qty (hgetne j (hmem_other s2 p2 L2 hsame hL2 j hj))).symm
      · intro j hj
        rw [show ((e.arena.free i).capacity) = e.arena.capacity from hcapd]
        exact hwf2.bounded j hj
  · show B1.best_bid = keyMax (keysA (B1.sideOf Side.Bid))
    rw [hbb, hkeys]
    exact hinv.best_bid_eq
  · show B1.best_ask = keyMin (keysA (B1.sideOf Side.Ask))
    rw [hba, hkeys]
    exact hinv.best_ask_eq
  · intro x y hx hy
    rw [show ({ arena := e.arena.free i, book := B1 } : MatchingEngine).book.best_bid
      = B1.best_bid from rfl, hbb] at hx
    rw [show ({ arena := e.arena.free i, book := B1 } : MatchingEngine).book.best_ask
      = B1.best_ask from rfl, hba] at hy
    exact hinv.not_crossed x y hx hy
  · intro s1 p1 l1 s2 p2 l2 j h1 h2 hj1 hj2
    rw [show ({ arena := e.arena.free i, book := B1 } : MatchingEngine).book.get_level s1 p1
      = B1.get_level s1 p1 from rfl, hlev] at h1
    rw [show ({ arena := e.arena.free i, book := B1 } : MatchingEngine).book.get_level s2 p2
      = B1.get_level s2 p2 from rfl, hlev] at h2
    by_cases hs1 : s1 = ms ∧ p1 = p
    · rw [if_pos hs1] at h1
      cases h1
      by_cases hs2 : s2 = ms ∧ p2 = p
      · exact ⟨hs1.1.trans hs2.1.symm, hs1.2.trans hs2.2.symm⟩
      · rw [if_neg hs2] at h2
        have hjL : j ∈ L.orders := (hmemL1 j hj1).1
        exact absurd (hinv.live_uniq s2 p2 l2 ms p L j h2 hL hj2 hjL) hs2
    · rw [if_neg hs1] at h1
      by_cases hs2 : s2 = ms ∧ p2 = p
      · rw [if_pos hs2] at h2
        cases h2
        have hjL : j ∈ L.orders := (hmemL1 j hj2).1
        exact absurd (hinv.live_uniq s1 p1 l1 ms p L j h1 hL hj1 hjL) hs1
      · rw [if_neg hs2] at h2
        exact hinv.live_uniq s1 p1 l1 s2 p2 l2 j h1 h2 hj1 hj2
  · show (keysA B1.order_map).Nodup
    rw [homap, keysA_eraseA]
    exact hinv.omap_nodup.erase mid
  · intro id info hlk
    rw [show ({ arena := e.arena.free i, book := B1 } : MatchingEngine).book.order_map
      = B1.order_map from rfl, homap] at hlk
    have hid : id ≠ mid := by
      intro hid2
      subst hid2
      rw [lookupA_eraseA_self _ _ hinv.omap_nodup] at hlk
      cases hlk
    rw [lookupA_eraseA_ne _ mid id hid] at hlk
    obtain ⟨hcap2, hoid, Lw, hLw, hmem⟩ := hinv.omap_wf id info hlk
    have hii : info.arena_index ≠ i := by
      intro hii2
      rw [hii2] at hoid
      exact hid (hoid.symm.trans rfl)
    refine ⟨?_, ?_, ?_⟩
    · rw [show ((e.arena.free i).capacity) = e.arena.capacity from hcapd]
      exact hcap2
    · rw [show ({ arena := e.arena.free i, book := B1 } : MatchingEngine).arena
        = e.arena.free i from rfl, hgetne _ hii]
      exact hoid
    · rw [show ({ arena := e.arena.free i, book := B1 } : MatchingEngine).book.get_level
        info.side info.price = B1.get_level info.side info.price from rfl, hlev]
      by_cases hsame : info.side = ms ∧ info.price = p
      · rw [if_pos hsame]
        refine ⟨L1, rfl, ?_⟩
        rw [hsame.1, hsame.2] at hLw
        rw [hLw] at hL
        cases hL
        show info.arena_index ∈ rest
        rw [ho] at hmem
        rcases List.mem_cons.1 hmem with hx | hx
        · exact absurd hx hii
        · exact hx
      · rw [if_neg hsame]
        exact ⟨Lw, hLw, hmem⟩
  · obtain ⟨fl, hchain, hnd, hbound, hdisj⟩ := hinv.free_ok
    have hinotfl : i ∉ fl := fun hmem => hdisj i hmem ⟨ms, p, L, hL, hiL⟩
    refine ⟨i :: fl, ?_, List.nodup_cons.2 ⟨hinotfl, hnd⟩, ?_, ?_⟩
    · exact FreeChain.after_free hchain hilen hinotfl hinull
    · intro j hj
      rw [show ((e.arena.free i).capacity) = e.arena.capacity from hcapd]
      rcases List.mem_cons.1 hj with hx | hx
      · subst hx; exact hicap
      · exact hbound j hx
    · intro j hj hlive
      obtain ⟨s3, p3, l3, h3, hm3⟩ := hlive
      rw [show ({ arena := e.arena.free i, book := B1 } : MatchingEngine).book.get_level s3 p3
        = B1.get_level s3 p3 from rfl, hlev] at h3
      rcases List.mem_cons.1 hj with hx | hx
      · subst hx
        by_cases hsame : s3 = ms ∧ p3 = p
        · rw [if_pos hsame] at h3
          have h3e : L1 = l3 := Option.some.inj h3
          subst h3e
          exact hirest hm3
        · rw [if_neg hsame] at h3
          exact hmem_other s3 p3 l3 hsame h3 j hm3 rfl
      · by_cases hsame : s3 = ms ∧ p3 = p
        · rw [if_pos hsame] at h3
          have h3e : L1 = l3 := Option.some.inj h3
          subst h3e
          exact hdisj j hx ⟨ms, p, L, hL, (hmemL1 j hm3).1⟩
        · rw [if_neg hsame] at h3
          exact hdisj j hx ⟨s3, p3, l3, h3, hm3⟩

theorem inv_full_fill_drop {e : MatchingEngine} {ms : Side} {p : Nat} {L : PriceLevel}
    {i : Nat}
    (hinv : EngineInv e) (hL : e.book.get_level ms p = some L)
    (ho : L.orders = [i]) :
    EngineInv { arena := e.arena.free i
                book := ((e.book.set_level ms p
                  { orders := [], total_qty := L.total_qty - (e.arena.get i).qty,
                    count := L.count - 1 }).remove_order_from_map
                  (e.arena.get i).order_id).remove_empty_level ms p } := by
  have hwf := hinv.level_wf hL
  have hiL : i ∈ L.orders := by rw [ho]; exact List.mem_cons_self i []
  have hicap : i < e.arena.capacity := hwf.bounded i hiL
  have hilen : i < e.arena.nodes.length := by rw [hinv.nodes_len]; exact hicap
  have hinull : i ≠ NULL_INDEX := by
    intro h0
    rw [h0] at hicap
    exact absurd (lt_trans hicap hinv.cap_lt) (lt_irrefl _)
  have hpk : p ∈ keysA (e.book.sideOf ms) :=
    mem_keys_of_lookupA (m := e.book.sideOf ms) (k := p) hL
  obtain ⟨hfh, hallocd, hcapd, hlend, hgetne, hgeti⟩ := Arena.free_spec e.arena i hilen
  set L1 : PriceLevel := { orders := [], total_qty := L.total_qty - (e.arena.get i).qty, count := L.count - 1 } with hL1
  set mid := (e.arena.get i).order_id with hmid
  set B1 := (e.book.set_level ms p L1).remove_order_from_map mid with hB1
  set B2 := B1.remove_empty_level ms p with hB2
  have hkeys1 : ∀ s3, keysA (B1.sideOf s3) = keysA (e.book.sideOf s3) := by
    intro s3
    rw [hB1, sideOf_remove_map]
    by_cases hs : s3 = ms
    · rw [hs, OrderBook.sideOf_set_level_same, keysA_updateA]
    · rw [OrderBook.sideOf_set_level_other _ _ _ _ _ hs]
  have hnodup_ms : (keysA (e.book.sideOf ms)).Nodup := by
    cases ms
    · exact hinv.bids_nodup
    · exact hinv.asks_nodup
  have hside2 : B2.sideOf ms = eraseA (e.book.sideOf ms) p := by
    rw [hB2, OrderBook.sideOf_remove_empty_same, hB1, sideOf_remove_map]
    rw [OrderBook.sideOf_set_level_same]
    refine eraseA_updateA _ _ _ hnodup_ms
  have hside2o : ∀ s3, s3 ≠ ms → B2.sideOf s3 = e.book.sideOf s3 := by
    intro s3 hs
    rw [hB2, OrderBook.sideOf_remove_empty_other _ _ _ _ hs, hB1, sideOf_remove_map,
      OrderBook.sideOf_set_level_other _ _ _ _ _ hs]
  have hlev : ∀ s3 p3, B2.get_level s3 p3
      = if s3 = ms ∧ p3 = p then none else e.book.get_level s3 p3 := by
    intro s3 p3
    by_cases hsame : s3 = ms ∧ p3 = p
    · rw [if_pos hsame, OrderBook.get_level_eq_lookup, hsame.1, hsame.2, hside2]
      rw [lookupA_eraseA_self _ _ hnodup_ms]
    · rw [if_neg hsame]
      by_cases hs : s3 = ms
      · have hp3 : p3 ≠ p := fun hp => hsame ⟨hs, hp⟩
        rw [OrderBook.get_level_eq_lookup, hs, hside2, lookupA_eraseA_ne _ _ _ hp3]
        rfl
      · rw [OrderBook.get_level_eq_lookup, hside2o s3 hs]
        rfl
  have homap : B2.order_map = eraseA e.book.order_map mid := by
    rw [hB2, OrderBook.remove_empty_level_order_map, hB1, OrderBook.remove_order_from_map,
      OrderBook.set_level_order_map]
  have hbb1 : B1.best_bid = keyMax (keysA B1.bids) := by
    rw [show B1.best_bid = (e.book.set_level ms p L1).best_bid from rfl,
      OrderBook.set_level_best_bid,
      show (B1.bids) = (B1.sideOf Side.Bid) from rfl, hkeys1]
    exact hinv.best_bid_eq
  have hba1 : B1.best_ask = keyMin (keysA B1.asks) := by
    rw [show B1.best_ask = (e.book.set_level ms p L1).best_ask from rfl,
      OrderBook.set_level_best_ask,
      show (B1.asks) = (B1.sideOf Side.Ask) from rfl, hkeys1]
    exact hinv.best_ask_eq
  have hnc1 : ∀ x y, B1.best_bid = some x → B1.best_ask = some y → x < y := by
    intro x y hx hy
    rw [show B1.best_bid = (e.book.set_level ms p L1).best_bid from rfl,
      OrderBook.set_level_best_bid] at hx
    rw [show B1.best_ask = (e.book.set_level ms p L1).best_ask from rfl,
      OrderBook.set_level_best_ask] at hy
    exact hinv.not_crossed x y hx hy
  have hmem_other : ∀ s3 p3 l3, ¬ (s3 = ms ∧ p3 = p) → e.book.get_level s3 p3 = some l3 →
      ∀ j ∈ l3.orders, j ≠ i := by
    intro s3 p3 l3 hne3 h3 j hj hji
    subst hji
    exact hinv.mem_disjoint h3 hL (fun hx => hne3 hx) hj hiL
  refine { cap_lt := ?_, nodes_len := ?_, bids_nodup := ?_, asks_nodup := ?_,
           levels_wf := ?_, best_bid_eq := ?_, best_ask_eq := ?_, not_crossed := ?_,
           live_uniq := ?_, omap_nodup := ?_, omap_wf := ?_, free_ok := ?_ }
  · show (e.arena.free i).capacity < NULL_INDEX
    rw [hcapd]
    exact hinv.cap_lt
  · show (e.arena.free i).nodes.length = (e.arena.free i).capacity
    rw [hlend, hcapd]
    exact hinv.nodes_len
  · show (keysA (B2.sideOf Side.Bid)).Nodup
    by_cases hs : Side.Bid = ms
    · rw [hs, hside2, keysA_eraseA]
      exact hnodup_ms.erase p
    · rw [hside2o _ hs]
      exact hinv.bids_nodup
  · show (keysA (B2.sideOf Side.Ask)).Nodup
    by_cases hs : Side.Ask = ms
    · rw [hs, hside2, keysA_eraseA]
      exact hnodup_ms.erase p
    · rw [hside2o _ hs]
      exact hinv.asks_nodup
  · intro s2 p2 L2 hL2
    show LevelWF (e.arena.free i) L2
    rw [show ({ arena := e.arena.free i, book := B2 } : MatchingEngine).book.get_level s2 p2
      = B2.get_level s2 p2 from rfl, hlev] at hL2
    by_cases hsame : s2 = ms ∧ p2 = p
    · rw [if_pos hsame] at hL2
      cases hL2
    · rw [if_neg hsame] at hL2
      have hwf2 := hinv.level_wf hL2
      refine { ne := hwf2.ne, nodup := hwf2.nodup, count_eq := hwf2.count_eq,
               total_eq := ?_, bounded := ?_ }
      · rw [hwf2.total_eq]
        refine congrArg _ (List.map_congr_left fun j hj => ?_)
        exact (congrArg OrderNode.qty (hgetne j (hmem_other s2 p2 L2 hsame hL2 j hj))).symm
      · intro j hj
        rw [show ((e.arena.free i).capacity) = e.arena.capacity from hcapd]
        exact hwf2.bounded j hj
  · show B2.best_bid = keyMax (keysA (B2.sideOf Side.Bid))
    exact (OrderBook.remove_empty_level_caches B1 ms p hbb1 hba1).1
  · show B2.best_ask = keyMin (keysA (B2.sideOf Side.Ask))
    exact (OrderBook.remove_empty_level_caches B1 ms p hbb1 hba1).2
  · intro x y hx hy
    exact OrderBook.remove_empty_level_not_crossed B1 ms p hbb1 hba1 hnc1 x y hx hy
  · intro s1 p1 l1 s2 p2 l2 j h1 h2 hj1 hj2
    rw [show ({ arena := e.arena.free i, book := B2 } : MatchingEngine).book.get_level s1 p1
      = B2.get_level s1 p1 from rfl, hlev] at h1
    rw [show ({ arena := e.arena.free i, book := B2 } : MatchingEngine).book.get_level s2 p2
      = B2.get_level s2 p2 from rfl, hlev] at h2
    by_cases hs1 : s1 = ms ∧ p1 = p
    · rw [if_pos hs1] at h1
      cases h1
    · rw [if_neg hs1] at h1
      by_cases hs2 : s2 = ms ∧ p2 = p
      · rw [if_pos hs2] at h2
        cases h2
      · rw [if_neg hs2] at h2
        exact hinv.live_uniq s1 p1 l1 s2 p2 l2 j h1 h2 hj1 hj2
  · show (keysA B2.order_map).Nodup
    rw [homap, keysA_eraseA]
    exact hinv.omap_nodup.erase mid
  · intro id info hlk
    rw [show ({ arena := e.arena.free i, book := B2 } : MatchingEngine).book.order_map
      = B2.order_map from rfl, homap] at hlk
    have hid : id ≠ mid := by
      intro hid2
      subst hid2
      rw [lookupA_eraseA_self _ _ hinv.omap_nodup] at hlk
      cases hlk
    rw [lookupA_eraseA_ne _ mid id hid] at hlk
    obtain ⟨hcap2, hoid, Lw, hLw, hmem⟩ := hinv.omap_wf id info hlk
    have hii : info.arena_index ≠ i := by
      intro hii2
      rw [hii2] at hoid
      exact hid (hoid.symm.trans rfl)
    have hsame : ¬ (info.side = ms ∧ info.price = p) := by
      intro hx
      rw [hx.1, hx.2] at hLw
      rw [hLw] at hL
      have hle : Lw = L := Option.some.inj hL
      subst hle
      rw [ho] at hmem
      rcases List.mem_cons.1 hmem with hy | hy
      · exact hii hy
      · simp at hy
    refine ⟨?_, ?_, ?_⟩
    · rw [show ((e.arena.free i).capacity) = e.arena.capacity from hcapd]
      exact hcap2
    · rw [show ({ arena := e.arena.free i, book := B2 } : MatchingEngine).arena
        = e.arena.free i from rfl, hgetne _ hii]
      exact hoid
    · rw [show ({ arena := e.arena.free i, book := B2 } : MatchingEngine).book.get_level
        info.side info.price = B2.get_level info.side info.price from rfl, hlev,
        if_neg hsame]
      exact ⟨Lw, hLw, hmem⟩
  · obtain ⟨fl, hchain, hnd, hbound, hdisj⟩ := hinv.free_ok
    have hinotfl : i ∉ fl := fun hmem => hdisj i hmem ⟨ms, p, L, hL, hiL⟩
    refine ⟨i :: fl, ?_, List.nodup_cons.2 ⟨hinotfl, hnd⟩, ?_, ?_⟩
    · exact FreeChain.after_free hchain hilen hinotfl hinull
    · intro j hj
      rw [show ((e.arena.free i).capacity) = e.arena.capacity from hcapd]
      rcases List.mem_cons.1 hj with hx | hx
      · subst hx; exact hicap
      · exact hbound j hx
    · intro j hj hlive
      obtain ⟨s3, p3, l3, h3, hm3⟩ := hlive
      rw [show ({ arena := e.arena.free i, book := B2 } : MatchingEngine).book.get_level s3 p3
        = B2.get_level s3 p3 from rfl, hlev] at h3
      by_cases hsame : s3 = ms ∧ p3 = p
      · rw [if_pos hsame] at h3
        cases h3
      · rw [if_neg hsame] at h3
        rcases List.mem_cons.1 hj with hx | hx
        · subst hx
          exact hmem_other s3 p3 l3 hsame h3 j hm3 rfl
        · exact hdisj j hx ⟨s3, p3, l3, h3, hm3⟩

/-! ## Reduction helpers for the matching loops -/

theorem PriceLevel.peek_head_cons (l : PriceLevel) (i : Nat) (rest : List Nat)
    (h : l.orders = i :: rest) : l.peek_head = i := by
  rw [PriceLevel.peek_head, h]

theorem PriceLevel.pop_front_cons (l : PriceLevel) (arena : Arena) (i : Nat) (rest : List Nat)
    (h : l.orders = i :: rest) :
    l.pop_front arena = some (i, { orders := rest, total_qty := l.total_qty - (arena.get i).qty, count := l.count - 1 }) := by
  rw [PriceLevel.pop_front, h]

theorem PriceLevel.is_empty_false (l : PriceLevel) (h : l.count ≠ 0) :
    l.is_empty = false := by
  rw [PriceLevel.is_empty]
  simpa using h

theorem match_at_level_no_level (fuel : Nat) (e : MatchingEngine) (o : PlaceOrder)
    (p : Nat) (ms : Side) (r : Nat) (h : e.book.get_level ms p = none) :
    MatchingEngine.match_at_level fuel e o p ms r = (e, r, []) := by
  cases fuel with
  | zero => rfl
  | succ fuel =>
    rw [MatchingEngine.match_at_level]
    by_cases hr : r = 0
    · rw [if_pos hr]
    · rw [if_neg hr, h]

theorem match_at_level_zero_rem (fuel : Nat) (e : MatchingEngine) (o : PlaceOrder)
    (p : Nat) (ms : Side) :
    MatchingEngine.match_at_level fuel e o p ms 0 = (e, 0, []) := by
  cases fuel with
  | zero => rfl
  | succ fuel =>
    rw [MatchingEngine.match_at_level, if_pos rfl]

theorem keysA_map_keyed {β γ : Type} (m : List (Nat × β)) (g : Nat → β → γ) :
    keysA (m.map fun pl => (pl.1, g pl.1 pl.2)) = keysA m := by
  induction m with
  | nil => rfl
  | cons e rest ih =>
    simp only [keysA, List.map_cons] at ih ⊢
    rw [ih]

theorem map_eraseA_keyed {β γ : Type} (m : List (Nat × β)) (k : Nat) (g : Nat → β → γ) :
    (eraseA m k).map (fun pl => (pl.1, g pl.1 pl.2))
      = eraseA (m.map fun pl => (pl.1, g pl.1 pl.2)) k := by
  induction m with
  | nil => rfl
  | cons e rest ih =>
    by_cases he : e.1 = k
    · rw [eraseA, if_pos he, List.map_cons, eraseA, if_pos he]
    · rw [eraseA, if_neg he, List.map_cons, List.map_cons, eraseA, if_neg he, ih]

theorem map_updateA_keyed {β γ : Type} (m : List (Nat × β)) (k : Nat) (v : β)
    (g : Nat → β → γ) :
    (updateA m k v).map (fun pl => (pl.1, g pl.1 pl.2))
      = updateA (m.map fun pl => (pl.1, g pl.1 pl.2)) k (g k v) := by
  rw [updateA, updateA, List.map_map, List.map_map]
  refine List.map_congr_left fun e he => ?_
  by_cases h : e.1 = k
  · simp [h]
  · simp [h]

theorem book_view_eq (e : MatchingEngine) (s : Side) :
    e.book_view s = (e.book.sideOf s).map fun pl => (pl.1, pl.2.orders.map (makerOf e.arena)) :=
  rfl

theorem match_at_level_step_pfill (fuel : Nat) (e : MatchingEngine) (o : PlaceOrder)
    (p : Nat) (ms : Side) (r : Nat) {L : PriceLevel} {i : Nat} {rest : List Nat}
    (hr : r ≠ 0) (hL : e.book.get_level ms p = some L) (ho : L.orders = i :: rest)
    (hcnt : L.count ≠ 0) (hinull : i ≠ NULL_INDEX)
    (hpart : (e.arena.get i).qty - min r (e.arena.get i).qty ≠ 0) :
    MatchingEngine.match_at_level (fuel + 1) e o p ms r
      = ({ arena := e.arena.set_node i fun n =>
             { n with qty := (e.arena.get i).qty - min r (e.arena.get i).qty }
           book := e.book.set_level ms p (L.subtract_qty (min r (e.arena.get i).qty)) }, 0,
         [.Trade { price := p, qty := min r (e.arena.get i).qty
                   maker_order_id := (e.arena.get i).order_id, taker_order_id := o.order_id
                   maker_user_id := (e.arena.get i).user_id, taker_user_id := o.user_id
                   taker_side := o.side },
          .BookDelta { side := ms, price := p
                       new_qty := L.total_qty - min r (e.arena.get i).qty
                       new_count := L.count }]) := by
  rw [MatchingEngine.match_at_level, if_neg hr, hL]
  dsimp only
  rw [PriceLevel.is_empty_false L hcnt]
  rw [if_neg Bool.false_ne_true]
  rw [PriceLevel.peek_head_cons L i rest ho]
  rw [if_neg hinull]
  rw [if_neg hpart]
  have h0 : r - min r (e.arena.get i).qty = 0 := by
    rcases min_choice r (e.arena.get i).qty with h | h
    · rw [h]; omega
    · rw [h] at hpart ⊢; omega
  rw [h0]
  rw [match_at_level_zero_rem]
  rfl

theorem match_at_level_step_full_keep (fuel : Nat) (e : MatchingEngine) (o : PlaceOrder)
    (p : Nat) (ms : Side) (r : Nat) {L : PriceLevel} {i : Nat} {rest : List Nat}
    (hr : r ≠ 0) (hL : e.book.get_level ms p = some L) (ho : L.orders = i :: rest)
    (hcnt : L.count ≠ 0) (hinull : i ≠ NULL_INDEX)
    (hfull : (e.arena.get i).qty - min r (e.arena.get i).qty = 0)
    (hcnt1 : L.count - 1 ≠ 0) :
    MatchingEngine.match_at_level (fuel + 1) e o p ms r
      = ((MatchingEngine.match_at_level fuel
            { arena := e.arena.free i
              book := (e.book.set_level ms p
                { orders := rest, total_qty := L.total_qty - (e.arena.get i).qty,
                  count := L.count - 1 }).remove_order_from_map (e.arena.get i).order_id }
            o p ms (r - min r (e.arena.get i).qty)).1,
         (MatchingEngine.match_at_level fuel
            { arena := e.arena.free i
              book := (e.book.set_level ms p
                { orders := rest, total_qty := L.total_qty - (e.arena.get i).qty,
                  count := L.count - 1 }).remove_order_from_map (e.arena.get i).order_id }
            o p ms (r - min r (e.arena.get i).qty)).2.1,
         .Trade { price := p, qty := min r (e.arena.get i).qty
                  maker_order_id := (e.arena.get i).order_id, taker_order_id := o.order_id
                  maker_user_id := (e.arena.get i).user_id, taker_user_id := o.user_id
                  taker_side := o.side } ::
         .BookDelta { side := ms, price := p
                      new_qty := L.total_qty - (e.arena.get i).qty
                      new_count := L.count - 1 } ::
         (MatchingEngine.match_at_level fuel
            { arena := e.arena.free i
              book := (e.book.set_level ms p
                { orders := rest, total_qty := L.total_qty - (e.arena.get i).qty,
                  count := L.count - 1 }).remove_order_from_map (e.arena.get i).order_id }
            o p ms (r - min r (e.arena.get i).qty)).2.2) := by
  have hpk : p ∈ keysA (e.book.sideOf ms) :=
    mem_keys_of_lookupA (m := e.book.sideOf ms) (k := p) hL
  rw [MatchingEngine.match_at_level, if_neg hr, hL]
  dsimp only
  rw [PriceLevel.is_empty_false L hcnt]
  rw [if_neg Bool.false_ne_true]
  rw [PriceLevel.peek_head_cons L i rest ho]
  rw [if_neg hinull]
  rw [if_pos hfull]
  rw [PriceLevel.pop_front_cons L e.arena i rest ho]
  dsimp only
  have hget1 : ((e.book.set_level ms p
      { orders := rest, total_qty := L.total_qty - (e.arena.get i).qty,
        count := L.count - 1 }).remove_order_from_map (e.arena.get i).order_id).get_level ms p
      = some { orders := rest, total_qty := L.total_qty - (e.arena.get i).qty,
               count := L.count - 1 } := by
    rw [get_level_remove_map]
    exact OrderBook.get_level_set_level_self _ _ _ _ hpk
  rw [hget1]
  have hie : PriceLevel.is_empty { orders := rest, total_qty := L.total_qty - (e.arena.get i).qty, count := L.count - 1 } = false := by
    rw [PriceLevel.is_empty]
    simpa using hcnt1
  rw [Option.all_some, hie]
  rw [if_neg Bool.false_ne_true]
  rfl

theorem match_at_level_step_full_drop (fuel : Nat) (e : MatchingEngine) (o : PlaceOrder)
    (p : Nat) (ms : Side) (r : Nat) {L : PriceLevel} {i : Nat} {rest : List Nat}
    (hr : r ≠ 0) (hL : e.book.get_level ms p = some L) (ho : L.orders = i :: rest)
    (hcnt : L.count ≠ 0) (hinull : i ≠ NULL_INDEX)
    (hfull : (e.arena.get i).qty - min r (e.arena.get i).qty = 0)
    (hcnt1 : L.count - 1 = 0) :
    MatchingEngine.match_at_level (fuel + 1) e o p ms r
      = ((MatchingEngine.match_at_level fuel
            { arena := e.arena.free i
              book := ((e.book.set_level ms p
                { orders := rest, total_qty := L.total_qty - (e.arena.get i).qty,
                  count := L.count - 1 }).remove_order_from_map
                  (e.arena.get i).order_id).remove_empty_level ms p }
            o p ms (r - min r (e.arena.get i).qty)).1,
         (MatchingEngine.match_at_level fuel
            { arena := e.arena.free i
              book := ((e.book.set_level ms p
                { orders := rest, total_qty := L.total_qty - (e.arena.get i).qty,
                  count := L.count - 1 }).remove_order_from_map
                  (e.arena.get i).order_id).remove_empty_level ms p }
            o p ms (r - min r (e.arena.get i).qty)).2.1,
         .Trade { price := p, qty := min r (e.arena.get i).qty
                  maker_order_id := (e.arena.get i).order_id, taker_order_id := o.order_id
                  maker_user_id := (e.arena.get i).user_id, taker_user_id := o.user_id
                  taker_side := o.side } ::
         .BookDelta { side := ms, price := p, new_qty := 0, new_count := 0 } ::
         (MatchingEngine.match_at_level fuel
            { arena := e.arena.free i
              book := ((e.book.set_level ms p
                { orders := rest, total_qty := L.total_qty - (e.arena.get i).qty,
                  count := L.count - 1 }).remove_order_from_map
                  (e.arena.get i).order_id).remove_empty_level ms p }
            o p ms (r - min r (e.arena.get i).qty)).2.2) := by
  have hpk : p ∈ keysA (e.book.sideOf ms) :=
    mem_keys_of_lookupA (m := e.book.sideOf ms) (k := p) hL
  rw [MatchingEngine.match_at_level, if_neg hr, hL]
  dsimp only
  rw [PriceLevel.is_empty_false L hcnt]
  rw [if_neg Bool.false_ne_true]
  rw [PriceLevel.peek_head_cons L i rest ho]
  rw [if_neg hinull]
  rw [if_pos hfull]
  rw [PriceLevel.pop_front_cons L e.arena i rest ho]
  dsimp only
  have hget1 : ((e.book.set_level ms p
      { orders := rest, total_qty := L.total_qty - (e.arena.get i).qty,
        count := L.count - 1 }).remove_order_from_map (e.arena.get i).order_id).get_level ms p
      = some { orders := rest, total_qty := L.total_qty - (e.arena.get i).qty,
               count := L.count - 1 } := by
    rw [get_level_remove_map]
    exact OrderBook.get_level_set_level_self _ _ _ _ hpk
  rw [hget1]
  have hie : PriceLevel.is_empty { orders := rest, total_qty := L.total_qty - (e.arena.get i).qty, count := L.count - 1 } = true := by
    rw [PriceLevel.is_empty]
    simpa using hcnt1
  rw [Option.all_some, hie]
  rw [if_pos rfl]

theorem mem_of_mem_eraseA {β : Type} {m : List (Nat × β)} {k : Nat} {en : Nat × β}
    (h : en ∈ eraseA m k) : en ∈ m := by
  induction m with
  | nil => simpa [eraseA] using h
  | cons e rest ih =>
    by_cases he : e.1 = k
    · rw [eraseA, if_pos he] at h
      exact List.mem_cons_of_mem e h
    · rw [eraseA, if_neg he] at h
      rcases List.mem_cons.1 h with h1 | h1
      · exact h1 ▸ List.mem_cons_self e rest
      · exact List.mem_cons_of_mem e (ih h1)

theorem not_mem_keys_eraseA {β : Type} {m : List (Nat × β)} {k : Nat}
    (hnd : (keysA m).Nodup) : k ∉ keysA (eraseA m k) := by
  rw [keysA_eraseA]
  exact hnd.not_mem_erase

theorem OrderBook.best_price_set_level (b : OrderBook) (s : Side) (p : Nat) (L : PriceLevel)
    (s2 : Side) : (b.set_level s p L).best_price s2 = b.best_price s2 := by
  cases s2 with
  | Bid =>
    show (b.set_level s p L).best_bid = b.best_bid
    exact OrderBook.set_level_best_bid _ _ _ _
  | Ask =>
    show (b.set_level s p L).best_ask = b.best_ask
    exact OrderBook.set_level_best_ask _ _ _ _

theorem OrderBook.best_price_remove_map (b : OrderBook) (id : Nat) (s2 : Side) :
    (b.remove_order_from_map id).best_price s2 = b.best_price s2 := by
  cases s2 <;> rfl

theorem OrderBook.best_price_remove_empty_other (b : OrderBook) (ms : Side) (p : Nat) :
    (b.remove_empty_level ms p).best_price ms.opposite = b.best_price ms.opposite := by
  cases ms with
  | Bid =>
    show (b.remove_empty_level .Bid p).best_ask = b.best_ask
    exact OrderBook.remove_empty_level_best_other_ask b p
  | Ask =>
    show (b.remove_empty_level .Ask p).best_bid = b.best_bid
    exact OrderBook.remove_empty_level_best_other_bid b p

theorem keysA_map_keyfix {β γ : Type} (m : List (Nat × β)) (f : Nat × β → Nat × γ)
    (hf : ∀ en, (f en).1 = en.1) : keysA (m.map f) = keysA m := by
  induction m with
  | nil => rfl
  | cons e rest ih =>
    simp only [keysA, List.map_cons] at ih ⊢
    rw [ih, hf e]

theorem map_eraseA_keyfix {β γ : Type} (m : List (Nat × β)) (k : Nat)
    (f : Nat × β → Nat × γ) (hf : ∀ en, (f en).1 = en.1) :
    (eraseA m k).map f = eraseA (m.map f) k := by
  induction m with
  | nil => rfl
  | cons e rest ih =>
    by_cases he : e.1 = k
    · rw [eraseA, if_pos he, List.map_cons, eraseA, if_pos (by rw [hf e]; exact he)]
    · rw [eraseA, if_neg he, List.map_cons, List.map_cons, eraseA,
        if_neg (by rw [hf e]; exact he), ih]

theorem map_updateA_keyfix {β γ : Type} (m : List (Nat × β)) (k : Nat) (v : β)
    (f : Nat × β → Nat × γ) (hf : ∀ en, (f en).1 = en.1) :
    (updateA m k v).map f = updateA (m.map f) k (f (k, v)).2 := by
  rw [updateA, updateA, List.map_map, List.map_map]
  refine List.map_congr_left fun e he => ?_
  by_cases hek : e.1 = k
  · show f (if e.1 = k then (k, v) else e) = if (f e).1 = k then (k, (f (k, v)).2) else f e
    rw [if_pos hek, hf e, if_pos hek]
    have h0 : f (k, v) = ((f (k, v)).1, (f (k, v)).2) := Prod.mk.eta.symm
    rw [hf (k, v)] at h0
    exact h0
  · show f (if e.1 = k then (k, v) else e) = if (f e).1 = k then (k, (f (k, v)).2) else f e
    rw [if_neg hek, hf e, if_neg hek]

theorem tradesOf_cons_trade (t : TradeEvent) (evs : List OutputEvent) :
    tradesOf (.Trade t :: evs) = t :: tradesOf evs := rfl

theorem tradesOf_cons_delta (d : BookUpdate) (evs : List OutputEvent) :
    tradesOf (.BookDelta d :: evs) = tradesOf evs := rfl

theorem spec_level_trades_nil (o : PlaceOrder) (p : Nat) (r : Nat) :
    spec_level_trades o p [] r = ([], r) := rfl

theorem makerOf_eq_of_get_eq {a1 a2 : Arena} {j : Nat} (h : a1.get j = a2.get j) :
    makerOf a1 j = makerOf a2 j := by
  rw [makerOf, makerOf, h]

theorem view_erase_transfer {e : MatchingEngine} (hinv : EngineInv e) {ms : Side} {p : Nat}
    {L : PriceLevel} {i : Nat} (hL : e.book.get_level ms p = some L) (hiL : i ∈ L.orders)
    (ar2 : Arena) (hread : ∀ j, j ≠ i → ar2.get j = e.arena.get j) :
    (eraseA (e.book.sideOf ms) p).map (fun pl => (pl.1, pl.2.orders.map (makerOf ar2)))
      = eraseA (e.book_view ms) p := by
  have hnodup_ms : (keysA (e.book.sideOf ms)).Nodup := by
    cases ms
    · exact hinv.bids_nodup
    · exact hinv.asks_nodup
  have h1 : (eraseA (e.book.sideOf ms) p).map
      (fun pl => (pl.1, pl.2.orders.map (makerOf ar2)))
      = (eraseA (e.book.sideOf ms) p).map
      (fun pl => (pl.1, pl.2.orders.map (makerOf e.arena))) := by
    refine List.map_congr_left fun en hen => ?_
    obtain ⟨q, lv⟩ := en
    have hen2 : (q, lv) ∈ e.book.sideOf ms := mem_of_mem_eraseA hen
    have henp : q ≠ p := by
      intro hp
      have hq : q ∈ keysA (eraseA (e.book.sideOf ms) p) :=
        List.mem_map.2 ⟨(q, lv), hen, rfl⟩
      rw [hp] at hq
      exact not_mem_keys_eraseA (k := p) hnodup_ms hq
    have hlev2 : e.book.get_level ms q = some lv := by
      rw [OrderBook.get_level_eq_lookup]
      exact lookupA_of_mem hnodup_ms hen2
    refine Prod.ext rfl ?_
    show lv.orders.map (makerOf ar2) = lv.orders.map (makerOf e.arena)
    refine List.map_congr_left fun j hj => ?_
    have hji : j ≠ i := by
      intro hji2
      subst hji2
      exact (hinv.mem_disjoint hlev2 hL (fun hx => henp hx.2) hj) hiL
    exact makerOf_eq_of_get_eq (hread j hji)
  rw [h1]
  exact map_eraseA_keyed (e.book.sideOf ms) p
    (fun (_ : Nat) (l2 : PriceLevel) => l2.orders.map (makerOf e.arena))

theorem match_at_level_outcome (o : PlaceOrder) (p : Nat) (ms : Side) :
    ∀ fuel (e : MatchingEngine) (L : PriceLevel) (r : Nat), EngineInv e →
      e.book.get_level ms p = some L → L.orders.length < fuel →
      MatchOutcome e o p ms (L.orders.map (makerOf e.arena)) r
        (MatchingEngine.match_at_level fuel e o p ms r) := by
  intro fuel
  induction fuel with
  | zero =>
    intro e L r _ _ h
    omega
  | succ fuel ih =>
    intro e L r hinv hL hlen
    have hwf := hinv.level_wf hL
    obtain ⟨i, rest, ho⟩ : ∃ i rest, L.orders = i :: rest := by
      cases hor : L.orders with
      | nil => exact absurd hor hwf.ne
      | cons a b => exact ⟨a, b, rfl⟩
    have hiL : i ∈ L.orders := by rw [ho]; exact List.mem_cons_self i rest
    have hicap : i < e.arena.capacity := hwf.bounded i hiL
    have hinull : i ≠ NULL_INDEX := by
      intro h0
      rw [h0] at hicap
      exact absurd (lt_trans hicap hinv.cap_lt) (lt_irrefl _)
    have hcnt_eq : L.count = rest.length + 1 := by
      have := hwf.count_eq
      rw [ho, List.length_cons] at this
      exact this
    have hcnt : L.count ≠ 0 := by omega
    have hirest : i ∉ rest := by
      have := hwf.nodup
      rw [ho] at this
      exact (List.nodup_cons.1 this).1
    have hnodup_ms : (keysA (e.book.sideOf ms)).Nodup := by
      cases ms
      · exact hinv.bids_nodup
      · exact hinv.asks_nodup
    have hpk : p ∈ keysA (e.book.sideOf ms) :=
      mem_keys_of_lookupA (m := e.book.sideOf ms) (k := p) hL
    by_cases hr : r = 0
    · subst hr
      rw [match_at_level_zero_rem]
      refine { inv := hinv, trades_eq := ?_, rem_eq := ?_, md_only := ?_,
               other_side_eq := rfl, best_other := rfl, omap_sub := fun id h => h,
               drained := ?_, view_drained := ?_ }
      · rw [spec_level_trades_zero]
        rfl
      · rw [spec_level_trades_zero]
      · intro ev hev
        simp at hev
      · intro h0
        exact absurd h0 (lt_irrefl 0)
      · intro h0
        exact absurd h0 (lt_irrefl 0)
    · by_cases hfull : (e.arena.get i).qty - min r (e.arena.get i).qty = 0
      · by_cases hcnt1 : L.count - 1 = 0
        · -- maker filled, level drained and removed
          have hrest : rest = [] := by
            rw [List.length_eq_zero.symm]
            omega
          subst hrest
          rw [match_at_level_step_full_drop fuel e o p ms r hr hL ho hcnt hinull hfull hcnt1]
          have hinv2 : EngineInv
              { arena := e.arena.free i
                book := ((e.book.set_level ms p
                  { orders := [], total_qty := L.total_qty - (e.arena.get i).qty,
                    count := L.count - 1 }).remove_order_from_map
                    (e.arena.get i).order_id).remove_empty_level ms p } :=
            inv_full_fill_drop hinv hL ho
          set B2 := ((e.book.set_level ms p
              { orders := [], total_qty := L.total_qty - (e.arena.get i).qty,
                count := L.count - 1 }).remove_order_from_map
              (e.arena.get i).order_id).remove_empty_level ms p with hB2
          have hside2 : B2.sideOf ms = eraseA (e.book.sideOf ms) p := by
            rw [hB2, OrderBook.sideOf_remove_empty_same, sideOf_remove_map,
              OrderBook.sideOf_set_level_same]
            exact eraseA_updateA _ _ _ hnodup_ms
          have hnone : B2.get_level ms p = none := by
            rw [OrderBook.get_level_eq_lookup, hside2]
            exact lookupA_eraseA_self _ _ hnodup_ms
          rw [match_at_level_no_level fuel _ o p ms _ hnone]
          obtain ⟨_, _, _, _, hgetne, _⟩ := Arena.free_spec e.arena i
            (by rw [hinv.nodes_len]; exact hicap)
          refine { inv := hinv2, trades_eq := ?_, rem_eq := ?_, md_only := ?_,
                   other_side_eq := ?_, best_other := ?_, omap_sub := ?_,
                   drained := ?_, view_drained := ?_ }
          · show tradesOf [_, _] = _
            rw [ho, List.map_cons, List.map_nil, spec_level_trades, if_neg hr]
            rfl
          · show r - min r (e.arena.get i).qty = _
            rw [ho, List.map_cons, List.map_nil, spec_level_trades, if_neg hr]
            rfl
          · intro ev hev
            simp only [List.mem_cons] at hev
            rcases hev with rfl | hev
            · rfl
            · rcases hev with rfl | hev
              · rfl
              · simp at hev
          · show B2.sideOf ms.opposite = e.book.sideOf ms.opposite
            rw [hB2, OrderBook.sideOf_remove_empty_other _ _ _ _ (Side.opposite_ne ms),
              sideOf_remove_map,
              OrderBook.sideOf_set_level_other _ _ _ _ _ (Side.opposite_ne ms)]
          · show B2.best_price ms.opposite = e.book.best_price ms.opposite
            rw [hB2, OrderBook.best_price_remove_empty_other, OrderBook.best_price_remove_map,
              OrderBook.best_price_set_level]
          · intro id hid
            have homap2 : B2.order_map = eraseA e.book.order_map (e.arena.get i).order_id := by
              rw [hB2, OrderBook.remove_empty_level_order_map, OrderBook.remove_order_from_map,
                OrderBook.set_level_order_map]
            rw [show ({ arena := e.arena.free i, book := B2 } : MatchingEngine).book.order_map
              = B2.order_map from rfl, homap2, keysA_eraseA] at hid
            exact (keysA e.book.order_map).erase_subset _ hid
          · intro _
            exact hside2
          · intro _
            show (B2.sideOf ms).map _ = _
            rw [hside2]
            exact view_erase_transfer hinv hL hiL _ hgetne
        · -- maker filled, level remains
          have hrest : rest ≠ [] := by
            intro h0
            rw [h0] at hcnt_eq
            simp at hcnt_eq
            omega
          rw [match_at_level_step_full_keep fuel e o p ms r hr hL ho hcnt hinull hfull hcnt1]
          have hinv1 : EngineInv
              { arena := e.arena.free i
                book := (e.book.set_level ms p
                  { orders := rest, total_qty := L.total_qty - (e.arena.get i).qty,
                    count := L.count - 1 }).remove_order_from_map (e.arena.get i).order_id } :=
            inv_full_fill_keep hinv hL ho hrest
          set L1 : PriceLevel := { orders := rest, total_qty := L.total_qty - (e.arena.get i).qty, count := L.count - 1 } with hL1
          set B1 := (e.book.set_level ms p L1).remove_order_from_map (e.arena.get i).order_id with hB1
          have hget1 : B1.get_level ms p = some L1 := by
            rw [hB1, get_level_remove_map]
            exact OrderBook.get_level_set_level_self _ _ _ _ hpk
          obtain ⟨_, _, _, _, hgetne, _⟩ := Arena.free_spec e.arena i
            (by rw [hinv.nodes_len]; exact hicap)
          have hlen1 : L1.orders.length < fuel := by
            have : L.orders.length = rest.length + 1 := by rw [ho, List.length_cons]
            show rest.length < fuel
            omega
          have hmk : L1.orders.map (makerOf (e.arena.free i)) = rest.map (makerOf e.arena) := by
            show rest.map (makerOf (e.arena.free i)) = rest.map (makerOf e.arena)
            refine List.map_congr_left fun j hj => ?_
            exact makerOf_eq_of_get_eq (hgetne j (fun hji => hirest (hji ▸ hj)))
          have hout := ih { arena := e.arena.free i, book := B1 } L1
            (r - min r (e.arena.get i).qty) hinv1 hget1 hlen1
          rw [hmk] at hout
          refine { inv := hout.inv, trades_eq := ?_, rem_eq := ?_, md_only := ?_,
                   other_side_eq := ?_, best_other := ?_, omap_sub := ?_,
                   drained := ?_, view_drained := ?_ }
          · rw [tradesOf_cons_trade, tradesOf_cons_delta]
            rw [hout.trades_eq]
            rw [ho, List.map_cons, spec_level_trades, if_neg hr]
            rfl
          · show (MatchingEngine.match_at_level fuel
                { arena := e.arena.free i, book := B1 } o p ms
                (r - min r (e.arena.get i).qty)).2.1 = _
            rw [hout.rem_eq, ho, List.map_cons, spec_level_trades, if_neg hr]
            rfl
          · intro ev hev
            simp only [List.mem_cons] at hev
            rcases hev with rfl | hev
            · rfl
            · rcases hev with rfl | hev
              · rfl
              · exact hout.md_only ev hev
          · rw [hout.other_side_eq]
            show B1.sideOf ms.opposite = e.book.sideOf ms.opposite
            rw [hB1, sideOf_remove_map,
              OrderBook.sideOf_set_level_other _ _ _ _ _ (Side.opposite_ne ms)]
          · rw [hout.best_other]
            show B1.best_price ms.opposite = e.book.best_price ms.opposite
            rw [hB1, OrderBook.best_price_remove_map, OrderBook.best_price_set_level]
          · intro id hid
            have h2 := hout.omap_sub id hid
            have homap1 : B1.order_map = eraseA e.book.order_map (e.arena.get i).order_id := by
              rw [hB1, OrderBook.remove_order_from_map, OrderBook.set_level_order_map]
            rw [show ({ arena := e.arena.free i, book := B1 } : MatchingEngine).book.order_map
              = B1.order_map from rfl, homap1, keysA_eraseA] at h2
            exact (keysA e.book.order_map).erase_subset _ h2
          · intro hpos
            rw [hout.drained hpos]
            show eraseA (B1.sideOf ms) p = eraseA (e.book.sideOf ms) p
            rw [hB1, sideOf_remove_map, OrderBook.sideOf_set_level_same]
            exact eraseA_updateA _ _ _ hnodup_ms
          · intro hpos
            rw [hout.view_drained hpos]
            show eraseA ((B1.sideOf ms).map
              (fun pl => (pl.1, pl.2.orders.map (makerOf (e.arena.free i))))) p
              = eraseA (e.book_view ms) p
            rw [hB1, sideOf_remove_map, OrderBook.sideOf_set_level_same]
            rw [map_updateA_keyfix (e.book.sideOf ms) p L1
              (fun pl => (pl.1, pl.2.orders.map (makerOf (e.arena.free i)))) (fun en => rfl)]
            rw [eraseA_updateA _ _ _ (by
              rw [keysA_map_keyfix _
                (fun pl : Nat × PriceLevel => (pl.1, pl.2.orders.map (makerOf (e.arena.free i))))
                (fun en => rfl)]
              exact hnodup_ms)]
            rw [← map_eraseA_keyfix (e.book.sideOf ms) p
              (fun pl => (pl.1, pl.2.orders.map (makerOf (e.arena.free i)))) (fun en => rfl)]
            exact view_erase_transfer hinv hL hiL _ hgetne
      · -- maker only part filled, taker exhausted
        rw [match_at_level_step_pfill fuel e o p ms r hr hL ho hcnt hinull hfull]
        have htr : min r (e.arena.get i).qty ≤ (e.arena.get i).qty := Nat.min_le_right _ _
        have hinv1 := inv_partial_fill hinv hL ho htr
        have hrem0 : r - min r (e.arena.get i).qty = 0 := by
          rcases min_choice r (e.arena.get i).qty with h | h
          · rw [h]; omega
          · rw [h] at hfull ⊢; omega
        refine { inv := hinv1, trades_eq := ?_, rem_eq := ?_, md_only := ?_,
                 other_side_eq := ?_, best_other := ?_, omap_sub := ?_,
                 drained := ?_, view_drained := ?_ }
        · show tradesOf [_, _] = _
          rw [ho, List.map_cons, spec_level_trades, if_neg hr]
          dsimp only
          rw [show (r - min r (makerOf e.arena i).qty) = 0 from hrem0]
          rw [spec_level_trades_zero]
          rfl
        · show (0 : Nat) = _
          rw [ho, List.map_cons, spec_level_trades, if_neg hr]
          dsimp only
          rw [show (r - min r (makerOf e.arena i).qty) = 0 from hrem0]
          rw [spec_level_trades_zero]
        · intro ev hev
          simp only [List.mem_cons] at hev
          rcases hev with rfl | hev
          · rfl
          · rcases hev with rfl | hev
            · rfl
            · simp at hev
        · show (e.book.set_level ms p _).sideOf ms.opposite = e.book.sideOf ms.opposite
          rw [OrderBook.sideOf_set_level_other _ _ _ _ _ (Side.opposite_ne ms)]
        · show (e.book.set_level ms p _).best_price ms.opposite = e.book.best_price ms.opposite
          rw [OrderBook.best_price_set_level]
        · intro id h
          have h2 : id ∈ keysA (e.book.set_level ms p
              (L.subtract_qty (min r (e.arena.get i).qty))).order_map := h
          rwa [OrderBook.set_level_order_map] at h2
        · intro hpos
          exact absurd hpos (lt_irrefl 0)
        · intro hpos
          exact absurd hpos (lt_irrefl 0)

theorem tradesOf_append (a b : List OutputEvent) :
    tradesOf (a ++ b) = tradesOf a ++ tradesOf b := by
  rw [tradesOf, tradesOf, tradesOf, List.filterMap_append]

theorem OrderBook.best_opposite_eq (b : OrderBook) (s : Side) :
    b.best_opposite_price s = b.best_price s.opposite := by
  cases s <;> rfl

theorem lookupA_map_val {β γ : Type} (m : List (Nat × β)) (k : Nat) (f : β → γ) :
    lookupA (m.map fun pl => (pl.1, f pl.2)) k = (lookupA m k).map f := by
  induction m with
  | nil => rfl
  | cons e rest ih =>
    by_cases he : e.1 = k
    · simp [lookupA, he]
    · simp [lookupA, he, ih]

theorem best_price_spec_best {e : MatchingEngine} (hinv : EngineInv e) (ms : Side) :
    spec_best (e.book_view ms) ms = e.book.best_price ms := by
  have hk : keysA (e.book_view ms) = keysA (e.book.sideOf ms) := by
    rw [book_view_eq]
    exact keysA_map_keyfix (e.book.sideOf ms)
      (fun pl => (pl.1, pl.2.orders.map (makerOf e.arena))) (fun en => rfl)
  cases ms
  · rw [spec_best_Bid, hk]
    show keyMax (keysA e.book.bids) = e.book.best_bid
    rw [hinv.best_bid_eq]
  · rw [spec_best_Ask, hk]
    show keyMin (keysA e.book.asks) = e.book.best_ask
    rw [hinv.best_ask_eq]

theorem book_view_lookup {e : MatchingEngine} {ms : Side} {p : Nat} {L : PriceLevel}
    (hL : e.book.get_level ms p = some L) :
    lookupA (e.book_view ms) p = some (L.orders.map (makerOf e.arena)) := by
  have h1 : lookupA ((e.book.sideOf ms).map
      fun pl => (pl.1, pl.2.orders.map (makerOf e.arena))) p
      = (lookupA (e.book.sideOf ms) p).map (fun l2 => l2.orders.map (makerOf e.arena)) :=
    lookupA_map_val (e.book.sideOf ms) p (fun l2 => l2.orders.map (makerOf e.arena))
  rw [book_view_eq, h1, ← OrderBook.get_level_eq_lookup, hL]
  rfl

theorem cross_order_zero_rem (f : Nat) (e : MatchingEngine) (o : PlaceOrder) :
    MatchingEngine.cross_order f e o 0 = (e, 0, []) := by
  cases f with
  | zero => rfl
  | succ f => rw [MatchingEngine.cross_order, if_pos rfl]

theorem cross_order_no_best (f : Nat) (e : MatchingEngine) (o : PlaceOrder) (r : Nat)
    (hr : r ≠ 0) (hb : e.book.best_opposite_price o.side = none) :
    MatchingEngine.cross_order (f + 1) e o r = (e, r, []) := by
  rw [MatchingEngine.cross_order, if_neg hr, hb]

theorem cross_order_no_cross (f : Nat) (e : MatchingEngine) (o : PlaceOrder) (r : Nat)
    (best : Nat) (hr : r ≠ 0) (hb : e.book.best_opposite_price o.side = some best)
    (hc : prices_cross o.price best o.side = false) :
    MatchingEngine.cross_order (f + 1) e o r = (e, r, []) := by
  rw [MatchingEngine.cross_order, if_neg hr, hb]
  dsimp only
  rw [hc, if_neg Bool.false_ne_true]

theorem cross_order_step (f : Nat) (e : MatchingEngine) (o : PlaceOrder) (r : Nat)
    (best : Nat) (hr : r ≠ 0) (hb : e.book.best_opposite_price o.side = some best)
    (hc : prices_cross o.price best o.side = true) :
    MatchingEngine.cross_order (f + 1) e o r =
      ((MatchingEngine.cross_order f
          (MatchingEngine.match_at_level (e.level_len o.side.opposite best + 1) e o best
            o.side.opposite r).1 o
          (MatchingEngine.match_at_level (e.level_len o.side.opposite best + 1) e o best
            o.side.opposite r).2.1).1,
       (MatchingEngine.cross_order f
          (MatchingEngine.match_at_level (e.level_len o.side.opposite best + 1) e o best
            o.side.opposite r).1 o
          (MatchingEngine.match_at_level (e.level_len o.side.opposite best + 1) e o best
            o.side.opposite r).2.1).2.1,
       (MatchingEngine.match_at_level (e.level_len o.side.opposite best + 1) e o best
          o.side.opposite r).2.2 ++
       (MatchingEngine.cross_order f
          (MatchingEngine.match_at_level (e.level_len o.side.opposite best + 1) e o best
            o.side.opposite r).1 o
          (MatchingEngine.match_at_level (e.level_len o.side.opposite best + 1) e o best
            o.side.opposite r).2.1).2.2) := by
  rw [MatchingEngine.cross_order, if_neg hr, hb]
  dsimp only
  rw [hc, if_pos rfl]

theorem cross_order_sim (o : PlaceOrder) :
    ∀ fuel (e : MatchingEngine) (r : Nat), EngineInv e →
      (e.book.sideOf o.side.opposite).length < fuel →
      CrossSim e o fuel r (MatchingEngine.cross_order fuel e o r) := by
  intro fuel
  induction fuel with
  | zero => intro e r hinv hf; omega
  | succ fuel ih =>
    intro e r hinv hf
    by_cases hr : r = 0
    · subst hr
      rw [cross_order_zero_rem]
      refine { inv := hinv, trades_eq := ?_, rem_eq := ?_, md_only := ?_,
               same_side_eq := rfl, best_same := rfl, omap_sub := fun id h => h,
               no_cross_left := ?_ }
      · rw [spec_cross_zero]
        rfl
      · rw [spec_cross_zero]
      · intro ev hev
        simp at hev
      · intro hpos
        exact absurd hpos (lt_irrefl 0)
    · cases hb : e.book.best_opposite_price o.side with
      | none =>
        rw [cross_order_no_best fuel e o r hr hb]
        have hsb : spec_best (e.book_view o.side.opposite) o.side.opposite = none := by
          rw [best_price_spec_best hinv, ← OrderBook.best_opposite_eq, hb]
        refine { inv := hinv, trades_eq := ?_, rem_eq := ?_, md_only := ?_,
                 same_side_eq := rfl, best_same := rfl, omap_sub := fun id h => h,
                 no_cross_left := ?_ }
        · rw [spec_cross, if_neg hr, hsb]
          rfl
        · rw [spec_cross, if_neg hr, hsb]
        · intro ev hev
          simp at hev
        · intro hpos bp hbp
          rw [hb] at hbp
          exact absurd hbp (by simp)
      | some best =>
        have hsb : spec_best (e.book_view o.side.opposite) o.side.opposite = some best := by
          rw [best_price_spec_best hinv, ← OrderBook.best_opposite_eq, hb]
        by_cases hc : prices_cross o.price best o.side = true
        · -- the level at the best price crosses; one inner drain then recursion
          have hbp : e.book.best_price o.side.opposite = some best := by
            rw [← OrderBook.best_opposite_eq]
            exact hb
          have hmem : best ∈ keysA (e.book.sideOf o.side.opposite) := by
            cases hs : o.side.opposite
            · rw [hs] at hbp
              have h2 : keyMax (keysA e.book.bids) = some best := by
                rw [← hinv.best_bid_eq]
                exact hbp
              exact (keyMax_spec h2).1
            · rw [hs] at hbp
              have h2 : keyMin (keysA e.book.asks) = some best := by
                rw [← hinv.best_ask_eq]
                exact hbp
              exact (keyMin_spec h2).1
          have hLex : ∃ L, e.book.get_level o.side.opposite best = some L := by
            have h2 := (lookupA_isSome_iff_mem_keys (e.book.sideOf o.side.opposite) best).2 hmem
            cases hl : lookupA (e.book.sideOf o.side.opposite) best with
            | none => rw [hl] at h2; simp at h2
            | some L =>
              exact ⟨L, by rw [OrderBook.get_level_eq_lookup]; exact hl⟩
          obtain ⟨L, hL⟩ := hLex
          have hlen_fuel : L.orders.length < e.level_len o.side.opposite best + 1 := by
            simp only [MatchingEngine.level_len, hL]
            omega
          have hout := match_at_level_outcome o best o.side.opposite
            (e.level_len o.side.opposite best + 1) e L r hinv hL hlen_fuel
          rw [cross_order_step fuel e o r best hr hb hc]
          by_cases hrem : (MatchingEngine.match_at_level (e.level_len o.side.opposite best + 1)
              e o best o.side.opposite r).2.1 = 0
          · rw [hrem, cross_order_zero_rem]
            refine { inv := hout.inv, trades_eq := ?_, rem_eq := ?_, md_only := ?_,
                     same_side_eq := ?_, best_same := ?_, omap_sub := hout.omap_sub,
                     no_cross_left := ?_ }
            · dsimp only
              rw [List.append_nil, hout.trades_eq]
              rw [spec_cross, if_neg hr, hsb]
              dsimp only
              rw [hc, if_pos rfl]
              dsimp only
              rw [book_view_lookup hL, Option.getD_some, ← hout.rem_eq, hrem, spec_cross_zero]
              dsimp only
              rw [List.append_nil]
            · dsimp only
              rw [spec_cross, if_neg hr, hsb]
              dsimp only
              rw [hc, if_pos rfl]
              dsimp only
              rw [book_view_lookup hL, Option.getD_some, ← hout.rem_eq, hrem, spec_cross_zero]
            · intro ev hev
              dsimp only at hev
              rw [List.append_nil] at hev
              exact hout.md_only ev hev
            · dsimp only
              have h2 := hout.other_side_eq
              rwa [Side.opposite_opposite] at h2
            · dsimp only
              have h2 := hout.best_other
              rwa [Side.opposite_opposite] at h2
            · intro hpos
              dsimp only at hpos
              exact absurd hpos (lt_irrefl 0)
          · have hpos0 : 0 < (MatchingEngine.match_at_level
                (e.level_len o.side.opposite best + 1) e o best o.side.opposite r).2.1 :=
              Nat.pos_of_ne_zero hrem
            have hdr := hout.drained hpos0
            have hvdr := hout.view_drained hpos0
            have hlen2 : ((MatchingEngine.match_at_level
                (e.level_len o.side.opposite best + 1) e o best
                o.side.opposite r).1.book.sideOf o.side.opposite).length < fuel := by
              rw [hdr, length_eraseA_of_mem _ _ hmem]
              have h1 : 0 < (e.book.sideOf o.side.opposite).length := by
                cases hm : e.book.sideOf o.side.opposite with
                | nil =>
                  rw [hm] at hmem
                  simp [keysA] at hmem
                | cons a l => simp
              omega
            have hrec := ih (MatchingEngine.match_at_level
                (e.level_len o.side.opposite best + 1) e o best o.side.opposite r).1
              (MatchingEngine.match_at_level
                (e.level_len o.side.opposite best + 1) e o best o.side.opposite r).2.1
              hout.inv hlen2
            refine { inv := hrec.inv, trades_eq := ?_, rem_eq := ?_, md_only := ?_,
                     same_side_eq := ?_, best_same := ?_, omap_sub := ?_,
                     no_cross_left := ?_ }
            · dsimp only
              rw [tradesOf_append, hout.trades_eq, hrec.trades_eq, hvdr]
              rw [spec_cross, if_neg hr, hsb]
              dsimp only
              rw [hc, if_pos rfl]
              dsimp only
              rw [book_view_lookup hL, Option.getD_some, ← hout.rem_eq]
            · dsimp only
              rw [hrec.rem_eq, hvdr]
              rw [spec_cross, if_neg hr, hsb]
              dsimp only
              rw [hc, if_pos rfl]
              dsimp only
              rw [book_view_lookup hL, Option.getD_some, ← hout.rem_eq]
            · intro ev hev
              dsimp only at hev
              rcases List.mem_append.1 hev with h2 | h2
              · exact hout.md_only ev h2
              · exact hrec.md_only ev h2
            · dsimp only
              rw [hrec.same_side_eq]
              have h2 := hout.other_side_eq
              rwa [Side.opposite_opposite] at h2
            · dsimp only
              rw [hrec.best_same]
              have h2 := hout.best_other
              rwa [Side.opposite_opposite] at h2
            · intro id h2
              exact hout.omap_sub id (hrec.omap_sub id h2)
            · intro hpos bp hbp
              exact hrec.no_cross_left hpos bp hbp
        · have hcf : prices_cross o.price best o.side = false := by
            cases hx : prices_cross o.price best o.side
            · rfl
            · exact absurd hx hc
          rw [cross_order_no_cross fuel e o r best hr hb hcf]
          refine { inv := hinv, trades_eq := ?_, rem_eq := ?_, md_only := ?_,
                   same_side_eq := rfl, best_same := rfl, omap_sub := fun id h => h,
                   no_cross_left := ?_ }
          · rw [spec_cross, if_neg hr, hsb]
            dsimp only
            rw [hcf, if_neg Bool.false_ne_true]
            rfl
          · rw [spec_cross, if_neg hr, hsb]
            dsimp only
            rw [hcf, if_neg Bool.false_ne_true]
          · intro ev hev
            simp at hev
          · intro hpos bp hbp
            rw [hb] at hbp
            rw [← Option.some.inj hbp]
            exact hcf

theorem cross_phase_outcome (e : MatchingEngine) (o : PlaceOrder) (hinv : EngineInv e) :
    CrossOutcome e o o.qty (e.cross_phase o) := by
  have hsim := cross_order_sim o ((e.book.sideOf o.side.opposite).length + 1) e o.qty hinv
    (Nat.lt_succ_self _)
  have hvl : (e.book_view o.side.opposite).length
      = (e.book.sideOf o.side.opposite).length := by
    rw [book_view_eq, List.length_map]
  refine { inv := hsim.inv, trades_eq := ?_, rem_eq := ?_, md_only := hsim.md_only,
           same_side_eq := hsim.same_side_eq, best_same := hsim.best_same,
           omap_sub := hsim.omap_sub, no_cross_left := hsim.no_cross_left }
  · have h1 := hsim.trades_eq
    rw [spec_cross_fuel_inv o ((e.book.sideOf o.side.opposite).length + 1)
      ((e.book_view o.side.opposite).length + 1) (e.book_view o.side.opposite) o.qty
      (by omega) (by omega)] at h1
    exact h1
  · have h1 := hsim.rem_eq
    rw [spec_cross_fuel_inv o ((e.book.sideOf o.side.opposite).length + 1)
      ((e.book_view o.side.opposite).length + 1) (e.book_view o.side.opposite) o.qty
      (by omega) (by omega)] at h1
    exact h1

theorem OrderBook.get_level_omap_cons (b : OrderBook) (en : Nat × OrderInfo) (s : Side)
    (p : Nat) :
    ({ b with order_map := en :: b.order_map } : OrderBook).get_level s p = b.get_level s p := by
  cases s <;> rfl

theorem OrderBook.add_order_existing {b : OrderBook} (ar : Arena) {oid : Nat} {uid : Nat}
    {s : Side} {p : Nat} {i : Nat} {L : PriceLevel}
    (hdup : oid ∉ keysA b.order_map) (hL : b.get_level s p = some L) :
    b.add_order ar oid uid s p i
      = ((({ b with order_map := (oid, ⟨i, s, p, uid⟩) :: b.order_map } : OrderBook).set_level
           s p (L.push_back ar i)).update_best_price_on_add s p, true) := by
  rw [OrderBook.add_order, if_neg (fun hco => hdup ((containsA_eq_true_iff _ _).1 hco))]
  dsimp only
  rw [OrderBook.get_or_create_level.eq_def]
  rw [show ({ b with order_map := (oid, ⟨i, s, p, uid⟩) :: b.order_map } : OrderBook).get_level
    s p = some L from by rw [OrderBook.get_level_omap_cons]; exact hL]

theorem OrderBook.add_order_new_bid {b : OrderBook} (ar : Arena) {oid : Nat} {uid : Nat}
    {p : Nat} {i : Nat}
    (hdup : oid ∉ keysA b.order_map) (hL : b.get_level .Bid p = none) :
    b.add_order ar oid uid .Bid p i
      = (({ b with
              order_map := (oid, ⟨i, .Bid, p, uid⟩) :: b.order_map,
              bids := (p, PriceLevel.new.push_back ar i) :: b.bids } : OrderBook
          ).update_best_price_on_add .Bid p, true) := by
  have hpnot : p ∉ keysA b.bids := by
    intro hm
    have h2 := (lookupA_isSome_iff_mem_keys b.bids p).2 hm
    rw [show lookupA b.bids p = none from hL] at h2
    simp at h2
  have hupd : updateA ((p, PriceLevel.new) :: b.bids) p (PriceLevel.new.push_back ar i)
      = (p, PriceLevel.new.push_back ar i) :: b.bids := by
    rw [updateA, List.map_cons]
    dsimp only
    rw [if_pos rfl]
    have h1 := updateA_id_of_not_mem b.bids p (PriceLevel.new.push_back ar i) hpnot
    rw [updateA] at h1
    rw [h1]
  rw [OrderBook.add_order, if_neg (fun hco => hdup ((containsA_eq_true_iff _ _).1 hco))]
  dsimp only
  rw [OrderBook.get_or_create_level.eq_def]
  rw [show ({ b with order_map := (oid, ⟨i, .Bid, p, uid⟩) :: b.order_map } : OrderBook).get_level
    .Bid p = none from by rw [OrderBook.get_level_omap_cons]; exact hL]
  dsimp only
  simp only [OrderBook.set_level]
  rw [hupd]

theorem OrderBook.add_order_new_ask {b : OrderBook} (ar : Arena) {oid : Nat} {uid : Nat}
    {p : Nat} {i : Nat}
    (hdup : oid ∉ keysA b.order_map) (hL : b.get_level .Ask p = none) :
    b.add_order ar oid uid .Ask p i
      = (({ b with
              order_map := (oid, ⟨i, .Ask, p, uid⟩) :: b.order_map,
              asks := (p, PriceLevel.new.push_back ar i) :: b.asks } : OrderBook
          ).update_best_price_on_add .Ask p, true) := by
  have hpnot : p ∉ keysA b.asks := by
    intro hm
    have h2 := (lookupA_isSome_iff_mem_keys b.asks p).2 hm
    rw [show lookupA b.asks p = none from hL] at h2
    simp at h2
  have hupd : updateA ((p, PriceLevel.new) :: b.asks) p (PriceLevel.new.push_back ar i)
      = (p, PriceLevel.new.push_back ar i) :: b.asks := by
    rw [updateA, List.map_cons]
    dsimp only
    rw [if_pos rfl]
    have h1 := updateA_id_of_not_mem b.asks p (PriceLevel.new.push_back ar i) hpnot
    rw [updateA] at h1
    rw [h1]
  rw [OrderBook.add_order, if_neg (fun hco => hdup ((containsA_eq_true_iff _ _).1 hco))]
  dsimp only
  rw [OrderBook.get_or_create_level.eq_def]
  rw [show ({ b with order_map := (oid, ⟨i, .Ask, p, uid⟩) :: b.order_map } : OrderBook).get_level
    .Ask p = none from by rw [OrderBook.get_level_omap_cons]; exact hL]
  dsimp only
  simp only [OrderBook.set_level]
  rw [hupd]

theorem OrderBook.sideOf_omap_cons (b : OrderBook) (en : Nat × OrderInfo) (s : Side) :
    ({ b with order_map := en :: b.order_map } : OrderBook).sideOf s = b.sideOf s := by
  cases s <;> rfl

theorem OrderBook.update_best_bid_val (b : OrderBook) (p : Nat) :
    (b.update_best_price_on_add .Bid p).best_bid
      = if b.best_bid.all (fun best => best < p) then some p else b.best_bid := by
  simp only [OrderBook.update_best_price_on_add]
  split
  · rfl
  · rfl

theorem OrderBook.update_best_ask_val (b : OrderBook) (p : Nat) :
    (b.update_best_price_on_add .Ask p).best_ask
      = if b.best_ask.all (fun best => p < best) then some p else b.best_ask := by
  simp only [OrderBook.update_best_price_on_add]
  split
  · rfl
  · rfl

theorem update_best_bid_keyMax_cons (l : List Nat) (p : Nat) (bb : Option Nat)
    (hbb : bb = keyMax l) :
    (if bb.all fun best => best < p then some p else bb) = keyMax (p :: l) := by
  rw [keyMax]
  cases hm : keyMax l with
  | none =>
    rw [hbb, hm]
    simp [Option.all]
  | some m =>
    rw [hbb, hm]
    simp only [Option.all_some, decide_eq_true_eq]
    by_cases hlt : m < p
    · rw [if_pos hlt, max_eq_left (le_of_lt hlt)]
    · rw [if_neg hlt, max_eq_right (le_of_not_lt hlt)]

theorem update_best_ask_keyMin_cons (l : List Nat) (p : Nat) (ba : Option Nat)
    (hba : ba = keyMin l) :
    (if ba.all fun best => p < best then some p else ba) = keyMin (p :: l) := by
  rw [keyMin]
  cases hm : keyMin l with
  | none =>
    rw [hba, hm]
    simp [Option.all]
  | some m =>
    rw [hba, hm]
    simp only [Option.all_some, decide_eq_true_eq]
    by_cases hlt : p < m
    · rw [if_pos hlt, min_eq_left (le_of_lt hlt)]
    · rw [if_neg hlt, min_eq_right (le_of_not_lt hlt)]

theorem inv_rest_existing {e : MatchingEngine} {o : PlaceOrder} {i : Nat}
    {AR : Arena} {L : PriceLevel}
    (hinv : EngineInv e)
    (hlev : e.book.get_level o.side o.price = some L)
    (hdup : o.order_id ∉ keysA e.book.order_map)
    (hicap : i < e.arena.capacity)
    (hiNL : ¬ e.book.Live i)
    (hARlen : AR.nodes.length = e.arena.nodes.length)
    (hARcap : AR.capacity = e.arena.capacity)
    (hARget : ∀ j, j ≠ i → AR.get j = e.arena.get j)
    (hARoid : (AR.get i).order_id = o.order_id)
    (hfree2 : ∃ tl, FreeChain AR AR.free_head tl ∧ tl.Nodup ∧
      (∀ j ∈ tl, j < AR.capacity) ∧ (∀ j ∈ tl, j ≠ i) ∧ ∀ j ∈ tl, ¬ e.book.Live j) :
    EngineInv (MatchingEngine.mk AR
      (({ e.book with order_map := (o.order_id, ⟨i, o.side, o.price, o.user_id⟩) :: e.book.order_map } : OrderBook).set_level o.side o.price (L.push_back AR i))) := by
  have hwfL := hinv.level_wf hlev
  have hiLnot : i ∉ L.orders := fun hmem => hiNL ⟨o.side, o.price, L, hlev, hmem⟩
  have hpk1 : o.price ∈ keysA (({ e.book with order_map := (o.order_id, ⟨i, o.side, o.price, o.user_id⟩) :: e.book.order_map } : OrderBook).sideOf o.side) := by
    rw [OrderBook.sideOf_omap_cons]
    exact mem_keys_of_lookupA hlev
  refine { cap_lt := ?_, nodes_len := ?_, bids_nodup := ?_, asks_nodup := ?_,
           levels_wf := ?_, best_bid_eq := ?_, best_ask_eq := ?_, not_crossed := ?_,
           live_uniq := ?_, omap_nodup := ?_, omap_wf := ?_, free_ok := ?_ }
  · show AR.capacity < NULL_INDEX
    rw [hARcap]
    exact hinv.cap_lt
  · show AR.nodes.length = AR.capacity
    rw [hARlen, hARcap, hinv.nodes_len]
  · show (keysA ((({ e.book with order_map := (o.order_id, ⟨i, o.side, o.price, o.user_id⟩) :: e.book.order_map } : OrderBook).set_level o.side o.price (L.push_back AR i)).sideOf Side.Bid)).Nodup
    cases hs : o.side
    · rw [OrderBook.sideOf_set_level_same, keysA_updateA, OrderBook.sideOf_omap_cons]
      exact hinv.bids_nodup
    · rw [OrderBook.sideOf_set_level_other _ _ _ _ _ (by simp), OrderBook.sideOf_omap_cons]
      exact hinv.bids_nodup
  · show (keysA ((({ e.book with order_map := (o.order_id, ⟨i, o.side, o.price, o.user_id⟩) :: e.book.order_map } : OrderBook).set_level o.side o.price (L.push_back AR i)).sideOf Side.Ask)).Nodup
    cases hs : o.side
    · rw [OrderBook.sideOf_set_level_other _ _ _ _ _ (by simp), OrderBook.sideOf_omap_cons]
      exact hinv.asks_nodup
    · rw [OrderBook.sideOf_set_level_same, keysA_updateA, OrderBook.sideOf_omap_cons]
      exact hinv.asks_nodup
  · intro s2 p2 L2 hL2
    by_cases hsame : s2 = o.side ∧ p2 = o.price
    · obtain ⟨hs2, hp2⟩ := hsame
      subst hs2
      subst hp2
      rw [OrderBook.get_level_set_level_self _ _ _ _ hpk1] at hL2
      cases hL2
      refine { ne := ?_, nodup := ?_, count_eq := ?_, total_eq := ?_, bounded := ?_ }
      · show L.orders ++ [i] ≠ []
        simp
      · show (L.orders ++ [i]).Nodup
        rw [List.nodup_append]
        refine ⟨hwfL.nodup, by simp, ?_⟩
        intro a ha hb
        have ha2 : a = i := by simpa using hb
        subst ha2
        exact hiLnot ha
      · show L.count + 1 = (L.orders ++ [i]).length
        rw [List.length_append, hwfL.count_eq]
        rfl
      · show L.total_qty + (AR.get i).qty = ((L.orders ++ [i]).map fun j => (AR.get j).qty).sum
        rw [List.map_append, List.sum_append]
        have hs1 : (L.orders.map fun j => (AR.get j).qty)
            = L.orders.map fun j => (e.arena.get j).qty :=
          List.map_congr_left fun j hj => by rw [hARget j (fun h2 => hiLnot (h2 ▸ hj))]
        rw [hs1, ← hwfL.total_eq]
        simp
      · intro j hj
        rcases List.mem_append.1 hj with hj2 | hj2
        · rw [hARcap]
          exact hwfL.bounded j hj2
        · have hj3 : j = i := by simpa using hj2
          subst hj3
          rw [hARcap]
          exact hicap
    · have hL2e : e.book.get_level s2 p2 = some L2 := by
        by_cases hs : s2 = o.side
        · subst hs
          have hp2 : p2 ≠ o.price := fun hp => hsame ⟨rfl, hp⟩
          rw [OrderBook.get_level_set_level_ne _ _ _ _ _ hp2,
            OrderBook.get_level_omap_cons] at hL2
          exact hL2
        · rw [OrderBook.get_level_set_level_other _ _ _ _ _ _ hs,
            OrderBook.get_level_omap_cons] at hL2
          exact hL2
      have hwf2 := hinv.level_wf hL2e
      refine { ne := hwf2.ne, nodup := hwf2.nodup, count_eq := hwf2.count_eq,
               total_eq := ?_, bounded := ?_ }
      · rw [hwf2.total_eq]
        refine congrArg _ (List.map_congr_left fun j hj => ?_)
        have hji : j ≠ i := by
          intro hji2
          subst hji2
          exact hiNL ⟨s2, p2, L2, hL2e, hj⟩
        exact (congrArg OrderNode.qty (hARget j hji)).symm
      · intro j hj
        rw [hARcap]
        exact hwf2.bounded j hj
  · show (({ e.book with order_map := (o.order_id, ⟨i, o.side, o.price, o.user_id⟩) :: e.book.order_map } : OrderBook).set_level o.side o.price (L.push_back AR i)).best_bid
      = keyMax (keysA ((({ e.book with order_map := (o.order_id, ⟨i, o.side, o.price, o.user_id⟩) :: e.book.order_map } : OrderBook).set_level o.side o.price (L.push_back AR i)).sideOf Side.Bid))
    rw [OrderBook.set_level_best_bid]
    cases hs : o.side
    · rw [OrderBook.sideOf_set_level_same, keysA_updateA, OrderBook.sideOf_omap_cons]
      exact hinv.best_bid_eq
    · rw [OrderBook.sideOf_set_level_other _ _ _ _ _ (by simp), OrderBook.sideOf_omap_cons]
      exact hinv.best_bid_eq
  · show (({ e.book with order_map := (o.order_id, ⟨i, o.side, o.price, o.user_id⟩) :: e.book.order_map } : OrderBook).set_level o.side o.price (L.push_back AR i)).best_ask
      = keyMin (keysA ((({ e.book with order_map := (o.order_id, ⟨i, o.side, o.price, o.user_id⟩) :: e.book.order_map } : OrderBook).set_level o.side o.price (L.push_back AR i)).sideOf Side.Ask))
    rw [OrderBook.set_level_best_ask]
    cases hs : o.side
    · rw [OrderBook.sideOf_set_level_other _ _ _ _ _ (by simp), OrderBook.sideOf_omap_cons]
      exact hinv.best_ask_eq
    · rw [OrderBook.sideOf_set_level_same, keysA_updateA, OrderBook.sideOf_omap_cons]
      exact hinv.best_ask_eq
  · intro x y hx hy
    rw [OrderBook.set_level_best_bid] at hx
    rw [OrderBook.set_level_best_ask] at hy
    exact hinv.not_crossed x y hx hy
  · intro s1 p1 l1 s2 p2 l2 j h1 h2 hj1 hj2
    have back : ∀ s3 p3 l3, (({ e.book with order_map := (o.order_id, ⟨i, o.side, o.price, o.user_id⟩) :: e.book.order_map } : OrderBook).set_level o.side o.price (L.push_back AR i)).get_level s3 p3 = some l3 →
        (s3 = o.side ∧ p3 = o.price ∧ l3.orders = L.orders ++ [i]) ∨
        e.book.get_level s3 p3 = some l3 := by
      intro s3 p3 l3 h3
      by_cases hsame : s3 = o.side ∧ p3 = o.price
      · obtain ⟨hs3, hp3⟩ := hsame
        rw [hs3, hp3] at h3
        rw [OrderBook.get_level_set_level_self _ _ _ _ hpk1] at h3
        cases h3
        exact Or.inl ⟨hs3, hp3, rfl⟩
      · right
        by_cases hs : s3 = o.side
        · have hp3 : p3 ≠ o.price := fun hp => hsame ⟨hs, hp⟩
          subst hs
          rw [OrderBook.get_level_set_level_ne _ _ _ _ _ hp3,
            OrderBook.get_level_omap_cons] at h3
          exact h3
        · rw [OrderBook.get_level_set_level_other _ _ _ _ _ _ hs,
            OrderBook.get_level_omap_cons] at h3
          exact h3
    rcases back s1 p1 l1 h1 with ⟨ha1, hb1, ho1⟩ | h01
    · rcases back s2 p2 l2 h2 with ⟨ha2, hb2, ho2⟩ | h02
      · exact ⟨ha1.trans ha2.symm, hb1.trans hb2.symm⟩
      · rw [ho1] at hj1
        rcases List.mem_append.1 hj1 with hjL | hji
        · have hu := hinv.live_uniq o.side o.price L s2 p2 l2 j hlev h02 hjL hj2
          exact ⟨ha1.trans hu.1, hb1.trans hu.2⟩
        · have hji2 : j = i := by simpa using hji
          subst hji2
          exact absurd ⟨s2, p2, l2, h02, hj2⟩ hiNL
    · rcases back s2 p2 l2 h2 with ⟨ha2, hb2, ho2⟩ | h02
      · rw [ho2] at hj2
        rcases List.mem_append.1 hj2 with hjL | hji
        · have hu := hinv.live_uniq s1 p1 l1 o.side o.price L j h01 hlev hj1 hjL
          exact ⟨hu.1.trans ha2.symm, hu.2.trans hb2.symm⟩
        · have hji2 : j = i := by simpa using hji
          subst hji2
          exact absurd ⟨s1, p1, l1, h01, hj1⟩ hiNL
      · exact hinv.live_uniq s1 p1 l1 s2 p2 l2 j h01 h02 hj1 hj2
  · show (keysA ((({ e.book with order_map := (o.order_id, ⟨i, o.side, o.price, o.user_id⟩) :: e.book.order_map } : OrderBook).set_level o.side o.price (L.push_back AR i)).order_map)).Nodup
    rw [OrderBook.set_level_order_map]
    show ((o.order_id : Nat) :: keysA e.book.order_map).Nodup
    exact List.nodup_cons.2 ⟨hdup, hinv.omap_nodup⟩
  · intro id hinfo hlk
    rw [show (({ e.book with order_map := (o.order_id, ⟨i, o.side, o.price, o.user_id⟩) :: e.book.order_map } : OrderBook).set_level o.side o.price (L.push_back AR i)).order_map
      = (o.order_id, (⟨i, o.side, o.price, o.user_id⟩ : OrderInfo)) :: e.book.order_map
      from OrderBook.set_level_order_map _ _ _ _] at hlk
    rw [lookupA] at hlk
    dsimp only at hlk
    by_cases hid : o.order_id = id
    · rw [if_pos hid] at hlk
      have hinfo2 : hinfo = ⟨i, o.side, o.price, o.user_id⟩ := (Option.some.inj hlk).symm
      subst hinfo2
      refine ⟨?_, ?_, ?_⟩
      · show i < AR.capacity
        rw [hARcap]
        exact hicap
      · show (AR.get i).order_id = id
        rw [hARoid, hid]
      · refine ⟨L.push_back AR i, ?_, ?_⟩
        · show (({ e.book with order_map := (o.order_id, ⟨i, o.side, o.price, o.user_id⟩) :: e.book.order_map } : OrderBook).set_level o.side o.price (L.push_back AR i)).get_level o.side o.price = some (L.push_back AR i)
          exact OrderBook.get_level_set_level_self _ _ _ _ hpk1
        · show i ∈ L.orders ++ [i]
          exact List.mem_append_right _ (by simp)
    · rw [if_neg hid] at hlk
      obtain ⟨hcap2, hoid2, Lw, hLw, hmemw⟩ := hinv.omap_wf id hinfo hlk
      have hidx_ne : hinfo.arena_index ≠ i := by
        intro h2
        exact hiNL ⟨hinfo.side, hinfo.price, Lw, hLw, h2 ▸ hmemw⟩
      refine ⟨?_, ?_, ?_⟩
      · rw [hARcap]
        exact hcap2
      · rw [hARget _ hidx_ne]
        exact hoid2
      · by_cases hsame : hinfo.side = o.side ∧ hinfo.price = o.price
        · obtain ⟨hs3, hp3⟩ := hsame
          refine ⟨L.push_back AR i, ?_, ?_⟩
          · rw [hs3, hp3]
            exact OrderBook.get_level_set_level_self _ _ _ _ hpk1
          · show hinfo.arena_index ∈ L.orders ++ [i]
            rw [hs3, hp3] at hLw
            rw [hlev] at hLw
            have hLL : L = Lw := Option.some.inj hLw
            rw [← hLL] at hmemw
            exact List.mem_append_left _ hmemw
        · refine ⟨Lw, ?_, hmemw⟩
          by_cases hs : hinfo.side = o.side
          · have hp3 : hinfo.price ≠ o.price := fun hp => hsame ⟨hs, hp⟩
            rw [hs] at hLw ⊢
            rw [OrderBook.get_level_set_level_ne _ _ _ _ _ hp3, OrderBook.get_level_omap_cons]
            exact hLw
          · rw [OrderBook.get_level_set_level_other _ _ _ _ _ _ hs,
              OrderBook.get_level_omap_cons]
            exact hLw
  · obtain ⟨tl, hch, hnd, hb2, hne_i, hdisj2⟩ := hfree2
    refine ⟨tl, hch, hnd, hb2, ?_⟩
    intro j hj hlive
    obtain ⟨s3, p3, l3, h3, hm3⟩ := hlive
    by_cases hsame : s3 = o.side ∧ p3 = o.price
    · obtain ⟨hs3, hp3⟩ := hsame
      rw [hs3, hp3] at h3
      rw [OrderBook.get_level_set_level_self _ _ _ _ hpk1] at h3
      cases h3
      rcases List.mem_append.1 hm3 with hjL | hji
      · exact hdisj2 j hj ⟨o.side, o.price, L, hlev, hjL⟩
      · have hji2 : j = i := by simpa using hji
        exact hne_i j hj hji2
    · by_cases hs : s3 = o.side
      · have hp3 : p3 ≠ o.price := fun hp => hsame ⟨hs, hp⟩
        rw [hs] at h3
        rw [OrderBook.get_level_set_level_ne _ _ _ _ _ hp3,
          OrderBook.get_level_omap_cons] at h3
        exact hdisj2 j hj ⟨o.side, p3, l3, h3, hm3⟩
      · rw [OrderBook.get_level_set_level_other _ _ _ _ _ _ hs,
          OrderBook.get_level_omap_cons] at h3
        exact hdisj2 j hj ⟨s3, p3, l3, h3, hm3⟩

theorem inv_rest_new_bid {e : MatchingEngine} {oid uid p i : Nat} {AR : Arena}
    (hinv : EngineInv e)
    (hlev : e.book.get_level Side.Bid p = none)
    (hdup : oid ∉ keysA e.book.order_map)
    (hicap : i < e.arena.capacity)
    (hiNL : ¬ e.book.Live i)
    (hnc2 : ∀ y, e.book.best_ask = some y → p < y)
    (hARlen : AR.nodes.length = e.arena.nodes.length)
    (hARcap : AR.capacity = e.arena.capacity)
    (hARget : ∀ j, j ≠ i → AR.get j = e.arena.get j)
    (hARoid : (AR.get i).order_id = oid)
    (hfree2 : ∃ tl, FreeChain AR AR.free_head tl ∧ tl.Nodup ∧
      (∀ j ∈ tl, j < AR.capacity) ∧ (∀ j ∈ tl, j ≠ i) ∧ ∀ j ∈ tl, ¬ e.book.Live j) :
    EngineInv (MatchingEngine.mk AR
      (({ e.book with order_map := (oid, ⟨i, Side.Bid, p, uid⟩) :: e.book.order_map, bids := (p, PriceLevel.new.push_back AR i) :: e.book.bids } : OrderBook).update_best_price_on_add Side.Bid p)) := by
  have hpnot : p ∉ keysA e.book.bids := by
    intro hm
    have h2 := (lookupA_isSome_iff_mem_keys e.book.bids p).2 hm
    rw [show lookupA e.book.bids p = none from hlev] at h2
    simp at h2
  have hsideNew : (({ e.book with order_map := (oid, ⟨i, Side.Bid, p, uid⟩) :: e.book.order_map, bids := (p, PriceLevel.new.push_back AR i) :: e.book.bids } : OrderBook).update_best_price_on_add Side.Bid p).sideOf Side.Bid
      = (p, PriceLevel.new.push_back AR i) :: e.book.bids := by
    rw [OrderBook.update_best_sideOf]
    rfl
  have hsideOld : (({ e.book with order_map := (oid, ⟨i, Side.Bid, p, uid⟩) :: e.book.order_map, bids := (p, PriceLevel.new.push_back AR i) :: e.book.bids } : OrderBook).update_best_price_on_add Side.Bid p).sideOf Side.Ask = e.book.asks := by
    rw [OrderBook.update_best_sideOf]
    rfl
  have hgetNew : ∀ p2, (({ e.book with order_map := (oid, ⟨i, Side.Bid, p, uid⟩) :: e.book.order_map, bids := (p, PriceLevel.new.push_back AR i) :: e.book.bids } : OrderBook).update_best_price_on_add Side.Bid p).get_level Side.Bid p2
      = if p = p2 then some (PriceLevel.new.push_back AR i)
        else e.book.get_level Side.Bid p2 := by
    intro p2
    rw [OrderBook.get_level_eq_lookup, hsideNew, lookupA]
    rfl
  have hgetOld : ∀ p2, (({ e.book with order_map := (oid, ⟨i, Side.Bid, p, uid⟩) :: e.book.order_map, bids := (p, PriceLevel.new.push_back AR i) :: e.book.bids } : OrderBook).update_best_price_on_add Side.Bid p).get_level Side.Ask p2 = e.book.get_level Side.Ask p2 := by
    intro p2
    rw [OrderBook.get_level_eq_lookup, hsideOld]
    rfl
  have homapBN : (({ e.book with order_map := (oid, ⟨i, Side.Bid, p, uid⟩) :: e.book.order_map, bids := (p, PriceLevel.new.push_back AR i) :: e.book.bids } : OrderBook).update_best_price_on_add Side.Bid p).order_map
      = (oid, (⟨i, Side.Bid, p, uid⟩ : OrderInfo)) :: e.book.order_map := by
    rw [OrderBook.update_best_order_map]
  have hbNew : (({ e.book with order_map := (oid, ⟨i, Side.Bid, p, uid⟩) :: e.book.order_map, bids := (p, PriceLevel.new.push_back AR i) :: e.book.bids } : OrderBook).update_best_price_on_add Side.Bid p).best_bid
      = if e.book.best_bid.all (fun best => best < p) then some p else e.book.best_bid := by
    rw [OrderBook.update_best_bid_val]
  have hbOld : (({ e.book with order_map := (oid, ⟨i, Side.Bid, p, uid⟩) :: e.book.order_map, bids := (p, PriceLevel.new.push_back AR i) :: e.book.bids } : OrderBook).update_best_price_on_add Side.Bid p).best_ask = e.book.best_ask := by
    rw [OrderBook.update_best_ask_of_bid]
  have htrans : ∀ s2 p2 L2, e.book.get_level s2 p2 = some L2 → LevelWF AR L2 := by
    intro s2 p2 L2 hL2e
    have hwf2 := hinv.level_wf hL2e
    refine { ne := hwf2.ne, nodup := hwf2.nodup, count_eq := hwf2.count_eq,
             total_eq := ?_, bounded := ?_ }
    · rw [hwf2.total_eq]
      refine congrArg _ (List.map_congr_left fun j hj => ?_)
      have hji : j ≠ i := fun hji2 => hiNL ⟨s2, p2, L2, hL2e, hji2 ▸ hj⟩
      exact (congrArg OrderNode.qty (hARget j hji)).symm
    · intro j hj
      rw [hARcap]
      exact hwf2.bounded j hj
  refine { cap_lt := ?_, nodes_len := ?_, bids_nodup := ?_, asks_nodup := ?_,
           levels_wf := ?_, best_bid_eq := ?_, best_ask_eq := ?_, not_crossed := ?_,
           live_uniq := ?_, omap_nodup := ?_, omap_wf := ?_, free_ok := ?_ }
  · show AR.capacity < NULL_INDEX
    rw [hARcap]
    exact hinv.cap_lt
  · show AR.nodes.length = AR.capacity
    rw [hARlen, hARcap, hinv.nodes_len]
  · show (keysA ((({ e.book with order_map := (oid, ⟨i, Side.Bid, p, uid⟩) :: e.book.order_map, bids := (p, PriceLevel.new.push_back AR i) :: e.book.bids } : OrderBook).update_best_price_on_add Side.Bid p).sideOf Side.Bid)).Nodup
    rw [hsideNew]
    show ((p : Nat) :: keysA e.book.bids).Nodup
    exact List.nodup_cons.2 ⟨hpnot, hinv.bids_nodup⟩
  · show (keysA ((({ e.book with order_map := (oid, ⟨i, Side.Bid, p, uid⟩) :: e.book.order_map, bids := (p, PriceLevel.new.push_back AR i) :: e.book.bids } : OrderBook).update_best_price_on_add Side.Bid p).sideOf Side.Ask)).Nodup
    rw [hsideOld]
    exact hinv.asks_nodup
  · intro s2 p2 L2 hL2
    cases s2
    · rw [hgetNew] at hL2
      by_cases hp2 : p = p2
      · rw [if_pos hp2] at hL2
        cases hL2
        refine { ne := ?_, nodup := ?_, count_eq := ?_, total_eq := ?_, bounded := ?_ }
        · show PriceLevel.new.orders ++ [i] ≠ []
          simp
        · show (PriceLevel.new.orders ++ [i]).Nodup
          simp [PriceLevel.new]
        · simp [PriceLevel.push_back, PriceLevel.new]
        · simp [PriceLevel.push_back, PriceLevel.new]
        · intro j hj
          have hj2 : j = i := by simpa [PriceLevel.push_back, PriceLevel.new] using hj
          subst hj2
          rw [hARcap]
          exact hicap
      · rw [if_neg hp2] at hL2
        exact htrans Side.Bid p2 L2 hL2
    · rw [hgetOld] at hL2
      exact htrans Side.Ask p2 L2 hL2
  · show (({ e.book with order_map := (oid, ⟨i, Side.Bid, p, uid⟩) :: e.book.order_map, bids := (p, PriceLevel.new.push_back AR i) :: e.book.bids } : OrderBook).update_best_price_on_add Side.Bid p).best_bid = keyMax (keysA ((({ e.book with order_map := (oid, ⟨i, Side.Bid, p, uid⟩) :: e.book.order_map, bids := (p, PriceLevel.new.push_back AR i) :: e.book.bids } : OrderBook).update_best_price_on_add Side.Bid p).sideOf Side.Bid))
    rw [hbNew, hsideNew]
    rw [show keysA ((p, PriceLevel.new.push_back AR i) :: e.book.bids)
      = p :: keysA e.book.bids from rfl]
    exact update_best_bid_keyMax_cons (keysA e.book.bids) p e.book.best_bid hinv.best_bid_eq
  · show (({ e.book with order_map := (oid, ⟨i, Side.Bid, p, uid⟩) :: e.book.order_map, bids := (p, PriceLevel.new.push_back AR i) :: e.book.bids } : OrderBook).update_best_price_on_add Side.Bid p).best_ask = keyMin (keysA ((({ e.book with order_map := (oid, ⟨i, Side.Bid, p, uid⟩) :: e.book.order_map, bids := (p, PriceLevel.new.push_back AR i) :: e.book.bids } : OrderBook).update_best_price_on_add Side.Bid p).sideOf Side.Ask))
    rw [hbOld, hsideOld]
    exact hinv.best_ask_eq
  · intro x y hx hy
    rw [hbNew] at hx
    rw [hbOld] at hy
    by_cases hcond : e.book.best_bid.all (fun best => best < p) = true
    · rw [if_pos hcond] at hx
      have hx2 : p = x := Option.some.inj hx
      subst hx2
      exact hnc2 y hy
    · rw [if_neg hcond] at hx
      exact hinv.not_crossed x y hx hy
  · intro s1 p1 l1 s2 p2 l2 j h1 h2 hj1 hj2
    have back : ∀ s3 p3 l3, (({ e.book with order_map := (oid, ⟨i, Side.Bid, p, uid⟩) :: e.book.order_map, bids := (p, PriceLevel.new.push_back AR i) :: e.book.bids } : OrderBook).update_best_price_on_add Side.Bid p).get_level s3 p3 = some l3 →
        (s3 = Side.Bid ∧ p3 = p ∧ l3.orders = PriceLevel.new.orders ++ [i]) ∨
        e.book.get_level s3 p3 = some l3 := by
      intro s3 p3 l3 h3
      cases s3
      · rw [hgetNew] at h3
        by_cases hp3 : p = p3
        · rw [if_pos hp3] at h3
          cases h3
          exact Or.inl ⟨rfl, hp3.symm, rfl⟩
        · rw [if_neg hp3] at h3
          exact Or.inr h3
      · rw [hgetOld] at h3
        exact Or.inr h3
    rcases back s1 p1 l1 h1 with ⟨ha1, hb1, ho1⟩ | h01
    · rcases back s2 p2 l2 h2 with ⟨ha2, hb2, ho2⟩ | h02
      · exact ⟨ha1.trans ha2.symm, hb1.trans hb2.symm⟩
      · rw [ho1] at hj1
        have hji : j = i := by simpa [PriceLevel.new] using hj1
        subst hji
        exact absurd ⟨s2, p2, l2, h02, hj2⟩ hiNL
    · rcases back s2 p2 l2 h2 with ⟨ha2, hb2, ho2⟩ | h02
      · rw [ho2] at hj2
        have hji : j = i := by simpa [PriceLevel.new] using hj2
        subst hji
        exact absurd ⟨s1, p1, l1, h01, hj1⟩ hiNL
      · exact hinv.live_uniq s1 p1 l1 s2 p2 l2 j h01 h02 hj1 hj2
  · show (keysA ((({ e.book with order_map := (oid, ⟨i, Side.Bid, p, uid⟩) :: e.book.order_map, bids := (p, PriceLevel.new.push_back AR i) :: e.book.bids } : OrderBook).update_best_price_on_add Side.Bid p).order_map)).Nodup
    rw [homapBN]
    show ((oid : Nat) :: keysA e.book.order_map).Nodup
    exact List.nodup_cons.2 ⟨hdup, hinv.omap_nodup⟩
  · intro id hinfo hlk
    rw [homapBN] at hlk
    rw [lookupA] at hlk
    dsimp only at hlk
    by_cases hid : oid = id
    · rw [if_pos hid] at hlk
      have hinfo2 : hinfo = ⟨i, Side.Bid, p, uid⟩ := (Option.some.inj hlk).symm
      subst hinfo2
      refine ⟨?_, ?_, ?_⟩
      · show i < AR.capacity
        rw [hARcap]
        exact hicap
      · show (AR.get i).order_id = id
        rw [hARoid, hid]
      · refine ⟨PriceLevel.new.push_back AR i, ?_, ?_⟩
        · show (({ e.book with order_map := (oid, ⟨i, Side.Bid, p, uid⟩) :: e.book.order_map, bids := (p, PriceLevel.new.push_back AR i) :: e.book.bids } : OrderBook).update_best_price_on_add Side.Bid p).get_level Side.Bid p = some (PriceLevel.new.push_back AR i)
          rw [hgetNew, if_pos rfl]
        · show i ∈ PriceLevel.new.orders ++ [i]
          simp
    · rw [if_neg hid] at hlk
      obtain ⟨hcap2, hoid2, Lw, hLw, hmemw⟩ := hinv.omap_wf id hinfo hlk
      have hidx_ne : hinfo.arena_index ≠ i := fun h2 =>
        hiNL ⟨hinfo.side, hinfo.price, Lw, hLw, h2 ▸ hmemw⟩
      refine ⟨?_, ?_, ?_⟩
      · rw [hARcap]
        exact hcap2
      · rw [hARget _ hidx_ne]
        exact hoid2
      · refine ⟨Lw, ?_, hmemw⟩
        cases hs3 : hinfo.side
        · rw [hs3] at hLw
          have hp3 : p ≠ hinfo.price := by
            intro hp
            rw [← hp] at hLw
            rw [hlev] at hLw
            simp at hLw
          rw [hgetNew, if_neg hp3]
          exact hLw
        · rw [hs3] at hLw
          rw [hgetOld]
          exact hLw
  · obtain ⟨tl, hch, hnd, hb2, hne_i, hdisj2⟩ := hfree2
    refine ⟨tl, hch, hnd, hb2, ?_⟩
    intro j hj hlive
    obtain ⟨s3, p3, l3, h3, hm3⟩ := hlive
    cases s3
    · rw [hgetNew] at h3
      by_cases hp3 : p = p3
      · rw [if_pos hp3] at h3
        cases h3
        have hji : j = i := by simpa [PriceLevel.new, PriceLevel.push_back] using hm3
        exact hne_i j hj hji
      · rw [if_neg hp3] at h3
        exact hdisj2 j hj ⟨Side.Bid, p3, l3, h3, hm3⟩
    · rw [hgetOld] at h3
      exact hdisj2 j hj ⟨Side.Ask, p3, l3, h3, hm3⟩

theorem inv_rest_new_ask {e : MatchingEngine} {oid uid p i : Nat} {AR : Arena}
    (hinv : EngineInv e)
    (hlev : e.book.get_level Side.Ask p = none)
    (hdup : oid ∉ keysA e.book.order_map)
    (hicap : i < e.arena.capacity)
    (hiNL : ¬ e.book.Live i)
    (hnc2 : ∀ x, e.book.best_bid = some x → x < p)
    (hARlen : AR.nodes.length = e.arena.nodes.length)
    (hARcap : AR.capacity = e.arena.capacity)
    (hARget : ∀ j, j ≠ i → AR.get j = e.arena.get j)
    (hARoid : (AR.get i).order_id = oid)
    (hfree2 : ∃ tl, FreeChain AR AR.free_head tl ∧ tl.Nodup ∧
      (∀ j ∈ tl, j < AR.capacity) ∧ (∀ j ∈ tl, j ≠ i) ∧ ∀ j ∈ tl, ¬ e.book.Live j) :
    EngineInv (MatchingEngine.mk AR
      (({ e.book with order_map := (oid, ⟨i, Side.Ask, p, uid⟩) :: e.book.order_map, asks := (p, PriceLevel.new.push_back AR i) :: e.book.asks } : OrderBook).update_best_price_on_add Side.Ask p)) := by
  have hpnot : p ∉ keysA e.book.asks := by
    intro hm
    have h2 := (lookupA_isSome_iff_mem_keys e.book.asks p).2 hm
    rw [show lookupA e.book.asks p = none from hlev] at h2
    simp at h2
  have hsideNew : (({ e.book with order_map := (oid, ⟨i, Side.Ask, p, uid⟩) :: e.book.order_map, asks := (p, PriceLevel.new.push_back AR i) :: e.book.asks } : OrderBook).update_best_price_on_add Side.Ask p).sideOf Side.Ask
      = (p, PriceLevel.new.push_back AR i) :: e.book.asks := by
    rw [OrderBook.update_best_sideOf]
    rfl
  have hsideOld : (({ e.book with order_map := (oid, ⟨i, Side.Ask, p, uid⟩) :: e.book.order_map, asks := (p, PriceLevel.new.push_back AR i) :: e.book.asks } : OrderBook).update_best_price_on_add Side.Ask p).sideOf Side.Bid = e.book.bids := by
    rw [OrderBook.update_best_sideOf]
    rfl
  have hgetNew : ∀ p2, (({ e.book with order_map := (oid, ⟨i, Side.Ask, p, uid⟩) :: e.book.order_map, asks := (p, PriceLevel.new.push_back AR i) :: e.book.asks } : OrderBook).update_best_price_on_add Side.Ask p).get_level Side.Ask p2
      = if p = p2 then some (PriceLevel.new.push_back AR i)
        else e.book.get_level Side.Ask p2 := by
    intro p2
    rw [OrderBook.get_level_eq_lookup, hsideNew, lookupA]
    rfl
  have hgetOld : ∀ p2, (({ e.book with order_map := (oid, ⟨i, Side.Ask, p, uid⟩) :: e.book.order_map, asks := (p, PriceLevel.new.push_back AR i) :: e.book.asks } : OrderBook).update_best_price_on_add Side.Ask p).get_level Side.Bid p2 = e.book.get_level Side.Bid p2 := by
    intro p2
    rw [OrderBook.get_level_eq_lookup, hsideOld]
    rfl
  have homapBN : (({ e.book with order_map := (oid, ⟨i, Side.Ask, p, uid⟩) :: e.book.order_map, asks := (p, PriceLevel.new.push_back AR i) :: e.book.asks } : OrderBook).update_best_price_on_add Side.Ask p).order_map
      = (oid, (⟨i, Side.Ask, p, uid⟩ : OrderInfo)) :: e.book.order_map := by
    rw [OrderBook.update_best_order_map]
  have hbNew : (({ e.book with order_map := (oid, ⟨i, Side.Ask, p, uid⟩) :: e.book.order_map, asks := (p, PriceLevel.new.push_back AR i) :: e.book.asks } : OrderBook).update_best_price_on_add Side.Ask p).best_ask
      = if e.book.best_ask.all (fun best => p < best) then some p else e.book.best_ask := by
    rw [OrderBook.update_best_ask_val]
  have hbOld : (({ e.book with order_map := (oid, ⟨i, Side.Ask, p, uid⟩) :: e.book.order_map, asks := (p, PriceLevel.new.push_back AR i) :: e.book.asks } : OrderBook).update_best_price_on_add Side.Ask p).best_bid = e.book.best_bid := by
    rw [OrderBook.update_best_bid_of_ask]
  have htrans : ∀ s2 p2 L2, e.book.get_level s2 p2 = some L2 → LevelWF AR L2 := by
    intro s2 p2 L2 hL2e
    have hwf2 := hinv.level_wf hL2e
    refine { ne := hwf2.ne, nodup := hwf2.nodup, count_eq := hwf2.count_eq,
             total_eq := ?_, bounded := ?_ }
    · rw [hwf2.total_eq]
      refine congrArg _ (List.map_congr_left fun j hj => ?_)
      have hji : j ≠ i := fun hji2 => hiNL ⟨s2, p2, L2, hL2e, hji2 ▸ hj⟩
      exact (congrArg OrderNode.qty (hARget j hji)).symm
    · intro j hj
      rw [hARcap]
      exact hwf2.bounded j hj
  refine { cap_lt := ?_, nodes_len := ?_, bids_nodup := ?_, asks_nodup := ?_,
           levels_wf := ?_, best_bid_eq := ?_, best_ask_eq := ?_, not_crossed := ?_,
           live_uniq := ?_, omap_nodup := ?_, omap_wf := ?_, free_ok := ?_ }
  · show AR.capacity < NULL_INDEX
    rw [hARcap]
    exact hinv.cap_lt
  · show AR.nodes.length = AR.capacity
    rw [hARlen, hARcap, hinv.nodes_len]
  · show (keysA ((({ e.book with order_map := (oid, ⟨i, Side.Ask, p, uid⟩) :: e.book.order_map, asks := (p, PriceLevel.new.push_back AR i) :: e.book.asks } : OrderBook).update_best_price_on_add Side.Ask p).sideOf Side.Bid)).Nodup
    rw [hsideOld]
    exact hinv.bids_nodup
  · show (keysA ((({ e.book with order_map := (oid, ⟨i, Side.Ask, p, uid⟩) :: e.book.order_map, asks := (p, PriceLevel.new.push_back AR i) :: e.book.asks } : OrderBook).update_best_price_on_add Side.Ask p).sideOf Side.Ask)).Nodup
    rw [hsideNew]
    show ((p : Nat) :: keysA e.book.asks).Nodup
    exact List.nodup_cons.2 ⟨hpnot, hinv.asks_nodup⟩
  · intro s2 p2 L2 hL2
    cases s2
    · rw [hgetOld] at hL2
      exact htrans Side.Bid p2 L2 hL2
    · rw [hgetNew] at hL2
      by_cases hp2 : p = p2
      · rw [if_pos hp2] at hL2
        cases hL2
        refine { ne := ?_, nodup := ?_, count_eq := ?_, total_eq := ?_, bounded := ?_ }
        · show PriceLevel.new.orders ++ [i] ≠ []
          simp
        · show (PriceLevel.new.orders ++ [i]).Nodup
          simp [PriceLevel.new]
        · simp [PriceLevel.push_back, PriceLevel.new]
        · simp [PriceLevel.push_back, PriceLevel.new]
        · intro j hj
          have hj2 : j = i := by simpa [PriceLevel.push_back, PriceLevel.new] using hj
          subst hj2
          rw [hARcap]
          exact hicap
      · rw [if_neg hp2] at hL2
        exact htrans Side.Ask p2 L2 hL2
  · show (({ e.book with order_map := (oid, ⟨i, Side.Ask, p, uid⟩) :: e.book.order_map, asks := (p, PriceLevel.new.push_back AR i) :: e.book.asks } : OrderBook).update_best_price_on_add Side.Ask p).best_bid = keyMax (keysA ((({ e.book with order_map := (oid, ⟨i, Side.Ask, p, uid⟩) :: e.book.order_map, asks := (p, PriceLevel.new.push_back AR i) :: e.book.asks } : OrderBook).update_best_price_on_add Side.Ask p).sideOf Side.Bid))
    rw [hbOld, hsideOld]
    exact hinv.best_bid_eq
  · show (({ e.book with order_map := (oid, ⟨i, Side.Ask, p, uid⟩) :: e.book.order_map, asks := (p, PriceLevel.new.push_back AR i) :: e.book.asks } : OrderBook).update_best_price_on_add Side.Ask p).best_ask = keyMin (keysA ((({ e.book with order_map := (oid, ⟨i, Side.Ask, p, uid⟩) :: e.book.order_map, asks := (p, PriceLevel.new.push_back AR i) :: e.book.asks } : OrderBook).update_best_price_on_add Side.Ask p).sideOf Side.Ask))
    rw [hbNew, hsideNew]
    rw [show keysA ((p, PriceLevel.new.push_back AR i) :: e.book.asks)
      = p :: keysA e.book.asks from rfl]
    exact update_best_ask_keyMin_cons (keysA e.book.asks) p e.book.best_ask hinv.best_ask_eq
  · intro x y hx hy
    rw [hbOld] at hx
    rw [hbNew] at hy
    by_cases hcond : e.book.best_ask.all (fun best => p < best) = true
    · rw [if_pos hcond] at hy
      have hy2 : p = y := Option.some.inj hy
      subst hy2
      exact hnc2 x hx
    · rw [if_neg hcond] at hy
      exact hinv.not_crossed x y hx hy
  · intro s1 p1 l1 s2 p2 l2 j h1 h2 hj1 hj2
    have back : ∀ s3 p3 l3, (({ e.book with order_map := (oid, ⟨i, Side.Ask, p, uid⟩) :: e.book.order_map, asks := (p, PriceLevel.new.push_back AR i) :: e.book.asks } : OrderBook).update_best_price_on_add Side.Ask p).get_level s3 p3 = some l3 →
        (s3 = Side.Ask ∧ p3 = p ∧ l3.orders = PriceLevel.new.orders ++ [i]) ∨
        e.book.get_level s3 p3 = some l3 := by
      intro s3 p3 l3 h3
      cases s3
      · rw [hgetOld] at h3
        exact Or.inr h3
      · rw [hgetNew] at h3
        by_cases hp3 : p = p3
        · rw [if_pos hp3] at h3
          cases h3
          exact Or.inl ⟨rfl, hp3.symm, rfl⟩
        · rw [if_neg hp3] at h3
          exact Or.inr h3
    rcases back s1 p1 l1 h1 with ⟨ha1, hb1, ho1⟩ | h01
    · rcases back s2 p2 l2 h2 with ⟨ha2, hb2, ho2⟩ | h02
      · exact ⟨ha1.trans ha2.symm, hb1.trans hb2.symm⟩
      · rw [ho1] at hj1
        have hji : j = i := by simpa [PriceLevel.new] using hj1
        subst hji
        exact absurd ⟨s2, p2, l2, h02, hj2⟩ hiNL
    · rcases back s2 p2 l2 h2 with ⟨ha2, hb2, ho2⟩ | h02
      · rw [ho2] at hj2
        have hji : j = i := by simpa [PriceLevel.new] using hj2
        subst hji
        exact absurd ⟨s1, p1, l1, h01, hj1⟩ hiNL
      · exact hinv.live_uniq s1 p1 l1 s2 p2 l2 j h01 h02 hj1 hj2
  · show (keysA ((({ e.book with order_map := (oid, ⟨i, Side.Ask, p, uid⟩) :: e.book.order_map, asks := (p, PriceLevel.new.push_back AR i) :: e.book.asks } : OrderBook).update_best_price_on_add Side.Ask p).order_map)).Nodup
    rw [homapBN]
    show ((oid : Nat) :: keysA e.book.order_map).Nodup
    exact List.nodup_cons.2 ⟨hdup, hinv.omap_nodup⟩
  · intro id hinfo hlk
    rw [homapBN] at hlk
    rw [lookupA] at hlk
    dsimp only at hlk
    by_cases hid : oid = id
    · rw [if_pos hid] at hlk
      have hinfo2 : hinfo = ⟨i, Side.Ask, p, uid⟩ := (Option.some.inj hlk).symm
      subst hinfo2
      refine ⟨?_, ?_, ?_⟩
      · show i < AR.capacity
        rw [hARcap]
        exact hicap
      · show (AR.get i).order_id = id
        rw [hARoid, hid]
      · refine ⟨PriceLevel.new.push_back AR i, ?_, ?_⟩
        · show (({ e.book with order_map := (oid, ⟨i, Side.Ask, p, uid⟩) :: e.book.order_map, asks := (p, PriceLevel.new.push_back AR i) :: e.book.asks } : OrderBook).update_best_price_on_add Side.Ask p).get_level Side.Ask p = some (PriceLevel.new.push_back AR i)
          rw [hgetNew, if_pos rfl]
        · show i ∈ PriceLevel.new.orders ++ [i]
          simp
    · rw [if_neg hid] at hlk
      obtain ⟨hcap2, hoid2, Lw, hLw, hmemw⟩ := hinv.omap_wf id hinfo hlk
      have hidx_ne : hinfo.arena_index ≠ i := fun h2 =>
        hiNL ⟨hinfo.side, hinfo.price, Lw, hLw, h2 ▸ hmemw⟩
      refine ⟨?_, ?_, ?_⟩
      · rw [hARcap]
        exact hcap2
      · rw [hARget _ hidx_ne]
        exact hoid2
      · refine ⟨Lw, ?_, hmemw⟩
        cases hs3 : hinfo.side
        · rw [hs3] at hLw
          rw [hgetOld]
          exact hLw
        · rw [hs3] at hLw
          have hp3 : p ≠ hinfo.price := by
            intro hp
            rw [← hp] at hLw
            rw [hlev] at hLw
            simp at hLw
          rw [hgetNew, if_neg hp3]
          exact hLw
  · obtain ⟨tl, hch, hnd, hb2, hne_i, hdisj2⟩ := hfree2
    refine ⟨tl, hch, hnd, hb2, ?_⟩
    intro j hj hlive
    obtain ⟨s3, p3, l3, h3, hm3⟩ := hlive
    cases s3
    · rw [hgetOld] at h3
      exact hdisj2 j hj ⟨Side.Bid, p3, l3, h3, hm3⟩
    · rw [hgetNew] at h3
      by_cases hp3 : p = p3
      · rw [if_pos hp3] at h3
        cases h3
        have hji : j = i := by simpa [PriceLevel.new, PriceLevel.push_back] using hm3
        exact hne_i j hj hji
      · rw [if_neg hp3] at h3
        exact hdisj2 j hj ⟨Side.Ask, p3, l3, h3, hm3⟩

theorem OrderBook.add_order_existing_id {b : OrderBook} (ar : Arena) {oid uid : Nat}
    {s : Side} {p : Nat} {i : Nat} {L : PriceLevel}
    (hdup : oid ∉ keysA b.order_map) (hL : b.get_level s p = some L)
    (hbb : b.best_bid = keyMax (keysA b.bids)) (hba : b.best_ask = keyMin (keysA b.asks)) :
    (b.add_order ar oid uid s p i).1
      = ({ b with order_map := (oid, ⟨i, s, p, uid⟩) :: b.order_map } : OrderBook).set_level
          s p (L.push_back ar i) := by
  rw [OrderBook.add_order_existing ar hdup hL]
  dsimp only
  refine OrderBook.update_best_existing _ _ _ ?_ ?_ ?_
  · rw [OrderBook.set_level_best_bid]
    cases s
    · show b.best_bid = keyMax (keysA (updateA b.bids p (L.push_back ar i)))
      rw [keysA_updateA]
      exact hbb
    · show b.best_bid = keyMax (keysA b.bids)
      exact hbb
  · rw [OrderBook.set_level_best_ask]
    cases s
    · show b.best_ask = keyMin (keysA b.asks)
      exact hba
    · show b.best_ask = keyMin (keysA (updateA b.asks p (L.push_back ar i)))
      rw [keysA_updateA]
      exact hba
  · rw [OrderBook.sideOf_set_level_same, keysA_updateA, OrderBook.sideOf_omap_cons]
    exact mem_keys_of_lookupA hL

theorem rest_inv {e : MatchingEngine} {o : PlaceOrder} {q : Nat} {e2 : MatchingEngine}
    {evs : List OutputEvent}
    (hinv : EngineInv e)
    (hnc : ∀ bp, e.book.best_opposite_price o.side = some bp →
      prices_cross o.price bp o.side = false)
    (hdup : o.order_id ∉ keysA e.book.order_map)
    (hres : MatchingEngine.rest_order e o q = some (e2, evs)) :
    EngineInv e2 := by
  obtain ⟨fl, hchain, hflnd, hflb, hfldisj⟩ := hinv.free_ok
  cases fl with
  | nil =>
    have halloc : e.arena.alloc = none := FreeChain.alloc_none hchain
    rw [MatchingEngine.rest_order, halloc] at hres
    simp at hres
  | cons i tl =>
    have hicap : i < e.arena.capacity := hflb i (List.mem_cons_self i tl)
    have hilen : i < e.arena.nodes.length := by
      rw [hinv.nodes_len]
      exact hicap
    have hitl : i ∉ tl := (List.nodup_cons.1 hflnd).1
    have hiNL : ¬ e.book.Live i := hfldisj i (List.mem_cons_self i tl)
    obtain ⟨a2, halloc, ha2fh, ha2cnt, ha2cap, ha2len, ha2get, ha2geti, ha2chain⟩ :=
      Arena.alloc_spec hchain hflnd hilen
    rw [MatchingEngine.rest_order, halloc] at hres
    dsimp only at hres
    have hpair := Option.some.inj hres
    have hfst : e2 = MatchingEngine.mk (a2.set_node i fun n => { n with order_id := o.order_id, user_id := o.user_id, price := o.price, qty := q })
        ((e.book.add_order (a2.set_node i fun n => { n with order_id := o.order_id, user_id := o.user_id, price := o.price, qty := q }) o.order_id o.user_id o.side o.price i).1) :=
      (congrArg Prod.fst hpair).symm
    rw [hfst]
    have hARlen : ((a2.set_node i fun n => { n with order_id := o.order_id, user_id := o.user_id, price := o.price, qty := q })).nodes.length = e.arena.nodes.length := by
      rw [Arena.set_node_nodes_length, ha2len]
    have hARcap : ((a2.set_node i fun n => { n with order_id := o.order_id, user_id := o.user_id, price := o.price, qty := q })).capacity = e.arena.capacity := by
      rw [Arena.set_node_capacity, ha2cap]
    have hARget : ∀ j, j ≠ i → ((a2.set_node i fun n => { n with order_id := o.order_id, user_id := o.user_id, price := o.price, qty := q })).get j = e.arena.get j := by
      intro j hj
      rw [Arena.get_set_node_ne _ _ _ _ hj, ha2get j hj]
    have hARoid : (((a2.set_node i fun n => { n with order_id := o.order_id, user_id := o.user_id, price := o.price, qty := q })).get i).order_id = o.order_id := by
      rw [Arena.get_set_node_self _ _ _ (by rw [ha2len]; exact hilen)]
    have hfree2 : ∃ tl2, FreeChain (a2.set_node i fun n => { n with order_id := o.order_id, user_id := o.user_id, price := o.price, qty := q }) ((a2.set_node i fun n => { n with order_id := o.order_id, user_id := o.user_id, price := o.price, qty := q })).free_head tl2 ∧ tl2.Nodup ∧
        (∀ j ∈ tl2, j < ((a2.set_node i fun n => { n with order_id := o.order_id, user_id := o.user_id, price := o.price, qty := q })).capacity) ∧ (∀ j ∈ tl2, j ≠ i) ∧
        ∀ j ∈ tl2, ¬ e.book.Live j := by
      refine ⟨tl, ?_, (List.nodup_cons.1 hflnd).2, ?_, ?_, ?_⟩
      · rw [show ((a2.set_node i fun n => { n with order_id := o.order_id, user_id := o.user_id, price := o.price, qty := q })).free_head = a2.free_head from Arena.set_node_free_head _ _ _]
        refine ha2chain.stable fun j hj => ?_
        rw [Arena.get_set_node_ne _ _ _ _ (fun (h2 : j = i) => hitl (h2 ▸ hj))]
      · intro j hj
        rw [hARcap]
        exact hflb j (List.mem_cons_of_mem i hj)
      · intro j hj h2
        exact hitl (h2 ▸ hj)
      · intro j hj
        exact hfldisj j (List.mem_cons_of_mem i hj)
    cases hlev : e.book.get_level o.side o.price with
    | some L =>
      rw [OrderBook.add_order_existing_id (a2.set_node i fun n => { n with order_id := o.order_id, user_id := o.user_id, price := o.price, qty := q }) hdup hlev hinv.best_bid_eq hinv.best_ask_eq]
      exact inv_rest_existing hinv hlev hdup hicap hiNL hARlen hARcap hARget hARoid hfree2
    | none =>
      cases hs : o.side
      · rw [hs] at hlev hnc
        have hnc2 : ∀ y, e.book.best_ask = some y → o.price < y := by
          intro y hy
          have h2 := hnc y hy
          rw [prices_cross_Bid] at h2
          have h3 := of_decide_eq_false h2
          omega
        rw [congrArg Prod.fst (OrderBook.add_order_new_bid (a2.set_node i fun n => { n with order_id := o.order_id, user_id := o.user_id, price := o.price, qty := q }) hdup hlev)]
        exact inv_rest_new_bid hinv hlev hdup hicap hiNL hnc2 hARlen hARcap hARget hARoid hfree2
      · rw [hs] at hlev hnc
        have hnc2 : ∀ x, e.book.best_bid = some x → x < o.price := by
          intro x hx
          have h2 := hnc x hx
          rw [prices_cross_Ask] at h2
          have h3 := of_decide_eq_false h2
          omega
        rw [congrArg Prod.fst (OrderBook.add_order_new_ask (a2.set_node i fun n => { n with order_id := o.order_id, user_id := o.user_id, price := o.price, qty := q }) hdup hlev)]
        exact inv_rest_new_ask hinv hlev hdup hicap hiNL hnc2 hARlen hARcap hARget hARoid hfree2

theorem process_place_inv {e : MatchingEngine} (hinv : EngineInv e) (o : PlaceOrder) :
    EngineInv (e.process_place o).1 := by
  rw [MatchingEngine.process_place]
  by_cases h0 : o.qty = 0
  · rw [if_pos h0]
    exact hinv
  · rw [if_neg h0]
    by_cases h1 : e.book.contains_order o.order_id = true
    · rw [if_pos h1]
      exact hinv
    · rw [if_neg h1]
      by_cases h2 : o.order_type = OrderType.FOK ∧ e.crossable_qty o < o.qty
      · rw [if_pos h2]
        exact hinv
      · rw [if_neg h2]
        dsimp only
        have hco := cross_phase_outcome e o hinv
        by_cases h3 : (e.cross_phase o).2.1 > 0
        · rw [if_pos h3]
          have hdup2 : o.order_id ∉ keysA (e.cross_phase o).1.book.order_map := by
            intro hm
            have h4 := hco.omap_sub o.order_id hm
            exact h1 ((containsA_eq_true_iff _ _).2 h4)
          cases hot : o.order_type
          · dsimp only
            cases hro : (e.cross_phase o).1.rest_order o (e.cross_phase o).2.1 with
            | some pr =>
              obtain ⟨e3, evs3⟩ := pr
              dsimp only
              exact rest_inv hco.inv (hco.no_cross_left h3) hdup2 hro
            | none =>
              dsimp only
              exact hco.inv
          · dsimp only
            exact hco.inv
          · dsimp only
            cases hro : (e.cross_phase o).1.rest_order o (e.cross_phase o).2.1 with
            | some pr =>
              obtain ⟨e3, evs3⟩ := pr
              dsimp only
              exact rest_inv hco.inv (hco.no_cross_left h3) hdup2 hro
            | none =>
              dsimp only
              exact hco.inv
        · rw [if_neg h3]
          exact hco.inv

theorem OrderBook.get_level_omap_set (b : OrderBook) (m2 : List (Nat × OrderInfo)) (s : Side)
    (p : Nat) :
    ({ b with order_map := m2 } : OrderBook).get_level s p = b.get_level s p := by
  cases s <;> rfl

theorem OrderBook.sideOf_omap_set (b : OrderBook) (m2 : List (Nat × OrderInfo)) (s : Side) :
    ({ b with order_map := m2 } : OrderBook).sideOf s = b.sideOf s := by
  cases s <;> rfl

theorem inv_cancel_keep {e : MatchingEngine} {cid : Nat} {info : OrderInfo} {Lc : PriceLevel}
    (hinv : EngineInv e)
    (hlk : lookupA e.book.order_map cid = some info)
    (hLc : e.book.get_level info.side info.price = some Lc)
    (hmemc : info.arena_index ∈ Lc.orders)
    (hkeep : Lc.count - 1 ≠ 0) :
    EngineInv (MatchingEngine.mk (e.arena.free info.arena_index)
      (({ e.book with order_map := eraseA e.book.order_map cid } : OrderBook).set_level
        info.side info.price
        { orders := Lc.orders.erase info.arena_index,
          total_qty := Lc.total_qty - (e.arena.get info.arena_index).qty,
          count := Lc.count - 1 })) := by
  obtain ⟨hicap, hoid0, Lw0, hLw0, hmw0⟩ := hinv.omap_wf cid info hlk
  have hwf := hinv.level_wf hLc
  have hilen : info.arena_index < e.arena.nodes.length := by
    rw [hinv.nodes_len]
    exact hicap
  have hinull : info.arena_index ≠ NULL_INDEX := by
    intro h0
    rw [h0] at hicap
    exact absurd (lt_trans hicap hinv.cap_lt) (lt_irrefl _)
  obtain ⟨hfh, hallocd, hcapd, hlend, hgetne, hgeti⟩ :=
    Arena.free_spec e.arena info.arena_index hilen
  set L1 : PriceLevel := { orders := Lc.orders.erase info.arena_index, total_qty := Lc.total_qty - (e.arena.get info.arena_index).qty, count := Lc.count - 1 } with hL1
  set BE : OrderBook := { e.book with order_map := eraseA e.book.order_map cid } with hBE
  set B1 : OrderBook := BE.set_level info.side info.price L1 with hB1
  have hpk : info.price ∈ keysA (BE.sideOf info.side) := by
    rw [hBE, OrderBook.sideOf_omap_set]
    exact mem_keys_of_lookupA hLc
  have hlev : ∀ s3 p3, B1.get_level s3 p3
      = if s3 = info.side ∧ p3 = info.price then some L1 else e.book.get_level s3 p3 := by
    intro s3 p3
    by_cases hsame : s3 = info.side ∧ p3 = info.price
    · rw [if_pos hsame, hsame.1, hsame.2, hB1]
      exact OrderBook.get_level_set_level_self _ _ _ _ hpk
    · rw [if_neg hsame, hB1]
      by_cases hs : s3 = info.side
      · have hp3 : p3 ≠ info.price := fun hp => hsame ⟨hs, hp⟩
        rw [hs, OrderBook.get_level_set_level_ne _ _ _ _ _ hp3, hBE,
          OrderBook.get_level_omap_set]
      · rw [OrderBook.get_level_set_level_other _ _ _ _ _ _ hs, hBE,
          OrderBook.get_level_omap_set]
  have homap : B1.order_map = eraseA e.book.order_map cid := by
    rw [hB1, OrderBook.set_level_order_map, hBE]
  have hirest : info.arena_index ∉ Lc.orders.erase info.arena_index := by
    intro hmem
    exact absurd ((hwf.nodup.mem_erase_iff).1 hmem).1 (by simp)
  have hmemL1 : ∀ j ∈ L1.orders, j ∈ Lc.orders ∧ j ≠ info.arena_index := by
    intro j hj
    have hj2 := (hwf.nodup.mem_erase_iff).1 hj
    exact ⟨hj2.2, hj2.1⟩
  have hmem_other : ∀ s3 p3 l3, ¬ (s3 = info.side ∧ p3 = info.price) →
      e.book.get_level s3 p3 = some l3 → ∀ j ∈ l3.orders, j ≠ info.arena_index := by
    intro s3 p3 l3 hne3 h3 j hj hji
    subst hji
    exact hinv.mem_disjoint h3 hLc (fun hx => hne3 hx) hj hmemc
  have hkeys : ∀ s3, keysA (B1.sideOf s3) = keysA (e.book.sideOf s3) := by
    intro s3
    rw [hB1]
    by_cases hs : s3 = info.side
    · rw [hs, OrderBook.sideOf_set_level_same, keysA_updateA, hBE, OrderBook.sideOf_omap_set]
    · rw [OrderBook.sideOf_set_level_other _ _ _ _ _ hs, hBE, OrderBook.sideOf_omap_set]
  have hbb : B1.best_bid = e.book.best_bid := by
    rw [hB1, OrderBook.set_level_best_bid, hBE]
  have hba : B1.best_ask = e.book.best_ask := by
    rw [hB1, OrderBook.set_level_best_ask, hBE]
  refine { cap_lt := ?_, nodes_len := ?_, bids_nodup := ?_, asks_nodup := ?_,
           levels_wf := ?_, best_bid_eq := ?_, best_ask_eq := ?_, not_crossed := ?_,
           live_uniq := ?_, omap_nodup := ?_, omap_wf := ?_, free_ok := ?_ }
  · show (e.arena.free info.arena_index).capacity < NULL_INDEX
    rw [hcapd]
    exact hinv.cap_lt
  · show (e.arena.free info.arena_index).nodes.length
      = (e.arena.free info.arena_index).capacity
    rw [hlend, hcapd]
    exact hinv.nodes_len
  · show (keysA (B1.sideOf Side.Bid)).Nodup
    rw [hkeys]
    exact hinv.bids_nodup
  · show (keysA (B1.sideOf Side.Ask)).Nodup
    rw [hkeys]
    exact hinv.asks_nodup
  · intro s2 p2 L2 hL2
    show LevelWF (e.arena.free info.arena_index) L2
    rw [show (MatchingEngine.mk (e.arena.free info.arena_index) B1).book.get_level s2 p2
      = B1.get_level s2 p2 from rfl, hlev] at hL2
    by_cases hsame : s2 = info.side ∧ p2 = info.price
    · rw [if_pos hsame] at hL2
      cases hL2
      refine { ne := ?_, nodup := hwf.nodup.erase _, count_eq := ?_, total_eq := ?_,
               bounded := ?_ }
      · show Lc.orders.erase info.arena_index ≠ []
        intro h0
        have hle := List.length_erase_of_mem hmemc
        rw [h0] at hle
        simp at hle
        have hce := hwf.count_eq
        omega
      · show Lc.count - 1 = (Lc.orders.erase info.arena_index).length
        rw [List.length_erase_of_mem hmemc, hwf.count_eq]
      · show Lc.total_qty - (e.arena.get info.arena_index).qty
          = (((Lc.orders.erase info.arena_index).map
              fun j => ((e.arena.free info.arena_index).get j).qty)).sum
        have hmap : ((Lc.orders.erase info.arena_index).map
            fun j => ((e.arena.free info.arena_index).get j).qty)
            = (Lc.orders.erase info.arena_index).map fun j => (e.arena.get j).qty := by
          refine List.map_congr_left fun j hj => ?_
          rw [hgetne j (hmemL1 j hj).2]
        rw [hmap]
        have hperm := (List.perm_cons_erase hmemc).map fun j => (e.arena.get j).qty
        have hsum := hperm.sum_eq
        rw [List.map_cons, List.sum_cons] at hsum
        have htot := hwf.total_eq
        omega
      · intro j hj
        have hb := hwf.bounded j (hmemL1 j hj).1
        rw [show ((e.arena.free info.arena_index).capacity) = e.arena.capacity from hcapd]
        exact hb
    · rw [if_neg hsame] at hL2
      have hwf2 := hinv.level_wf hL2
      refine { ne := hwf2.ne, nodup := hwf2.nodup, count_eq := hwf2.count_eq,
               total_eq := ?_, bounded := ?_ }
      · rw [hwf2.total_eq]
        refine congrArg _ (List.map_congr_left fun j hj => ?_)
        exact (congrArg OrderNode.qty (hgetne j (hmem_other s2 p2 L2 hsame hL2 j hj))).symm
      · intro j hj
        rw [show ((e.arena.free info.arena_index).capacity) = e.arena.capacity from hcapd]
        exact hwf2.bounded j hj
  · show B1.best_bid = keyMax (keysA (B1.sideOf Side.Bid))
    rw [hbb, hkeys]
    exact hinv.best_bid_eq
  · show B1.best_ask = keyMin (keysA (B1.sideOf Side.Ask))
    rw [hba, hkeys]
    exact hinv.best_ask_eq
  · intro x y hx hy
    rw [show (MatchingEngine.mk (e.arena.free info.arena_index) B1).book.best_bid
      = B1.best_bid from rfl, hbb] at hx
    rw [show (MatchingEngine.mk (e.arena.free info.arena_index) B1).book.best_ask
      = B1.best_ask from rfl, hba] at hy
    exact hinv.not_crossed x y hx hy
  · intro s1 p1 l1 s2 p2 l2 j h1 h2 hj1 hj2
    rw [show (MatchingEngine.mk (e.arena.free info.arena_index) B1).book.get_level s1 p1
      = B1.get_level s1 p1 from rfl, hlev] at h1
    rw [show (MatchingEngine.mk (e.arena.free info.arena_index) B1).book.get_level s2 p2
      = B1.get_level s2 p2 from rfl, hlev] at h2
    by_cases hs1 : s1 = info.side ∧ p1 = info.price
    · rw [if_pos hs1] at h1
      cases h1
      by_cases hs2 : s2 = info.side ∧ p2 = info.price
      · exact ⟨hs1.1.trans hs2.1.symm, hs1.2.trans hs2.2.symm⟩
      · rw [if_neg hs2] at h2
        have hjL : j ∈ Lc.orders := (hmemL1 j hj1).1
        exact absurd (hinv.live_uniq s2 p2 l2 info.side info.price Lc j h2 hLc hj2 hjL) hs2
    · rw [if_neg hs1] at h1
      by_cases hs2 : s2 = info.side ∧ p2 = info.price
      · rw [if_pos hs2] at h2
        cases h2
        have hjL : j ∈ Lc.orders := (hmemL1 j hj2).1
        exact absurd (hinv.live_uniq s1 p1 l1 info.side info.price Lc j h1 hLc hj1 hjL) hs1
      · rw [if_neg hs2] at h2
        exact hinv.live_uniq s1 p1 l1 s2 p2 l2 j h1 h2 hj1 hj2
  · show (keysA B1.order_map).Nodup
    rw [homap, keysA_eraseA]
    exact hinv.omap_nodup.erase cid
  · intro id info2 hlk2
    rw [show (MatchingEngine.mk (e.arena.free info.arena_index) B1).book.order_map
      = B1.order_map from rfl, homap] at hlk2
    have hid : id ≠ cid := by
      intro hid2
      subst hid2
      rw [lookupA_eraseA_self _ _ hinv.omap_nodup] at hlk2
      cases hlk2
    rw [lookupA_eraseA_ne _ cid id hid] at hlk2
    obtain ⟨hcap2, hoid, Lw, hLw, hmem⟩ := hinv.omap_wf id info2 hlk2
    have hii : info2.arena_index ≠ info.arena_index := by
      intro hii2
      rw [hii2] at hoid
      rw [hoid0] at hoid
      exact hid hoid.symm
    refine ⟨?_, ?_, ?_⟩
    · rw [show ((e.arena.free info.arena_index).capacity) = e.arena.capacity from hcapd]
      exact hcap2
    · rw [show (MatchingEngine.mk (e.arena.free info.arena_index) B1).arena
        = e.arena.free info.arena_index from rfl, hgetne _ hii]
      exact hoid
    · rw [show (MatchingEngine.mk (e.arena.free info.arena_index) B1).book.get_level
        info2.side info2.price = B1.get_level info2.side info2.price from rfl, hlev]
      by_cases hsame : info2.side = info.side ∧ info2.price = info.price
      · rw [if_pos hsame]
        refine ⟨L1, rfl, ?_⟩
        rw [hsame.1, hsame.2] at hLw
        rw [hLc] at hLw
        have hle : Lc = Lw := Option.some.inj hLw
        subst hle
        show info2.arena_index ∈ Lc.orders.erase info.arena_index
        exact (List.mem_erase_of_ne hii).2 hmem
      · rw [if_neg hsame]
        exact ⟨Lw, hLw, hmem⟩
  · obtain ⟨fl, hchain, hnd, hbound, hdisj⟩ := hinv.free_ok
    have hinotfl : info.arena_index ∉ fl := fun hmem =>
      hdisj info.arena_index hmem ⟨info.side, info.price, Lc, hLc, hmemc⟩
    refine ⟨info.arena_index :: fl, ?_, List.nodup_cons.2 ⟨hinotfl, hnd⟩, ?_, ?_⟩
    · exact FreeChain.after_free hchain hilen hinotfl hinull
    · intro j hj
      rw [show ((e.arena.free info.arena_index).capacity) = e.arena.capacity from hcapd]
      rcases List.mem_cons.1 hj with hx | hx
      · subst hx
        exact hicap
      · exact hbound j hx
    · intro j hj hlive
      obtain ⟨s3, p3, l3, h3, hm3⟩ := hlive
      rw [show (MatchingEngine.mk (e.arena.free info.arena_index) B1).book.get_level s3 p3
        = B1.get_level s3 p3 from rfl, hlev] at h3
      rcases List.mem_cons.1 hj with hx | hx
      · subst hx
        by_cases hsame : s3 = info.side ∧ p3 = info.price
        · rw [if_pos hsame] at h3
          have h3e : L1 = l3 := Option.some.inj h3
          subst h3e
          exact hirest hm3
        · rw [if_neg hsame] at h3
          exact hmem_other s3 p3 l3 hsame h3 info.arena_index hm3 rfl
      · by_cases hsame : s3 = info.side ∧ p3 = info.price
        · rw [if_pos hsame] at h3
          have h3e : L1 = l3 := Option.some.inj h3
          subst h3e
          exact hdisj j hx ⟨info.side, info.price, Lc, hLc, (hmemL1 j hm3).1⟩
        · rw [if_neg hsame] at h3
          exact hdisj j hx ⟨s3, p3, l3, h3, hm3⟩

theorem inv_cancel_drop {e : MatchingEngine} {cid : Nat} {info : OrderInfo} {Lc : PriceLevel}
    (hinv : EngineInv e)
    (hlk : lookupA e.book.order_map cid = some info)
    (hLc : e.book.get_level info.side info.price = some Lc)
    (hmemc : info.arena_index ∈ Lc.orders)
    (hdrop : Lc.count - 1 = 0) :
    EngineInv (MatchingEngine.mk (e.arena.free info.arena_index)
      ((({ e.book with order_map := eraseA e.book.order_map cid } : OrderBook).set_level
        info.side info.price
        { orders := Lc.orders.erase info.arena_index,
          total_qty := Lc.total_qty - (e.arena.get info.arena_index).qty,
          count := Lc.count - 1 }).remove_empty_level info.side info.price)) := by
  obtain ⟨hicap, hoid0, Lw0, hLw0, hmw0⟩ := hinv.omap_wf cid info hlk
  have hwf := hinv.level_wf hLc
  have ho : Lc.orders = [info.arena_index] := by
    have hce := hwf.count_eq
    have hne0 : Lc.orders.length ≠ 0 := fun h0 => hwf.ne (List.length_eq_zero.1 h0)
    have hlen1 : Lc.orders.length = 1 := by omega
    obtain ⟨a, ha⟩ := List.length_eq_one.1 hlen1
    rw [ha] at hmemc
    have ha2 : info.arena_index = a := by simpa using hmemc
    rw [ha, ha2]
  have hilen : info.arena_index < e.arena.nodes.length := by
    rw [hinv.nodes_len]
    exact hicap
  have hinull : info.arena_index ≠ NULL_INDEX := by
    intro h0
    rw [h0] at hicap
    exact absurd (lt_trans hicap hinv.cap_lt) (lt_irrefl _)
  obtain ⟨hfh, hallocd, hcapd, hlend, hgetne, hgeti⟩ :=
    Arena.free_spec e.arena info.arena_index hilen
  set L1 : PriceLevel := { orders := Lc.orders.erase info.arena_index, total_qty := Lc.total_qty - (e.arena.get info.arena_index).qty, count := Lc.count - 1 } with hL1
  set BE : OrderBook := { e.book with order_map := eraseA e.book.order_map cid } with hBE
  set B1 : OrderBook := BE.set_level info.side info.price L1 with hB1
  set B2 : OrderBook := B1.remove_empty_level info.side info.price with hB2
  have hnodup_ms : (keysA (e.book.sideOf info.side)).Nodup := by
    cases hs : info.side
    · exact hinv.bids_nodup
    · exact hinv.asks_nodup
  have hpk : info.price ∈ keysA (BE.sideOf info.side) := by
    rw [hBE, OrderBook.sideOf_omap_set]
    exact mem_keys_of_lookupA hLc
  have hkeys1 : ∀ s3, keysA (B1.sideOf s3) = keysA (e.book.sideOf s3) := by
    intro s3
    rw [hB1]
    by_cases hs : s3 = info.side
    · rw [hs, OrderBook.sideOf_set_level_same, keysA_updateA, hBE, OrderBook.sideOf_omap_set]
    · rw [OrderBook.sideOf_set_level_other _ _ _ _ _ hs, hBE, OrderBook.sideOf_omap_set]
  have hside2 : B2.sideOf info.side = eraseA (e.book.sideOf info.side) info.price := by
    rw [hB2, OrderBook.sideOf_remove_empty_same, hB1, OrderBook.sideOf_set_level_same,
      hBE, OrderBook.sideOf_omap_set]
    exact eraseA_updateA _ _ _ hnodup_ms
  have hside2o : ∀ s3, s3 ≠ info.side → B2.sideOf s3 = e.book.sideOf s3 := by
    intro s3 hs
    rw [hB2, OrderBook.sideOf_remove_empty_other _ _ _ _ hs, hB1,
      OrderBook.sideOf_set_level_other _ _ _ _ _ hs, hBE, OrderBook.sideOf_omap_set]
  have hlev : ∀ s3 p3, B2.get_level s3 p3
      = if s3 = info.side ∧ p3 = info.price then none else e.book.get_level s3 p3 := by
    intro s3 p3
    by_cases hsame : s3 = info.side ∧ p3 = info.price
    · rw [if_pos hsame, OrderBook.get_level_eq_lookup, hsame.1, hsame.2, hside2]
      rw [lookupA_eraseA_self _ _ hnodup_ms]
    · rw [if_neg hsame]
      by_cases hs : s3 = info.side
      · have hp3 : p3 ≠ info.price := fun hp => hsame ⟨hs, hp⟩
        rw [OrderBook.get_level_eq_lookup, hs, hside2, lookupA_eraseA_ne _ _ _ hp3]
        rfl
      · rw [OrderBook.get_level_eq_lookup, hside2o s3 hs]
        rfl
  have homap : B2.order_map = eraseA e.book.order_map cid := by
    rw [hB2, OrderBook.remove_empty_level_order_map, hB1, OrderBook.set_level_order_map, hBE]
  have hbb1 : B1.best_bid = keyMax (keysA B1.bids) := by
    rw [show B1.best_bid = e.book.best_bid from by
        rw [hB1, OrderBook.set_level_best_bid, hBE],
      show B1.bids = B1.sideOf Side.Bid from rfl, hkeys1]
    exact hinv.best_bid_eq
  have hba1 : B1.best_ask = keyMin (keysA B1.asks) := by
    rw [show B1.best_ask = e.book.best_ask from by
        rw [hB1, OrderBook.set_level_best_ask, hBE],
      show B1.asks = B1.sideOf Side.Ask from rfl, hkeys1]
    exact hinv.best_ask_eq
  have hnc1 : ∀ x y, B1.best_bid = some x → B1.best_ask = some y → x < y := by
    intro x y hx hy
    rw [show B1.best_bid = e.book.best_bid from by
      rw [hB1, OrderBook.set_level_best_bid, hBE]] at hx
    rw [show B1.best_ask = e.book.best_ask from by
      rw [hB1, OrderBook.set_level_best_ask, hBE]] at hy
    exact hinv.not_crossed x y hx hy
  have hmem_other : ∀ s3 p3 l3, ¬ (s3 = info.side ∧ p3 = info.price) →
      e.book.get_level s3 p3 = some l3 → ∀ j ∈ l3.orders, j ≠ info.arena_index := by
    intro s3 p3 l3 hne3 h3 j hj hji
    subst hji
    exact hinv.mem_disjoint h3 hLc (fun hx => hne3 hx) hj hmemc
  refine { cap_lt := ?_, nodes_len := ?_, bids_nodup := ?_, asks_nodup := ?_,
           levels_wf := ?_, best_bid_eq := ?_, best_ask_eq := ?_, not_crossed := ?_,
           live_uniq := ?_, omap_nodup := ?_, omap_wf := ?_, free_ok := ?_ }
  · show (e.arena.free info.arena_index).capacity < NULL_INDEX
    rw [hcapd]
    exact hinv.cap_lt
  · show (e.arena.free info.arena_index).nodes.length
      = (e.arena.free info.arena_index).capacity
    rw [hlend, hcapd]
    exact hinv.nodes_len
  · show (keysA (B2.sideOf Side.Bid)).Nodup
    by_cases hs : Side.Bid = info.side
    · rw [hs, hside2, keysA_eraseA]
      exact hnodup_ms.erase info.price
    · rw [hside2o _ hs]
      exact hinv.bids_nodup
  · show (keysA (B2.sideOf Side.Ask)).Nodup
    by_cases hs : Side.Ask = info.side
    · rw [hs, hside2, keysA_eraseA]
      exact hnodup_ms.erase info.price
    · rw [hside2o _ hs]
      exact hinv.asks_nodup
  · intro s2 p2 L2 hL2
    show LevelWF (e.arena.free info.arena_index) L2
    rw [show (MatchingEngine.mk (e.arena.free info.arena_index) B2).book.get_level s2 p2
      = B2.get_level s2 p2 from rfl, hlev] at hL2
    by_cases hsame : s2 = info.side ∧ p2 = info.price
    · rw [if_pos hsame] at hL2
      cases hL2
    · rw [if_neg hsame] at hL2
      have hwf2 := hinv.level_wf hL2
      refine { ne := hwf2.ne, nodup := hwf2.nodup, count_eq := hwf2.count_eq,
               total_eq := ?_, bounded := ?_ }
      · rw [hwf2.total_eq]
        refine congrArg _ (List.map_congr_left fun j hj => ?_)
        exact (congrArg OrderNode.qty (hgetne j (hmem_other s2 p2 L2 hsame hL2 j hj))).symm
      · intro j hj
        rw [show ((e.arena.free info.arena_index).capacity) = e.arena.capacity from hcapd]
        exact hwf2.bounded j hj
  · show B2.best_bid = keyMax (keysA (B2.sideOf Side.Bid))
    exact (OrderBook.remove_empty_level_caches B1 info.side info.price hbb1 hba1).1
  · show B2.best_ask = keyMin (keysA (B2.sideOf Side.Ask))
    exact (OrderBook.remove_empty_level_caches B1 info.side info.price hbb1 hba1).2
  · intro x y hx hy
    exact OrderBook.remove_empty_level_not_crossed B1 info.side info.price hbb1 hba1 hnc1 x y hx hy
  · intro s1 p1 l1 s2 p2 l2 j h1 h2 hj1 hj2
    rw [show (MatchingEngine.mk (e.arena.free info.arena_index) B2).book.get_level s1 p1
      = B2.get_level s1 p1 from rfl, hlev] at h1
    rw [show (MatchingEngine.mk (e.arena.free info.arena_index) B2).book.get_level s2 p2
      = B2.get_level s2 p2 from rfl, hlev] at h2
    by_cases hs1 : s1 = info.side ∧ p1 = info.price
    · rw [if_pos hs1] at h1
      cases h1
    · rw [if_neg hs1] at h1
      by_cases hs2 : s2 = info.side ∧ p2 = info.price
      · rw [if_pos hs2] at h2
        cases h2
      · rw [if_neg hs2] at h2
        exact hinv.live_uniq s1 p1 l1 s2 p2 l2 j h1 h2 hj1 hj2
  · show (keysA B2.order_map).Nodup
    rw [homap, keysA_eraseA]
    exact hinv.omap_nodup.erase cid
  · intro id info2 hlk2
    rw [show (MatchingEngine.mk (e.arena.free info.arena_index) B2).book.order_map
      = B2.order_map from rfl, homap] at hlk2
    have hid : id ≠ cid := by
      intro hid2
      subst hid2
      rw [lookupA_eraseA_self _ _ hinv.omap_nodup] at hlk2
      cases hlk2
    rw [lookupA_eraseA_ne _ cid id hid] at hlk2
    obtain ⟨hcap2, hoid, Lw, hLw, hmem⟩ := hinv.omap_wf id info2 hlk2
    have hii : info2.arena_index ≠ info.arena_index := by
      intro hii2
      rw [hii2] at hoid
      rw [hoid0] at hoid
      exact hid hoid.symm
    have hsame : ¬ (info2.side = info.side ∧ info2.price = info.price) := by
      intro hx
      rw [hx.1, hx.2] at hLw
      rw [hLc] at hLw
      have hle : Lc = Lw := Option.some.inj hLw
      subst hle
      rw [ho] at hmem
      rcases List.mem_cons.1 hmem with hy | hy
      · exact hii hy
      · simp at hy
    refine ⟨?_, ?_, ?_⟩
    · rw [show ((e.arena.free info.arena_index).capacity) = e.arena.capacity from hcapd]
      exact hcap2
    · rw [show (MatchingEngine.mk (e.arena.free info.arena_index) B2).arena
        = e.arena.free info.arena_index from rfl, hgetne _ hii]
      exact hoid
    · rw [show (MatchingEngine.mk (e.arena.free info.arena_index) B2).book.get_level
        info2.side info2.price = B2.get_level info2.side info2.price from rfl, hlev,
        if_neg hsame]
      exact ⟨Lw, hLw, hmem⟩
  · obtain ⟨fl, hchain, hnd, hbound, hdisj⟩ := hinv.free_ok
    have hinotfl : info.arena_index ∉ fl := fun hmem =>
      hdisj info.arena_index hmem ⟨info.side, info.price, Lc, hLc, hmemc⟩
    refine ⟨info.arena_index :: fl, ?_, List.nodup_cons.2 ⟨hinotfl, hnd⟩, ?_, ?_⟩
    · exact FreeChain.after_free hchain hilen hinotfl hinull
    · intro j hj
      rw [show ((e.arena.free info.arena_index).capacity) = e.arena.capacity from hcapd]
      rcases List.mem_cons.1 hj with hx | hx
      · subst hx
        exact hicap
      · exact hbound j hx
    · intro j hj hlive
      obtain ⟨s3, p3, l3, h3, hm3⟩ := hlive
      rw [show (MatchingEngine.mk (e.arena.free info.arena_index) B2).book.get_level s3 p3
        = B2.get_level s3 p3 from rfl, hlev] at h3
      by_cases hsame : s3 = info.side ∧ p3 = info.price
      · rw [if_pos hsame] at h3
        cases h3
      · rw [if_neg hsame] at h3
        rcases List.mem_cons.1 hj with hx | hx
        · subst hx
          exact hmem_other s3 p3 l3 hsame h3 info.arena_index hm3 rfl
        · exact hdisj j hx ⟨s3, p3, l3, h3, hm3⟩

theorem process_cancel_inv {e : MatchingEngine} (hinv : EngineInv e) (c : CancelOrder) :
    EngineInv (e.process_cancel c).1 := by
  rw [MatchingEngine.process_cancel]
  cases hlk : e.book.get_order c.order_id with
  | none =>
    exact hinv
  | some info =>
    dsimp only
    obtain ⟨hicap, hoid0, Lc, hLc, hmemc⟩ := hinv.omap_wf c.order_id info hlk
    have hrem : (e.book.remove_order e.arena c.order_id).1
        = if Lc.count - 1 = 0 then
            ((({ e.book with order_map := eraseA e.book.order_map c.order_id } : OrderBook
              ).set_level info.side info.price
              { orders := Lc.orders.erase info.arena_index,
                total_qty := Lc.total_qty - (e.arena.get info.arena_index).qty,
                count := Lc.count - 1 }).remove_empty_level info.side info.price)
          else (({ e.book with order_map := eraseA e.book.order_map c.order_id } : OrderBook
              ).set_level info.side info.price
              { orders := Lc.orders.erase info.arena_index,
                total_qty := Lc.total_qty - (e.arena.get info.arena_index).qty,
                count := Lc.count - 1 }) := by
      rw [OrderBook.remove_order,
        show lookupA e.book.order_map c.order_id = some info from hlk]
      dsimp only
      rw [show ({ e.book with order_map := eraseA e.book.order_map c.order_id } : OrderBook
        ).get_level info.side info.price = some Lc from by
        rw [OrderBook.get_level_omap_set]; exact hLc]
      dsimp only [PriceLevel.remove]
      by_cases hdrop : Lc.count - 1 = 0
      · rw [if_pos (show ((Lc.count - 1 == 0) = true) from by simp [hdrop]), if_pos hdrop]
      · rw [if_neg (show ¬ ((Lc.count - 1 == 0) = true) from by simp [hdrop]), if_neg hdrop]
    rw [hrem]
    by_cases hdrop : Lc.count - 1 = 0
    · rw [if_pos hdrop]
      exact inv_cancel_drop hinv hlk hLc hmemc hdrop
    · rw [if_neg hdrop]
      exact inv_cancel_keep hinv hlk hLc hmemc hdrop

theorem Arena.init_get (c j : Nat) (hj : j < c) :
    (Arena.init c).get j
      = { OrderNode.empty with next := if j + 1 = c then NULL_INDEX else j + 1 } := by
  show ((List.range c).map fun i =>
    { OrderNode.empty with next := if i + 1 = c then NULL_INDEX else i + 1 }).getD j
      OrderNode.empty = _
  rw [List.getD_eq_getElem _ _ (by simpa using hj)]
  simp

theorem Arena.init_chain (c : Nat) (hc : c < NULL_INDEX) :
    ∀ n k, k + n = c →
      FreeChain (Arena.init c) (if n = 0 then NULL_INDEX else k) (List.range' k n) := by
  intro n
  induction n with
  | zero =>
    intro k hk
    exact FreeChain.nil
  | succ n ih =>
    intro k hk
    rw [if_neg (Nat.succ_ne_zero n), List.range'_succ]
    refine FreeChain.cons ?_ ?_
    · have hkc : k < c := by omega
      intro h0
      rw [h0] at hkc
      exact absurd (lt_trans hkc hc) (lt_irrefl _)
    · rw [show ((Arena.init c).get k).next = if k + 1 = c then NULL_INDEX else k + 1 from by
        rw [Arena.init_get c k (by omega)]]
      by_cases hn : n = 0
      · subst hn
        rw [if_pos (by omega)]
        have h2 := ih (k + 1) (by omega)
        rw [if_pos rfl] at h2
        exact h2
      · rw [if_neg (by omega)]
        have h2 := ih (k + 1) (by omega)
        rw [if_neg hn] at h2
        exact h2

theorem inv_new {c : Nat} (hc : c < NULL_INDEX) : EngineInv (MatchingEngine.new c) := by
  refine { cap_lt := hc, nodes_len := ?_, bids_nodup := ?_, asks_nodup := ?_,
           levels_wf := ?_, best_bid_eq := rfl, best_ask_eq := rfl, not_crossed := ?_,
           live_uniq := ?_, omap_nodup := ?_, omap_wf := ?_, free_ok := ?_ }
  · simp [MatchingEngine.new, Arena.init]
  · exact List.nodup_nil
  · exact List.nodup_nil
  · intro s p L h
    cases s <;> exact Option.noConfusion h
  · intro x y hx
    exact Option.noConfusion hx
  · intro s1 p1 l1 s2 p2 l2 j h1
    cases s1 <;> exact Option.noConfusion h1
  · exact List.nodup_nil
  · intro id info h
    exact Option.noConfusion h
  · refine ⟨List.range c, ?_, List.nodup_range c, ?_, ?_⟩
    · cases hc0 : c with
      | zero => exact FreeChain.nil
      | succ c2 =>
        rw [hc0] at hc
        have h2 := Arena.init_chain (c2 + 1) hc (c2 + 1) 0 (by omega)
        rw [if_neg (Nat.succ_ne_zero c2)] at h2
        rw [show (MatchingEngine.new (c2 + 1)).arena.free_head = 0 from by
          show (if 0 < c2 + 1 then 0 else NULL_INDEX) = 0
          rw [if_pos (Nat.succ_pos c2)]]
        rw [List.range_eq_range']
        exact h2
    · intro j hj
      exact List.mem_range.1 hj
    · intro j hj hlive
      obtain ⟨s3, p3, l3, h3, hm3⟩ := hlive
      cases s3 <;> exact Option.noConfusion h3

theorem process_command_inv {g : Engine} (hinv : EngineInv g.matcher) (cmd : Command) :
    EngineInv ((g.process_command cmd).1).matcher := by
  cases cmd with
  | Place o => exact process_place_inv hinv o
  | Cancel c => exact process_cancel_inv hinv c
  | Modify m =>
    rw [Engine.process_command]
    dsimp only
    by_cases hcs : (g.matcher.process_cancel { order_id := m.order_id }).2.any
        OutputEvent.isCanceled = true
    · rw [if_pos hcs]
      cases ho : g.matcher.book.get_order m.order_id with
      | some info =>
        dsimp only
        exact process_place_inv (process_cancel_inv hinv _) _
      | none =>
        dsimp only
        exact process_cancel_inv hinv _
    · rw [if_neg hcs]
      exact process_cancel_inv hinv _

theorem run_all_inv {g : Engine} (hinv : EngineInv g.matcher) (cmds : List Command) :
    EngineInv ((g.run_all cmds).matcher) := by
  induction cmds generalizing g with
  | nil => exact hinv
  | cons cmd rest ih =>
    rw [Engine.run_all]
    exact ih (process_command_inv hinv cmd)

theorem crossable_fold_eq (o : PlaceOrder) (ar : Arena) :
    ∀ (m : List (Nat × PriceLevel)),
      (∀ en ∈ m, en.2.total_qty = ((en.2.orders.map (makerOf ar)).map Maker.qty).sum) →
      m.foldr (fun pl acc =>
        if prices_cross o.price pl.1 o.side then acc + pl.2.total_qty else acc) 0
      = spec_crossable o (m.map fun pl => (pl.1, pl.2.orders.map (makerOf ar))) := by
  intro m
  induction m with
  | nil => intro h; rfl
  | cons en rest ih =>
    intro h
    rw [List.foldr_cons, List.map_cons, spec_crossable, List.foldr_cons]
    have hrest := ih fun en2 hen2 => h en2 (List.mem_cons_of_mem en hen2)
    rw [spec_crossable] at hrest
    by_cases hc : prices_cross o.price en.1 o.side = true
    · rw [if_pos hc]
      rw [show prices_cross o.price (en.1, en.2.orders.map (makerOf ar)).1 o.side = true
        from hc]
      rw [if_pos rfl]
      rw [hrest, h en (List.mem_cons_self en rest)]
    · rw [if_neg hc]
      rw [show prices_cross o.price (en.1, en.2.orders.map (makerOf ar)).1 o.side
        = prices_cross o.price en.1 o.side from rfl]
      rw [if_neg hc]
      exact hrest

theorem crossable_eq_spec {e : MatchingEngine} (hinv : EngineInv e) (o : PlaceOrder) :
    e.crossable_qty o = spec_crossable o (e.book_view o.side.opposite) := by
  rw [MatchingEngine.crossable_qty, book_view_eq]
  refine crossable_fold_eq o e.arena (e.book.sideOf o.side.opposite) ?_
  intro en hen
  have hnodup : (keysA (e.book.sideOf o.side.opposite)).Nodup := by
    cases hs : o.side.opposite
    · exact hinv.bids_nodup
    · exact hinv.asks_nodup
  have hlev : e.book.get_level o.side.opposite en.1 = some en.2 := by
    rw [OrderBook.get_level_eq_lookup]
    obtain ⟨k, v⟩ := en
    exact lookupA_of_mem hnodup hen
  have hwf := hinv.level_wf hlev
  rw [hwf.total_eq, List.map_map]
  refine congrArg _ (List.map_congr_left fun j hj => ?_)
  rfl

theorem eraseA_cons_self {β : Type} (k : Nat) (v : β) (m : List (Nat × β)) :
    eraseA ((k, v) :: m) k = m := by
  rw [eraseA]
  dsimp only
  rw [if_pos rfl]

theorem rest_order_step {e : MatchingEngine} {o : PlaceOrder} {q : Nat} {i : Nat} {a2 : Arena}
    (halloc : e.arena.alloc = some (i, a2)) :
    MatchingEngine.rest_order e o q = some
      (MatchingEngine.mk
        (a2.set_node i fun n => { n with order_id := o.order_id, user_id := o.user_id, price := o.price, qty := q })
        ((e.book.add_order (a2.set_node i fun n => { n with order_id := o.order_id, user_id := o.user_id, price := o.price, qty := q }) o.order_id o.user_id o.side o.price i).1),
       [.Accepted { order_id := o.order_id, price := o.price, qty := q, side := o.side },
        .BookDelta { side := o.side, price := o.price, new_qty := (((e.book.add_order (a2.set_node i fun n => { n with order_id := o.order_id, user_id := o.user_id, price := o.price, qty := q }) o.order_id o.user_id o.side o.price i).1.get_level o.side o.price).getD PriceLevel.new).total_qty, new_count := (((e.book.add_order (a2.set_node i fun n => { n with order_id := o.order_id, user_id := o.user_id, price := o.price, qty := q }) o.order_id o.user_id o.side o.price i).1.get_level o.side o.price).getD PriceLevel.new).count }]) := by
  rw [MatchingEngine.rest_order, halloc]

theorem process_place_rest_no_cross {e : MatchingEngine} {o : PlaceOrder}
    (hlim : o.order_type = OrderType.Limit) (hq : o.qty ≠ 0)
    (hdup : e.book.contains_order o.order_id = false)
    (hcross : e.cross_phase o = (e, o.qty, [])) :
    e.process_place o = match e.rest_order o o.qty with
      | some pr => pr
      | none => (e, [.Rejected { order_id := o.order_id, reason := .ArenaFull }]) := by
  rw [MatchingEngine.process_place, if_neg hq,
    if_neg (show ¬ (e.book.contains_order o.order_id = true) from by rw [hdup]; simp),
    if_neg (show ¬ (o.order_type = OrderType.FOK ∧ e.crossable_qty o < o.qty) from by
      intro hx
      rw [hlim] at hx
      cases hx.1)]
  dsimp only
  rw [hcross]
  dsimp only
  rw [if_pos (Nat.pos_of_ne_zero hq), hlim]
  dsimp only
  cases hro : e.rest_order o o.qty with
  | some pr =>
    obtain ⟨e3, evs3⟩ := pr
    rfl
  | none => rfl

theorem OrderBook.remove_order_book {b : OrderBook} (ar : Arena) {cid : Nat} {info : OrderInfo}
    {Lc : PriceLevel}
    (hlk : lookupA b.order_map cid = some info)
    (hLc : b.get_level info.side info.price = some Lc) :
    (b.remove_order ar cid).1
      = if Lc.count - 1 = 0 then
          ((({ b with order_map := eraseA b.order_map cid } : OrderBook
            ).set_level info.side info.price
            { orders := Lc.orders.erase info.arena_index, total_qty := Lc.total_qty - (ar.get info.arena_index).qty, count := Lc.count - 1 }).remove_empty_level info.side info.price)
        else (({ b with order_map := eraseA b.order_map cid } : OrderBook
            ).set_level info.side info.price
            { orders := Lc.orders.erase info.arena_index, total_qty := Lc.total_qty - (ar.get info.arena_index).qty, count := Lc.count - 1 }) := by
  rw [OrderBook.remove_order, hlk]
  dsimp only
  rw [show ({ b with order_map := eraseA b.order_map cid } : OrderBook
    ).get_level info.side info.price = some Lc from by
    rw [OrderBook.get_level_omap_set]; exact hLc]
  dsimp only [PriceLevel.remove]
  by_cases hdrop : Lc.count - 1 = 0
  · rw [if_pos (show ((Lc.count - 1 == 0) = true) from by simp [hdrop]), if_pos hdrop]
  · rw [if_neg (show ¬ ((Lc.count - 1 == 0) = true) from by simp [hdrop]), if_neg hdrop]

theorem process_cancel_step {e : MatchingEngine} {c : CancelOrder} {info : OrderInfo}
    (hlk : e.book.get_order c.order_id = some info) :
    e.process_cancel c = (MatchingEngine.mk (e.arena.free info.arena_index)
        ((e.book.remove_order e.arena c.order_id).1),
      [.Canceled { order_id := c.order_id, canceled_qty := (e.arena.get info.arena_index).qty },
       .BookDelta { side := info.side, price := info.price, new_qty := ((e.book.remove_order e.arena c.order_id).1.depth_at info.side info.price).1, new_count := ((e.book.remove_order e.arena c.order_id).1.depth_at info.side info.price).2 }]) := by
  rw [MatchingEngine.process_cancel, hlk]

theorem updateA_cons_self {β : Type} (k : Nat) (v v2 : β) (m : List (Nat × β))
    (hk : k ∉ keysA m) : updateA ((k, v) :: m) k v2 = (k, v2) :: m := by
  rw [updateA, List.map_cons]
  dsimp only
  rw [if_pos rfl]
  have h1 := updateA_id_of_not_mem m k v2 hk
  rw [updateA] at h1
  rw [h1]

theorem OrderBook.remove_empty_bid_value (b : OrderBook) (p : Nat) :
    (b.remove_empty_level .Bid p).best_bid
      = if b.best_bid = some p then keyMax (keysA (eraseA b.bids p)) else b.best_bid := by
  simp only [OrderBook.remove_empty_level]
  by_cases h : b.best_bid = some p
  · rw [if_pos h, if_pos (show ({ b with bids := eraseA b.bids p } : OrderBook).best_bid
      = some p from h)]
    rfl
  · rw [if_neg h, if_neg (show ¬ (({ b with bids := eraseA b.bids p } : OrderBook).best_bid
      = some p) from h)]

theorem OrderBook.remove_empty_ask_value (b : OrderBook) (p : Nat) :
    (b.remove_empty_level .Ask p).best_ask
      = if b.best_ask = some p then keyMin (keysA (eraseA b.asks p)) else b.best_ask := by
  simp only [OrderBook.remove_empty_level]
  by_cases h : b.best_ask = some p
  · rw [if_pos h, if_pos (show ({ b with asks := eraseA b.asks p } : OrderBook).best_ask
      = some p from h)]
    rfl
  · rw [if_neg h, if_neg (show ¬ (({ b with asks := eraseA b.asks p } : OrderBook).best_ask
      = some p) from h)]

theorem place_cancel_restore {e : MatchingEngine} {o : PlaceOrder}
    (hinv : EngineInv e) (hlim : o.order_type = OrderType.Limit) (hq : o.qty ≠ 0)
    (hdup : e.book.contains_order o.order_id = false)
    (hcross : e.cross_phase o = (e, o.qty, []))
    (hfree : e.arena.free_head ≠ NULL_INDEX) :
    OutputEvent.Accepted
        { order_id := o.order_id, price := o.price, qty := o.qty, side := o.side }
      ∈ (e.process_place o).2 ∧
    ((e.process_place o).1.process_cancel { order_id := o.order_id }).1.state_hash
      = e.state_hash := by
  have hdup2 : o.order_id ∉ keysA e.book.order_map := by
    intro hm
    rw [OrderBook.contains_order, (containsA_eq_true_iff _ _).2 hm] at hdup
    cases hdup
  obtain ⟨fl, hchain, hflnd, hflb, hfldisj⟩ := hinv.free_ok
  cases fl with
  | nil => exact absurd hchain.nil_inv hfree
  | cons i tl =>
    have hicap : i < e.arena.capacity := hflb i (List.mem_cons_self i tl)
    have hilen : i < e.arena.nodes.length := by
      rw [hinv.nodes_len]
      exact hicap
    have hiNL : ¬ e.book.Live i := hfldisj i (List.mem_cons_self i tl)
    obtain ⟨a2, halloc, ha2fh, ha2cnt, ha2cap, ha2len, ha2get, ha2geti, ha2chain⟩ :=
      Arena.alloc_spec hchain hflnd hilen
    have hplace : e.process_place o
        = (MatchingEngine.mk (a2.set_node i fun n => { n with order_id := o.order_id, user_id := o.user_id, price := o.price, qty := o.qty })
            ((e.book.add_order (a2.set_node i fun n => { n with order_id := o.order_id, user_id := o.user_id, price := o.price, qty := o.qty }) o.order_id o.user_id o.side o.price i).1),
           [.Accepted { order_id := o.order_id, price := o.price, qty := o.qty, side := o.side },
            .BookDelta { side := o.side, price := o.price, new_qty := (((e.book.add_order (a2.set_node i fun n => { n with order_id := o.order_id, user_id := o.user_id, price := o.price, qty := o.qty }) o.order_id o.user_id o.side o.price i).1.get_level o.side o.price).getD PriceLevel.new).total_qty, new_count := (((e.book.add_order (a2.set_node i fun n => { n with order_id := o.order_id, user_id := o.user_id, price := o.price, qty := o.qty }) o.order_id o.user_id o.side o.price i).1.get_level o.side o.price).getD PriceLevel.new).count }]) := by
      rw [process_place_rest_no_cross hlim hq hdup hcross, rest_order_step halloc]
    refine ⟨?_, ?_⟩
    · rw [hplace]
      exact List.mem_cons_self _ _
    · rw [hplace]
      have hAlloc : ((a2.set_node i fun n => { n with order_id := o.order_id, user_id := o.user_id, price := o.price, qty := o.qty })).allocated_count = e.arena.allocated_count + 1 := by
        rw [Arena.set_node_allocated, ha2cnt]
      cases hlev : e.book.get_level o.side o.price with
      | some L =>
        have hwfL := hinv.level_wf hlev
        have hBK : (e.book.add_order (a2.set_node i fun n => { n with order_id := o.order_id, user_id := o.user_id, price := o.price, qty := o.qty }) o.order_id o.user_id o.side o.price i).1
            = ({ e.book with order_map := (o.order_id, ⟨i, o.side, o.price, o.user_id⟩) :: e.book.order_map } : OrderBook).set_level o.side o.price (L.push_back (a2.set_node i fun n => { n with order_id := o.order_id, user_id := o.user_id, price := o.price, qty := o.qty }) i) :=
          OrderBook.add_order_existing_id (a2.set_node i fun n => { n with order_id := o.order_id, user_id := o.user_id, price := o.price, qty := o.qty }) hdup2 hlev hinv.best_bid_eq hinv.best_ask_eq
        rw [hBK]
        have homap2 : (({ e.book with order_map := (o.order_id, ⟨i, o.side, o.price, o.user_id⟩) :: e.book.order_map } : OrderBook).set_level o.side o.price (L.push_back (a2.set_node i fun n => { n with order_id := o.order_id, user_id := o.user_id, price := o.price, qty := o.qty }) i)).order_map
            = (o.order_id, (⟨i, o.side, o.price, o.user_id⟩ : OrderInfo)) :: e.book.order_map := by
          rw [OrderBook.set_level_order_map]
        have hget2 : (({ e.book with order_map := (o.order_id, ⟨i, o.side, o.price, o.user_id⟩) :: e.book.order_map } : OrderBook).set_level o.side o.price (L.push_back (a2.set_node i fun n => { n with order_id := o.order_id, user_id := o.user_id, price := o.price, qty := o.qty }) i)).get_order o.order_id
            = some ⟨i, o.side, o.price, o.user_id⟩ := by
          rw [OrderBook.get_order, homap2]
          exact lookupA_cons_self _ _ _
        have hpk2 : o.price ∈ keysA (({ e.book with order_map := (o.order_id, ⟨i, o.side, o.price, o.user_id⟩) :: e.book.order_map } : OrderBook).sideOf o.side) := by
          rw [OrderBook.sideOf_omap_cons]
          exact mem_keys_of_lookupA hlev
        have hlev2 : (({ e.book with order_map := (o.order_id, ⟨i, o.side, o.price, o.user_id⟩) :: e.book.order_map } : OrderBook).set_level o.side o.price (L.push_back (a2.set_node i fun n => { n with order_id := o.order_id, user_id := o.user_id, price := o.price, qty := o.qty }) i)).get_level o.side o.price
            = some (L.push_back (a2.set_node i fun n => { n with order_id := o.order_id, user_id := o.user_id, price := o.price, qty := o.qty }) i) :=
          OrderBook.get_level_set_level_self _ _ _ _ hpk2
        rw [@process_cancel_step (MatchingEngine.mk (a2.set_node i fun n => { n with order_id := o.order_id, user_id := o.user_id, price := o.price, qty := o.qty }) (({ e.book with order_map := (o.order_id, ⟨i, o.side, o.price, o.user_id⟩) :: e.book.order_map } : OrderBook).set_level o.side o.price (L.push_back (a2.set_node i fun n => { n with order_id := o.order_id, user_id := o.user_id, price := o.price, qty := o.qty }) i)))
          { order_id := o.order_id } ⟨i, o.side, o.price, o.user_id⟩ hget2]
        dsimp only
        rw [@OrderBook.remove_order_book (({ e.book with order_map := (o.order_id, ⟨i, o.side, o.price, o.user_id⟩) :: e.book.order_map } : OrderBook).set_level o.side o.price (L.push_back (a2.set_node i fun n => { n with order_id := o.order_id, user_id := o.user_id, price := o.price, qty := o.qty }) i)) (a2.set_node i fun n => { n with order_id := o.order_id, user_id := o.user_id, price := o.price, qty := o.qty }) o.order_id
          ⟨i, o.side, o.price, o.user_id⟩ (L.push_back (a2.set_node i fun n => { n with order_id := o.order_id, user_id := o.user_id, price := o.price, qty := o.qty }) i)
          (by rw [homap2]; exact lookupA_cons_self _ _ _) hlev2]
        have hLcnt : L.count ≠ 0 := by
          have hce := hwfL.count_eq
          have hne0 : L.orders.length ≠ 0 := fun h0 => hwfL.ne (List.length_eq_zero.1 h0)
          omega
        rw [if_neg (show ¬ ((L.push_back (a2.set_node i fun n => { n with order_id := o.order_id, user_id := o.user_id, price := o.price, qty := o.qty }) i).count - 1 = 0) from by
          show ¬ (L.count + 1 - 1 = 0)
          omega)]
        rw [MatchingEngine.state_hash, MatchingEngine.state_hash]
        congr 1
        · rw [OrderBook.set_level_best_bid]
          show (({ e.book with order_map := (o.order_id, ⟨i, o.side, o.price, o.user_id⟩) :: e.book.order_map } : OrderBook).set_level o.side o.price (L.push_back (a2.set_node i fun n => { n with order_id := o.order_id, user_id := o.user_id, price := o.price, qty := o.qty }) i)).best_bid = e.book.best_bid
          rw [OrderBook.set_level_best_bid]
        · rw [OrderBook.set_level_best_ask]
          show (({ e.book with order_map := (o.order_id, ⟨i, o.side, o.price, o.user_id⟩) :: e.book.order_map } : OrderBook).set_level o.side o.price (L.push_back (a2.set_node i fun n => { n with order_id := o.order_id, user_id := o.user_id, price := o.price, qty := o.qty }) i)).best_ask = e.book.best_ask
          rw [OrderBook.set_level_best_ask]
        · show (((({ e.book with order_map := (o.order_id, ⟨i, o.side, o.price, o.user_id⟩) :: e.book.order_map } : OrderBook).set_level o.side o.price (L.push_back (a2.set_node i fun n => { n with order_id := o.order_id, user_id := o.user_id, price := o.price, qty := o.qty }) i)).remove_order_from_map o.order_id).set_level o.side o.price { orders := (L.push_back (a2.set_node i fun n => { n with order_id := o.order_id, user_id := o.user_id, price := o.price, qty := o.qty }) i).orders.erase i, total_qty := (L.push_back (a2.set_node i fun n => { n with order_id := o.order_id, user_id := o.user_id, price := o.price, qty := o.qty }) i).total_qty - ((a2.set_node i fun n => { n with order_id := o.order_id, user_id := o.user_id, price := o.price, qty := o.qty }).get i).qty, count := (L.push_back (a2.set_node i fun n => { n with order_id := o.order_id, user_id := o.user_id, price := o.price, qty := o.qty }) i).count - 1 }).order_map.length = e.book.order_map.length
          rw [OrderBook.set_level_order_map, OrderBook.remove_order_from_map, homap2,
            eraseA_cons_self]
        · show ((a2.set_node i fun n => { n with order_id := o.order_id, user_id := o.user_id, price := o.price, qty := o.qty })).allocated_count - 1 = e.arena.allocated_count
          rw [hAlloc]
          omega
      | none =>
        cases hs : o.side with
      | Bid =>
        rw [hs] at hlev
        have hpnot : o.price ∉ keysA e.book.bids := by
          intro hm
          have h2 := (lookupA_isSome_iff_mem_keys e.book.bids o.price).2 hm
          rw [show lookupA e.book.bids o.price = none from hlev] at h2
          simp at h2
        have hBK : (e.book.add_order (a2.set_node i fun n => { n with order_id := o.order_id, user_id := o.user_id, price := o.price, qty := o.qty }) o.order_id o.user_id Side.Bid o.price i).1
            = ({ e.book with order_map := (o.order_id, ⟨i, Side.Bid, o.price, o.user_id⟩) :: e.book.order_map, bids := (o.price, PriceLevel.new.push_back (a2.set_node i fun n => { n with order_id := o.order_id, user_id := o.user_id, price := o.price, qty := o.qty }) i) :: e.book.bids } : OrderBook).update_best_price_on_add Side.Bid o.price :=
          congrArg Prod.fst (OrderBook.add_order_new_bid (a2.set_node i fun n => { n with order_id := o.order_id, user_id := o.user_id, price := o.price, qty := o.qty }) hdup2 hlev)
        rw [hBK]
        have homap2 : (({ e.book with order_map := (o.order_id, ⟨i, Side.Bid, o.price, o.user_id⟩) :: e.book.order_map, bids := (o.price, PriceLevel.new.push_back (a2.set_node i fun n => { n with order_id := o.order_id, user_id := o.user_id, price := o.price, qty := o.qty }) i) :: e.book.bids } : OrderBook).update_best_price_on_add Side.Bid o.price).order_map
            = (o.order_id, (⟨i, Side.Bid, o.price, o.user_id⟩ : OrderInfo)) :: e.book.order_map := by
          rw [OrderBook.update_best_order_map]
        have hbnbids : (({ e.book with order_map := (o.order_id, ⟨i, Side.Bid, o.price, o.user_id⟩) :: e.book.order_map, bids := (o.price, PriceLevel.new.push_back (a2.set_node i fun n => { n with order_id := o.order_id, user_id := o.user_id, price := o.price, qty := o.qty }) i) :: e.book.bids } : OrderBook).update_best_price_on_add Side.Bid o.price).bids = (o.price, PriceLevel.new.push_back (a2.set_node i fun n => { n with order_id := o.order_id, user_id := o.user_id, price := o.price, qty := o.qty }) i) :: e.book.bids := by
          rw [show (({ e.book with order_map := (o.order_id, ⟨i, Side.Bid, o.price, o.user_id⟩) :: e.book.order_map, bids := (o.price, PriceLevel.new.push_back (a2.set_node i fun n => { n with order_id := o.order_id, user_id := o.user_id, price := o.price, qty := o.qty }) i) :: e.book.bids } : OrderBook).update_best_price_on_add Side.Bid o.price).bids = ((({ e.book with order_map := (o.order_id, ⟨i, Side.Bid, o.price, o.user_id⟩) :: e.book.order_map, bids := (o.price, PriceLevel.new.push_back (a2.set_node i fun n => { n with order_id := o.order_id, user_id := o.user_id, price := o.price, qty := o.qty }) i) :: e.book.bids } : OrderBook).update_best_price_on_add Side.Bid o.price).sideOf Side.Bid) from rfl, OrderBook.update_best_sideOf]
          rfl
        have hbn : (({ e.book with order_map := (o.order_id, ⟨i, Side.Bid, o.price, o.user_id⟩) :: e.book.order_map, bids := (o.price, PriceLevel.new.push_back (a2.set_node i fun n => { n with order_id := o.order_id, user_id := o.user_id, price := o.price, qty := o.qty }) i) :: e.book.bids } : OrderBook).update_best_price_on_add Side.Bid o.price).best_bid
            = if e.book.best_bid.all fun best => best < o.price then some o.price else e.book.best_bid := by
          rw [OrderBook.update_best_bid_val]
        have hget2 : (({ e.book with order_map := (o.order_id, ⟨i, Side.Bid, o.price, o.user_id⟩) :: e.book.order_map, bids := (o.price, PriceLevel.new.push_back (a2.set_node i fun n => { n with order_id := o.order_id, user_id := o.user_id, price := o.price, qty := o.qty }) i) :: e.book.bids } : OrderBook).update_best_price_on_add Side.Bid o.price).get_order o.order_id
            = some ⟨i, Side.Bid, o.price, o.user_id⟩ := by
          rw [OrderBook.get_order, homap2]
          exact lookupA_cons_self _ _ _
        have hlev2 : (({ e.book with order_map := (o.order_id, ⟨i, Side.Bid, o.price, o.user_id⟩) :: e.book.order_map, bids := (o.price, PriceLevel.new.push_back (a2.set_node i fun n => { n with order_id := o.order_id, user_id := o.user_id, price := o.price, qty := o.qty }) i) :: e.book.bids } : OrderBook).update_best_price_on_add Side.Bid o.price).get_level Side.Bid o.price
            = some (PriceLevel.new.push_back (a2.set_node i fun n => { n with order_id := o.order_id, user_id := o.user_id, price := o.price, qty := o.qty }) i) := by
          rw [OrderBook.get_level_eq_lookup, show ((({ e.book with order_map := (o.order_id, ⟨i, Side.Bid, o.price, o.user_id⟩) :: e.book.order_map, bids := (o.price, PriceLevel.new.push_back (a2.set_node i fun n => { n with order_id := o.order_id, user_id := o.user_id, price := o.price, qty := o.qty }) i) :: e.book.bids } : OrderBook).update_best_price_on_add Side.Bid o.price).sideOf Side.Bid)
            = (o.price, PriceLevel.new.push_back (a2.set_node i fun n => { n with order_id := o.order_id, user_id := o.user_id, price := o.price, qty := o.qty }) i) :: e.book.bids from by
              rw [OrderBook.update_best_sideOf]; rfl]
          exact lookupA_cons_self _ _ _
        rw [@process_cancel_step (MatchingEngine.mk (a2.set_node i fun n => { n with order_id := o.order_id, user_id := o.user_id, price := o.price, qty := o.qty }) (({ e.book with order_map := (o.order_id, ⟨i, Side.Bid, o.price, o.user_id⟩) :: e.book.order_map, bids := (o.price, PriceLevel.new.push_back (a2.set_node i fun n => { n with order_id := o.order_id, user_id := o.user_id, price := o.price, qty := o.qty }) i) :: e.book.bids } : OrderBook).update_best_price_on_add Side.Bid o.price))
          { order_id := o.order_id } ⟨i, Side.Bid, o.price, o.user_id⟩ hget2]
        dsimp only
        rw [@OrderBook.remove_order_book (({ e.book with order_map := (o.order_id, ⟨i, Side.Bid, o.price, o.user_id⟩) :: e.book.order_map, bids := (o.price, PriceLevel.new.push_back (a2.set_node i fun n => { n with order_id := o.order_id, user_id := o.user_id, price := o.price, qty := o.qty }) i) :: e.book.bids } : OrderBook).update_best_price_on_add Side.Bid o.price) (a2.set_node i fun n => { n with order_id := o.order_id, user_id := o.user_id, price := o.price, qty := o.qty }) o.order_id
          ⟨i, Side.Bid, o.price, o.user_id⟩ (PriceLevel.new.push_back (a2.set_node i fun n => { n with order_id := o.order_id, user_id := o.user_id, price := o.price, qty := o.qty }) i)
          (by rw [homap2]; exact lookupA_cons_self _ _ _) hlev2]
        rw [if_pos (show (PriceLevel.new.push_back (a2.set_node i fun n => { n with order_id := o.order_id, user_id := o.user_id, price := o.price, qty := o.qty }) i).count - 1 = 0 from rfl)]
        rw [MatchingEngine.state_hash, MatchingEngine.state_hash]
        congr 1
        · -- the touched best price cache is restored
          rw [OrderBook.remove_empty_bid_value]
          have hcurbids : ((({ (({ e.book with order_map := (o.order_id, ⟨i, Side.Bid, o.price, o.user_id⟩) :: e.book.order_map, bids := (o.price, PriceLevel.new.push_back (a2.set_node i fun n => { n with order_id := o.order_id, user_id := o.user_id, price := o.price, qty := o.qty }) i) :: e.book.bids } : OrderBook).update_best_price_on_add Side.Bid o.price) with order_map := eraseA (({ e.book with order_map := (o.order_id, ⟨i, Side.Bid, o.price, o.user_id⟩) :: e.book.order_map, bids := (o.price, PriceLevel.new.push_back (a2.set_node i fun n => { n with order_id := o.order_id, user_id := o.user_id, price := o.price, qty := o.qty }) i) :: e.book.bids } : OrderBook).update_best_price_on_add Side.Bid o.price).order_map o.order_id } : OrderBook)).set_level Side.Bid o.price
              { orders := (PriceLevel.new.push_back (a2.set_node i fun n => { n with order_id := o.order_id, user_id := o.user_id, price := o.price, qty := o.qty }) i).orders.erase i, total_qty := (PriceLevel.new.push_back (a2.set_node i fun n => { n with order_id := o.order_id, user_id := o.user_id, price := o.price, qty := o.qty }) i).total_qty - ((a2.set_node i fun n => { n with order_id := o.order_id, user_id := o.user_id, price := o.price, qty := o.qty }).get i).qty, count := (PriceLevel.new.push_back (a2.set_node i fun n => { n with order_id := o.order_id, user_id := o.user_id, price := o.price, qty := o.qty }) i).count - 1 }).bids = (o.price, { orders := (PriceLevel.new.push_back (a2.set_node i fun n => { n with order_id := o.order_id, user_id := o.user_id, price := o.price, qty := o.qty }) i).orders.erase i, total_qty := (PriceLevel.new.push_back (a2.set_node i fun n => { n with order_id := o.order_id, user_id := o.user_id, price := o.price, qty := o.qty }) i).total_qty - ((a2.set_node i fun n => { n with order_id := o.order_id, user_id := o.user_id, price := o.price, qty := o.qty }).get i).qty, count := (PriceLevel.new.push_back (a2.set_node i fun n => { n with order_id := o.order_id, user_id := o.user_id, price := o.price, qty := o.qty }) i).count - 1 }) :: e.book.bids := by
            show updateA ({ (({ e.book with order_map := (o.order_id, ⟨i, Side.Bid, o.price, o.user_id⟩) :: e.book.order_map, bids := (o.price, PriceLevel.new.push_back (a2.set_node i fun n => { n with order_id := o.order_id, user_id := o.user_id, price := o.price, qty := o.qty }) i) :: e.book.bids } : OrderBook).update_best_price_on_add Side.Bid o.price) with order_map := eraseA (({ e.book with order_map := (o.order_id, ⟨i, Side.Bid, o.price, o.user_id⟩) :: e.book.order_map, bids := (o.price, PriceLevel.new.push_back (a2.set_node i fun n => { n with order_id := o.order_id, user_id := o.user_id, price := o.price, qty := o.qty }) i) :: e.book.bids } : OrderBook).update_best_price_on_add Side.Bid o.price).order_map o.order_id } : OrderBook).bids o.price { orders := (PriceLevel.new.push_back (a2.set_node i fun n => { n with order_id := o.order_id, user_id := o.user_id, price := o.price, qty := o.qty }) i).orders.erase i, total_qty := (PriceLevel.new.push_back (a2.set_node i fun n => { n with order_id := o.order_id, user_id := o.user_id, price := o.price, qty := o.qty }) i).total_qty - ((a2.set_node i fun n => { n with order_id := o.order_id, user_id := o.user_id, price := o.price, qty := o.qty }).get i).qty, count := (PriceLevel.new.push_back (a2.set_node i fun n => { n with order_id := o.order_id, user_id := o.user_id, price := o.price, qty := o.qty }) i).count - 1 } = _
            rw [show ({ (({ e.book with order_map := (o.order_id, ⟨i, Side.Bid, o.price, o.user_id⟩) :: e.book.order_map, bids := (o.price, PriceLevel.new.push_back (a2.set_node i fun n => { n with order_id := o.order_id, user_id := o.user_id, price := o.price, qty := o.qty }) i) :: e.book.bids } : OrderBook).update_best_price_on_add Side.Bid o.price) with order_map := eraseA (({ e.book with order_map := (o.order_id, ⟨i, Side.Bid, o.price, o.user_id⟩) :: e.book.order_map, bids := (o.price, PriceLevel.new.push_back (a2.set_node i fun n => { n with order_id := o.order_id, user_id := o.user_id, price := o.price, qty := o.qty }) i) :: e.book.bids } : OrderBook).update_best_price_on_add Side.Bid o.price).order_map o.order_id } : OrderBook).bids = (({ e.book with order_map := (o.order_id, ⟨i, Side.Bid, o.price, o.user_id⟩) :: e.book.order_map, bids := (o.price, PriceLevel.new.push_back (a2.set_node i fun n => { n with order_id := o.order_id, user_id := o.user_id, price := o.price, qty := o.qty }) i) :: e.book.bids } : OrderBook).update_best_price_on_add Side.Bid o.price).bids from rfl, hbnbids,
              updateA_cons_self _ _ _ _ hpnot]
          have hcurbb : ((({ (({ e.book with order_map := (o.order_id, ⟨i, Side.Bid, o.price, o.user_id⟩) :: e.book.order_map, bids := (o.price, PriceLevel.new.push_back (a2.set_node i fun n => { n with order_id := o.order_id, user_id := o.user_id, price := o.price, qty := o.qty }) i) :: e.book.bids } : OrderBook).update_best_price_on_add Side.Bid o.price) with order_map := eraseA (({ e.book with order_map := (o.order_id, ⟨i, Side.Bid, o.price, o.user_id⟩) :: e.book.order_map, bids := (o.price, PriceLevel.new.push_back (a2.set_node i fun n => { n with order_id := o.order_id, user_id := o.user_id, price := o.price, qty := o.qty }) i) :: e.book.bids } : OrderBook).update_best_price_on_add Side.Bid o.price).order_map o.order_id } : OrderBook)).set_level Side.Bid o.price
              { orders := (PriceLevel.new.push_back (a2.set_node i fun n => { n with order_id := o.order_id, user_id := o.user_id, price := o.price, qty := o.qty }) i).orders.erase i, total_qty := (PriceLevel.new.push_back (a2.set_node i fun n => { n with order_id := o.order_id, user_id := o.user_id, price := o.price, qty := o.qty }) i).total_qty - ((a2.set_node i fun n => { n with order_id := o.order_id, user_id := o.user_id, price := o.price, qty := o.qty }).get i).qty, count := (PriceLevel.new.push_back (a2.set_node i fun n => { n with order_id := o.order_id, user_id := o.user_id, price := o.price, qty := o.qty }) i).count - 1 }).best_bid = (({ e.book with order_map := (o.order_id, ⟨i, Side.Bid, o.price, o.user_id⟩) :: e.book.order_map, bids := (o.price, PriceLevel.new.push_back (a2.set_node i fun n => { n with order_id := o.order_id, user_id := o.user_id, price := o.price, qty := o.qty }) i) :: e.book.bids } : OrderBook).update_best_price_on_add Side.Bid o.price).best_bid := by
            rw [OrderBook.set_level_best_bid]
          rw [hcurbb, hcurbids, eraseA_cons_self]
          by_cases hsp : (({ e.book with order_map := (o.order_id, ⟨i, Side.Bid, o.price, o.user_id⟩) :: e.book.order_map, bids := (o.price, PriceLevel.new.push_back (a2.set_node i fun n => { n with order_id := o.order_id, user_id := o.user_id, price := o.price, qty := o.qty }) i) :: e.book.bids } : OrderBook).update_best_price_on_add Side.Bid o.price).best_bid = some o.price
          · rw [if_pos hsp]
            exact hinv.best_bid_eq.symm
          · rw [if_neg hsp]
            rw [hbn]
            by_cases hcond : (e.book.best_bid.all fun best => best < o.price) = true
            · exact absurd (show (({ e.book with order_map := (o.order_id, ⟨i, Side.Bid, o.price, o.user_id⟩) :: e.book.order_map, bids := (o.price, PriceLevel.new.push_back (a2.set_node i fun n => { n with order_id := o.order_id, user_id := o.user_id, price := o.price, qty := o.qty }) i) :: e.book.bids } : OrderBook).update_best_price_on_add Side.Bid o.price).best_bid = some o.price from by
                rw [hbn, if_pos hcond]) hsp
            · rw [if_neg hcond]
        · -- the untouched cache is unchanged
          rw [OrderBook.remove_empty_level_best_other_ask, OrderBook.set_level_best_ask]
          show (({ e.book with order_map := (o.order_id, ⟨i, Side.Bid, o.price, o.user_id⟩) :: e.book.order_map, bids := (o.price, PriceLevel.new.push_back (a2.set_node i fun n => { n with order_id := o.order_id, user_id := o.user_id, price := o.price, qty := o.qty }) i) :: e.book.bids } : OrderBook).update_best_price_on_add Side.Bid o.price).best_ask = e.book.best_ask
          rw [OrderBook.update_best_ask_of_bid]
        · -- the locator count is restored
          show ((({ (({ e.book with order_map := (o.order_id, ⟨i, Side.Bid, o.price, o.user_id⟩) :: e.book.order_map, bids := (o.price, PriceLevel.new.push_back (a2.set_node i fun n => { n with order_id := o.order_id, user_id := o.user_id, price := o.price, qty := o.qty }) i) :: e.book.bids } : OrderBook).update_best_price_on_add Side.Bid o.price) with order_map := eraseA (({ e.book with order_map := (o.order_id, ⟨i, Side.Bid, o.price, o.user_id⟩) :: e.book.order_map, bids := (o.price, PriceLevel.new.push_back (a2.set_node i fun n => { n with order_id := o.order_id, user_id := o.user_id, price := o.price, qty := o.qty }) i) :: e.book.bids } : OrderBook).update_best_price_on_add Side.Bid o.price).order_map o.order_id } : OrderBook).set_level Side.Bid o.price
            { orders := (PriceLevel.new.push_back (a2.set_node i fun n => { n with order_id := o.order_id, user_id := o.user_id, price := o.price, qty := o.qty }) i).orders.erase i, total_qty := (PriceLevel.new.push_back (a2.set_node i fun n => { n with order_id := o.order_id, user_id := o.user_id, price := o.price, qty := o.qty }) i).total_qty - ((a2.set_node i fun n => { n with order_id := o.order_id, user_id := o.user_id, price := o.price, qty := o.qty }).get i).qty, count := (PriceLevel.new.push_back (a2.set_node i fun n => { n with order_id := o.order_id, user_id := o.user_id, price := o.price, qty := o.qty }) i).count - 1 }).remove_empty_level Side.Bid o.price).order_map.length
            = e.book.order_map.length
          rw [OrderBook.remove_empty_level_order_map, OrderBook.set_level_order_map,
            show ({ (({ e.book with order_map := (o.order_id, ⟨i, Side.Bid, o.price, o.user_id⟩) :: e.book.order_map, bids := (o.price, PriceLevel.new.push_back (a2.set_node i fun n => { n with order_id := o.order_id, user_id := o.user_id, price := o.price, qty := o.qty }) i) :: e.book.bids } : OrderBook).update_best_price_on_add Side.Bid o.price) with order_map := eraseA (({ e.book with order_map := (o.order_id, ⟨i, Side.Bid, o.price, o.user_id⟩) :: e.book.order_map, bids := (o.price, PriceLevel.new.push_back (a2.set_node i fun n => { n with order_id := o.order_id, user_id := o.user_id, price := o.price, qty := o.qty }) i) :: e.book.bids } : OrderBook).update_best_price_on_add Side.Bid o.price).order_map o.order_id } : OrderBook).order_map = eraseA (({ e.book with order_map := (o.order_id, ⟨i, Side.Bid, o.price, o.user_id⟩) :: e.book.order_map, bids := (o.price, PriceLevel.new.push_back (a2.set_node i fun n => { n with order_id := o.order_id, user_id := o.user_id, price := o.price, qty := o.qty }) i) :: e.book.bids } : OrderBook).update_best_price_on_add Side.Bid o.price).order_map o.order_id from rfl,
            homap2, eraseA_cons_self]
        · -- the allocation count is restored
          show ((a2.set_node i fun n => { n with order_id := o.order_id, user_id := o.user_id, price := o.price, qty := o.qty })).allocated_count - 1 = e.arena.allocated_count
          rw [hAlloc]
          omega
      | Ask =>
        rw [hs] at hlev
        have hpnot : o.price ∉ keysA e.book.asks := by
          intro hm
          have h2 := (lookupA_isSome_iff_mem_keys e.book.asks o.price).2 hm
          rw [show lookupA e.book.asks o.price = none from hlev] at h2
          simp at h2
        have hBK : (e.book.add_order (a2.set_node i fun n => { n with order_id := o.order_id, user_id := o.user_id, price := o.price, qty := o.qty }) o.order_id o.user_id Side.Ask o.price i).1
            = ({ e.book with order_map := (o.order_id, ⟨i, Side.Ask, o.price, o.user_id⟩) :: e.book.order_map, asks := (o.price, PriceLevel.new.push_back (a2.set_node i fun n => { n with order_id := o.order_id, user_id := o.user_id, price := o.price, qty := o.qty }) i) :: e.book.asks } : OrderBook).update_best_price_on_add Side.Ask o.price :=
          congrArg Prod.fst (OrderBook.add_order_new_ask (a2.set_node i fun n => { n with order_id := o.order_id, user_id := o.user_id, price := o.price, qty := o.qty }) hdup2 hlev)
        rw [hBK]
        have homap2 : (({ e.book with order_map := (o.order_id, ⟨i, Side.Ask, o.price, o.user_id⟩) :: e.book.order_map, asks := (o.price, PriceLevel.new.push_back (a2.set_node i fun n => { n with order_id := o.order_id, user_id := o.user_id, price := o.price, qty := o.qty }) i) :: e.book.asks } : OrderBook).update_best_price_on_add Side.Ask o.price).order_map
            = (o.order_id, (⟨i, Side.Ask, o.price, o.user_id⟩ : OrderInfo)) :: e.book.order_map := by
          rw [OrderBook.update_best_order_map]
        have hbnbids : (({ e.book with order_map := (o.order_id, ⟨i, Side.Ask, o.price, o.user_id⟩) :: e.book.order_map, asks := (o.price, PriceLevel.new.push_back (a2.set_node i fun n => { n with order_id := o.order_id, user_id := o.user_id, price := o.price, qty := o.qty }) i) :: e.book.asks } : OrderBook).update_best_price_on_add Side.Ask o.price).asks = (o.price, PriceLevel.new.push_back (a2.set_node i fun n => { n with order_id := o.order_id, user_id := o.user_id, price := o.price, qty := o.qty }) i) :: e.book.asks := by
          rw [show (({ e.book with order_map := (o.order_id, ⟨i, Side.Ask, o.price, o.user_id⟩) :: e.book.order_map, asks := (o.price, PriceLevel.new.push_back (a2.set_node i fun n => { n with order_id := o.order_id, user_id := o.user_id, price := o.price, qty := o.qty }) i) :: e.book.asks } : OrderBook).update_best_price_on_add Side.Ask o.price).asks = ((({ e.book with order_map := (o.order_id, ⟨i, Side.Ask, o.price, o.user_id⟩) :: e.book.order_map, asks := (o.price, PriceLevel.new.push_back (a2.set_node i fun n => { n with order_id := o.order_id, user_id := o.user_id, price := o.price, qty := o.qty }) i) :: e.book.asks } : OrderBook).update_best_price_on_add Side.Ask o.price).sideOf Side.Ask) from rfl, OrderBook.update_best_sideOf]
          rfl
        have hbn : (({ e.book with order_map := (o.order_id, ⟨i, Side.Ask, o.price, o.user_id⟩) :: e.book.order_map, asks := (o.price, PriceLevel.new.push_back (a2.set_node i fun n => { n with order_id := o.order_id, user_id := o.user_id, price := o.price, qty := o.qty }) i) :: e.book.asks } : OrderBook).update_best_price_on_add Side.Ask o.price).best_ask
            = if e.book.best_ask.all fun best => o.price < best then some o.price else e.book.best_ask := by
          rw [OrderBook.update_best_ask_val]
        have hget2 : (({ e.book with order_map := (o.order_id, ⟨i, Side.Ask, o.price, o.user_id⟩) :: e.book.order_map, asks := (o.price, PriceLevel.new.push_back (a2.set_node i fun n => { n with order_id := o.order_id, user_id := o.user_id, price := o.price, qty := o.qty }) i) :: e.book.asks } : OrderBook).update_best_price_on_add Side.Ask o.price).get_order o.order_id
            = some ⟨i, Side.Ask, o.price, o.user_id⟩ := by
          rw [OrderBook.get_order, homap2]
          exact lookupA_cons_self _ _ _
        have hlev2 : (({ e.book with order_map := (o.order_id, ⟨i, Side.Ask, o.price, o.user_id⟩) :: e.book.order_map, asks := (o.price, PriceLevel.new.push_back (a2.set_node i fun n => { n with order_id := o.order_id, user_id := o.user_id, price := o.price, qty := o.qty }) i) :: e.book.asks } : OrderBook).update_best_price_on_add Side.Ask o.price).get_level Side.Ask o.price
            = some (PriceLevel.new.push_back (a2.set_node i fun n => { n with order_id := o.order_id, user_id := o.user_id, price := o.price, qty := o.qty }) i) := by
          rw [OrderBook.get_level_eq_lookup, show ((({ e.book with order_map := (o.order_id, ⟨i, Side.Ask, o.price, o.user_id⟩) :: e.book.order_map, asks := (o.price, PriceLevel.new.push_back (a2.set_node i fun n => { n with order_id := o.order_id, user_id := o.user_id, price := o.price, qty := o.qty }) i) :: e.book.asks } : OrderBook).update_best_price_on_add Side.Ask o.price).sideOf Side.Ask)
            = (o.price, PriceLevel.new.push_back (a2.set_node i fun n => { n with order_id := o.order_id, user_id := o.user_id, price := o.price, qty := o.qty }) i) :: e.book.asks from by
              rw [OrderBook.update_best_sideOf]; rfl]
          exact lookupA_cons_self _ _ _
        rw [@process_cancel_step (MatchingEngine.mk (a2.set_node i fun n => { n with order_id := o.order_id, user_id := o.user_id, price := o.price, qty := o.qty }) (({ e.book with order_map := (o.order_id, ⟨i, Side.Ask, o.price, o.user_id⟩) :: e.book.order_map, asks := (o.price, PriceLevel.new.push_back (a2.set_node i fun n => { n with order_id := o.order_id, user_id := o.user_id, price := o.price, qty := o.qty }) i) :: e.book.asks } : OrderBook).update_best_price_on_add Side.Ask o.price))
          { order_id := o.order_id } ⟨i, Side.Ask, o.price, o.user_id⟩ hget2]
        dsimp only
        rw [@OrderBook.remove_order_book (({ e.book with order_map := (o.order_id, ⟨i, Side.Ask, o.price, o.user_id⟩) :: e.book.order_map, asks := (o.price, PriceLevel.new.push_back (a2.set_node i fun n => { n with order_id := o.order_id, user_id := o.user_id, price := o.price, qty := o.qty }) i) :: e.book.asks } : OrderBook).update_best_price_on_add Side.Ask o.price) (a2.set_node i fun n => { n with order_id := o.order_id, user_id := o.user_id, price := o.price, qty := o.qty }) o.order_id
          ⟨i, Side.Ask, o.price, o.user_id⟩ (PriceLevel.new.push_back (a2.set_node i fun n => { n with order_id := o.order_id, user_id := o.user_id, price := o.price, qty := o.qty }) i)
          (by rw [homap2]; exact lookupA_cons_self _ _ _) hlev2]
        rw [if_pos (show (PriceLevel.new.push_back (a2.set_node i fun n => { n with order_id := o.order_id, user_id := o.user_id, price := o.price, qty := o.qty }) i).count - 1 = 0 from rfl)]
        rw [MatchingEngine.state_hash, MatchingEngine.state_hash]
        congr 1
        · -- the untouched cache is unchanged
          rw [OrderBook.remove_empty_level_best_other_bid, OrderBook.set_level_best_bid]
          show (({ e.book with order_map := (o.order_id, ⟨i, Side.Ask, o.price, o.user_id⟩) :: e.book.order_map, asks := (o.price, PriceLevel.new.push_back (a2.set_node i fun n => { n with order_id := o.order_id, user_id := o.user_id, price := o.price, qty := o.qty }) i) :: e.book.asks } : OrderBook).update_best_price_on_add Side.Ask o.price).best_bid = e.book.best_bid
          rw [OrderBook.update_best_bid_of_ask]
        · -- the touched best price cache is restored
          rw [OrderBook.remove_empty_ask_value]
          have hcurbids : ((({ (({ e.book with order_map := (o.order_id, ⟨i, Side.Ask, o.price, o.user_id⟩) :: e.book.order_map, asks := (o.price, PriceLevel.new.push_back (a2.set_node i fun n => { n with order_id := o.order_id, user_id := o.user_id, price := o.price, qty := o.qty }) i) :: e.book.asks } : OrderBook).update_best_price_on_add Side.Ask o.price) with order_map := eraseA (({ e.book with order_map := (o.order_id, ⟨i, Side.Ask, o.price, o.user_id⟩) :: e.book.order_map, asks := (o.price, PriceLevel.new.push_back (a2.set_node i fun n => { n with order_id := o.order_id, user_id := o.user_id, price := o.price, qty := o.qty }) i) :: e.book.asks } : OrderBook).update_best_price_on_add Side.Ask o.price).order_map o.order_id } : OrderBook)).set_level Side.Ask o.price
              { orders := (PriceLevel.new.push_back (a2.set_node i fun n => { n with order_id := o.order_id, user_id := o.user_id, price := o.price, qty := o.qty }) i).orders.erase i, total_qty := (PriceLevel.new.push_back (a2.set_node i fun n => { n with order_id := o.order_id, user_id := o.user_id, price := o.price, qty := o.qty }) i).total_qty - ((a2.set_node i fun n => { n with order_id := o.order_id, user_id := o.user_id, price := o.price, qty := o.qty }).get i).qty, count := (PriceLevel.new.push_back (a2.set_node i fun n => { n with order_id := o.order_id, user_id := o.user_id, price := o.price, qty := o.qty }) i).count - 1 }).asks = (o.price, { orders := (PriceLevel.new.push_back (a2.set_node i fun n => { n with order_id := o.order_id, user_id := o.user_id, price := o.price, qty := o.qty }) i).orders.erase i, total_qty := (PriceLevel.new.push_back (a2.set_node i fun n => { n with order_id := o.order_id, user_id := o.user_id, price := o.price, qty := o.qty }) i).total_qty - ((a2.set_node i fun n => { n with order_id := o.order_id, user_id := o.user_id, price := o.price, qty := o.qty }).get i).qty, count := (PriceLevel.new.push_back (a2.set_node i fun n => { n with order_id := o.order_id, user_id := o.user_id, price := o.price, qty := o.qty }) i).count - 1 }) :: e.book.asks := by
            show updateA ({ (({ e.book with order_map := (o.order_id, ⟨i, Side.Ask, o.price, o.user_id⟩) :: e.book.order_map, asks := (o.price, PriceLevel.new.push_back (a2.set_node i fun n => { n with order_id := o.order_id, user_id := o.user_id, price := o.price, qty := o.qty }) i) :: e.book.asks } : OrderBook).update_best_price_on_add Side.Ask o.price) with order_map := eraseA (({ e.book with order_map := (o.order_id, ⟨i, Side.Ask, o.price, o.user_id⟩) :: e.book.order_map, asks := (o.price, PriceLevel.new.push_back (a2.set_node i fun n => { n with order_id := o.order_id, user_id := o.user_id, price := o.price, qty := o.qty }) i) :: e.book.asks } : OrderBook).update_best_price_on_add Side.Ask o.price).order_map o.order_id } : OrderBook).asks o.price { orders := (PriceLevel.new.push_back (a2.set_node i fun n => { n with order_id := o.order_id, user_id := o.user_id, price := o.price, qty := o.qty }) i).orders.erase i, total_qty := (PriceLevel.new.push_back (a2.set_node i fun n => { n with order_id := o.order_id, user_id := o.user_id, price := o.price, qty := o.qty }) i).total_qty - ((a2.set_node i fun n => { n with order_id := o.order_id, user_id := o.user_id, price := o.price, qty := o.qty }).get i).qty, count := (PriceLevel.new.push_back (a2.set_node i fun n => { n with order_id := o.order_id, user_id := o.user_id, price := o.price, qty := o.qty }) i).count - 1 } = _
            rw [show ({ (({ e.book with order_map := (o.order_id, ⟨i, Side.Ask, o.price, o.user_id⟩) :: e.book.order_map, asks := (o.price, PriceLevel.new.push_back (a2.set_node i fun n => { n with order_id := o.order_id, user_id := o.user_id, price := o.price, qty := o.qty }) i) :: e.book.asks } : OrderBook).update_best_price_on_add Side.Ask o.price) with order_map := eraseA (({ e.book with order_map := (o.order_id, ⟨i, Side.Ask, o.price, o.user_id⟩) :: e.book.order_map, asks := (o.price, PriceLevel.new.push_back (a2.set_node i fun n => { n with order_id := o.order_id, user_id := o.user_id, price := o.price, qty := o.qty }) i) :: e.book.asks } : OrderBook).update_best_price_on_add Side.Ask o.price).order_map o.order_id } : OrderBook).asks = (({ e.book with order_map := (o.order_id, ⟨i, Side.Ask, o.price, o.user_id⟩) :: e.book.order_map, asks := (o.price, PriceLevel.new.push_back (a2.set_node i fun n => { n with order_id := o.order_id, user_id := o.user_id, price := o.price, qty := o.qty }) i) :: e.book.asks } : OrderBook).update_best_price_on_add Side.Ask o.price).asks from rfl, hbnbids,
              updateA_cons_self _ _ _ _ hpnot]
          have hcurbb : ((({ (({ e.book with order_map := (o.order_id, ⟨i, Side.Ask, o.price, o.user_id⟩) :: e.book.order_map, asks := (o.price, PriceLevel.new.push_back (a2.set_node i fun n => { n with order_id := o.order_id, user_id := o.user_id, price := o.price, qty := o.qty }) i) :: e.book.asks } : OrderBook).update_best_price_on_add Side.Ask o.price) with order_map := eraseA (({ e.book with order_map := (o.order_id, ⟨i, Side.Ask, o.price, o.user_id⟩) :: e.book.order_map, asks := (o.price, PriceLevel.new.push_back (a2.set_node i fun n => { n with order_id := o.order_id, user_id := o.user_id, price := o.price, qty := o.qty }) i) :: e.book.asks } : OrderBook).update_best_price_on_add Side.Ask o.price).order_map o.order_id } : OrderBook)).set_level Side.Ask o.price
              { orders := (PriceLevel.new.push_back (a2.set_node i fun n => { n with order_id := o.order_id, user_id := o.user_id, price := o.price, qty := o.qty }) i).orders.erase i, total_qty := (PriceLevel.new.push_back (a2.set_node i fun n => { n with order_id := o.order_id, user_id := o.user_id, price := o.price, qty := o.qty }) i).total_qty - ((a2.set_node i fun n => { n with order_id := o.order_id, user_id := o.user_id, price := o.price, qty := o.qty }).get i).qty, count := (PriceLevel.new.push_back (a2.set_node i fun n => { n with order_id := o.order_id, user_id := o.user_id, price := o.price, qty := o.qty }) i).count - 1 }).best_ask = (({ e.book with order_map := (o.order_id, ⟨i, Side.Ask, o.price, o.user_id⟩) :: e.book.order_map, asks := (o.price, PriceLevel.new.push_back (a2.set_node i fun n => { n with order_id := o.order_id, user_id := o.user_id, price := o.price, qty := o.qty }) i) :: e.book.asks } : OrderBook).update_best_price_on_add Side.Ask o.price).best_ask := by
            rw [OrderBook.set_level_best_ask]
          rw [hcurbb, hcurbids, eraseA_cons_self]
          by_cases hsp : (({ e.book with order_map := (o.order_id, ⟨i, Side.Ask, o.price, o.user_id⟩) :: e.book.order_map, asks := (o.price, PriceLevel.new.push_back (a2.set_node i fun n => { n with order_id := o.order_id, user_id := o.user_id, price := o.price, qty := o.qty }) i) :: e.book.asks } : OrderBook).update_best_price_on_add Side.Ask o.price).best_ask = some o.price
          · rw [if_pos hsp]
            exact hinv.best_ask_eq.symm
          · rw [if_neg hsp]
            rw [hbn]
            by_cases hcond : (e.book.best_ask.all fun best => o.price < best) = true
            · exact absurd (show (({ e.book with order_map := (o.order_id, ⟨i, Side.Ask, o.price, o.user_id⟩) :: e.book.order_map, asks := (o.price, PriceLevel.new.push_back (a2.set_node i fun n => { n with order_id := o.order_id, user_id := o.user_id, price := o.price, qty := o.qty }) i) :: e.book.asks } : OrderBook).update_best_price_on_add Side.Ask o.price).best_ask = some o.price from by
                rw [hbn, if_pos hcond]) hsp
            · rw [if_neg hcond]
        · -- the locator count is restored
          show ((({ (({ e.book with order_map := (o.order_id, ⟨i, Side.Ask, o.price, o.user_id⟩) :: e.book.order_map, asks := (o.price, PriceLevel.new.push_back (a2.set_node i fun n => { n with order_id := o.order_id, user_id := o.user_id, price := o.price, qty := o.qty }) i) :: e.book.asks } : OrderBook).update_best_price_on_add Side.Ask o.price) with order_map := eraseA (({ e.book with order_map := (o.order_id, ⟨i, Side.Ask, o.price, o.user_id⟩) :: e.book.order_map, asks := (o.price, PriceLevel.new.push_back (a2.set_node i fun n => { n with order_id := o.order_id, user_id := o.user_id, price := o.price, qty := o.qty }) i) :: e.book.asks } : OrderBook).update_best_price_on_add Side.Ask o.price).order_map o.order_id } : OrderBook).set_level Side.Ask o.price
            { orders := (PriceLevel.new.push_back (a2.set_node i fun n => { n with order_id := o.order_id, user_id := o.user_id, price := o.price, qty := o.qty }) i).orders.erase i, total_qty := (PriceLevel.new.push_back (a2.set_node i fun n => { n with order_id := o.order_id, user_id := o.user_id, price := o.price, qty := o.qty }) i).total_qty - ((a2.set_node i fun n => { n with order_id := o.order_id, user_id := o.user_id, price := o.price, qty := o.qty }).get i).qty, count := (PriceLevel.new.push_back (a2.set_node i fun n => { n with order_id := o.order_id, user_id := o.user_id, price := o.price, qty := o.qty }) i).count - 1 }).remove_empty_level Side.Ask o.price).order_map.length
            = e.book.order_map.length
          rw [OrderBook.remove_empty_level_order_map, OrderBook.set_level_order_map,
            show ({ (({ e.book with order_map := (o.order_id, ⟨i, Side.Ask, o.price, o.user_id⟩) :: e.book.order_map, asks := (o.price, PriceLevel.new.push_back (a2.set_node i fun n => { n with order_id := o.order_id, user_id := o.user_id, price := o.price, qty := o.qty }) i) :: e.book.asks } : OrderBook).update_best_price_on_add Side.Ask o.price) with order_map := eraseA (({ e.book with order_map := (o.order_id, ⟨i, Side.Ask, o.price, o.user_id⟩) :: e.book.order_map, asks := (o.price, PriceLevel.new.push_back (a2.set_node i fun n => { n with order_id := o.order_id, user_id := o.user_id, price := o.price, qty := o.qty }) i) :: e.book.asks } : OrderBook).update_best_price_on_add Side.Ask o.price).order_map o.order_id } : OrderBook).order_map = eraseA (({ e.book with order_map := (o.order_id, ⟨i, Side.Ask, o.price, o.user_id⟩) :: e.book.order_map, asks := (o.price, PriceLevel.new.push_back (a2.set_node i fun n => { n with order_id := o.order_id, user_id := o.user_id, price := o.price, qty := o.qty }) i) :: e.book.asks } : OrderBook).update_best_price_on_add Side.Ask o.price).order_map o.order_id from rfl,
            homap2, eraseA_cons_self]
        · -- the allocation count is restored
          show ((a2.set_node i fun n => { n with order_id := o.order_id, user_id := o.user_id, price := o.price, qty := o.qty })).allocated_count - 1 = e.arena.allocated_count
          rw [hAlloc]
          omega

/-- C1: a Place with order type IOC whose remaining quantity after the cross
loop is positive is not rested: the engine returns the cross state and the
cross loop's market data events unchanged, so no Accepted, no Canceled and no
Rejected event exists for the unfilled portion while already emitted trades
stand; and an IOC order that crosses nothing returns the engine unchanged
with an empty event list. -/
theorem claim_C1 (e : MatchingEngine) (o : PlaceOrder) (hinv : EngineInv e)
    (hioc : o.order_type = OrderType.IOC)
    (hdup : e.book.contains_order o.order_id = false)
    (hq : o.qty ≠ 0) :
    (0 < (e.cross_phase o).2.1 →
      e.process_place o = ((e.cross_phase o).1, (e.cross_phase o).2.2) ∧
      ∀ ev ∈ (e.process_place o).2, ev.isMarketData = true) ∧
    ((∀ bp, e.book.best_opposite_price o.side = some bp →
        prices_cross o.price bp o.side = false) →
      e.process_place o = (e, [])) := by
  have hfok : ¬ (o.order_type = OrderType.FOK ∧ e.crossable_qty o < o.qty) := by
    intro hx
    rw [hioc] at hx
    cases hx.1
  have hdup2 : ¬ (e.book.contains_order o.order_id = true) := by
    rw [hdup]
    simp
  constructor
  · intro hrem
    have hpp : e.process_place o = ((e.cross_phase o).1, (e.cross_phase o).2.2) := by
      rw [MatchingEngine.process_place, if_neg hq, if_neg hdup2, if_neg hfok]
      dsimp only
      rw [if_pos hrem, hioc]
    refine ⟨hpp, ?_⟩
    rw [hpp]
    exact (cross_phase_outcome e o hinv).md_only
  · intro hnc
    have hcr : e.cross_phase o = (e, o.qty, []) := by
      rw [MatchingEngine.cross_phase]
      cases hb : e.book.best_opposite_price o.side with
      | none => exact cross_order_no_best _ _ _ _ hq hb
      | some bp => exact cross_order_no_cross _ _ _ _ bp hq hb (hnc bp hb)
    rw [MatchingEngine.process_place, if_neg hq, if_neg hdup2, if_neg hfok]
    dsimp only
    rw [hcr]
    dsimp only
    rw [if_pos (Nat.pos_of_ne_zero hq), hioc]

theorem claim_C1_witness :
    0 < ((((MatchingEngine.new 16).process_place ⟨1, 100, .Ask, 10000, 50, .Limit⟩).1).cross_phase
        ⟨2, 200, .Bid, 10000, 100, .IOC⟩).2.1 ∧
    ((((MatchingEngine.new 16).process_place ⟨1, 100, .Ask, 10000, 50, .Limit⟩).1).process_place
        ⟨2, 200, .Bid, 10000, 100, .IOC⟩
      = (((((MatchingEngine.new 16).process_place ⟨1, 100, .Ask, 10000, 50, .Limit⟩).1).cross_phase
          ⟨2, 200, .Bid, 10000, 100, .IOC⟩).1,
         ((((MatchingEngine.new 16).process_place ⟨1, 100, .Ask, 10000, 50, .Limit⟩).1).cross_phase
          ⟨2, 200, .Bid, 10000, 100, .IOC⟩).2.2) ∧
      ∀ ev ∈ ((((MatchingEngine.new 16).process_place ⟨1, 100, .Ask, 10000, 50, .Limit⟩).1).process_place
          ⟨2, 200, .Bid, 10000, 100, .IOC⟩).2, ev.isMarketData = true) :=
  ⟨by decide,
   (claim_C1 _ _ (process_place_inv (inv_new (by decide)) _) rfl (by decide) (by decide)).1
     (by decide)⟩

/-- C2: a Place with order type FOK whose crossable opposite quantity is
strictly below its quantity is answered by exactly one Rejected event with
reason InsufficientLiquidity and the engine state is returned unchanged, so
no trade executes, nothing rests and no state mutates; and the engine's
crossable quantity agrees with the spec's accumulation over the opposite
book view. -/
theorem claim_C2 (e : MatchingEngine) (o : PlaceOrder) (hinv : EngineInv e)
    (hq : o.qty ≠ 0) (hdup : e.book.contains_order o.order_id = false)
    (hfok : o.order_type = OrderType.FOK) (hlt : e.crossable_qty o < o.qty) :
    e.process_place o
      = (e, [.Rejected { order_id := o.order_id, reason := .InsufficientLiquidity }]) ∧
    e.crossable_qty o = spec_crossable o (e.book_view o.side.opposite) := by
  constructor
  · rw [MatchingEngine.process_place, if_neg hq,
      if_neg (show ¬ (e.book.contains_order o.order_id = true) from by rw [hdup]; simp),
      if_pos ⟨hfok, hlt⟩]
  · exact crossable_eq_spec hinv o

theorem claim_C2_witness :
    (((MatchingEngine.new 16).process_place ⟨1, 100, .Ask, 10000, 40, .Limit⟩).1).process_place
        ⟨2, 200, .Bid, 10000, 100, .FOK⟩
      = ((((MatchingEngine.new 16).process_place ⟨1, 100, .Ask, 10000, 40, .Limit⟩).1),
         [.Rejected { order_id := 2, reason := .InsufficientLiquidity }]) ∧
    (((MatchingEngine.new 16).process_place ⟨1, 100, .Ask, 10000, 40, .Limit⟩).1).crossable_qty
        ⟨2, 200, .Bid, 10000, 100, .FOK⟩
      = spec_crossable ⟨2, 200, .Bid, 10000, 100, .FOK⟩
          ((((MatchingEngine.new 16).process_place ⟨1, 100, .Ask, 10000, 40, .Limit⟩).1).book_view
            .Ask) :=
  claim_C2 _ _ (process_place_inv (inv_new (by decide)) _) (by decide) (by decide) rfl (by decide)

/-- C3: the cross loop realises price time priority: from a well formed state
its emitted trades equal the spec walk that consumes levels from the best
opposite price outward, pairs makers inside one level in FIFO order from the
level head, and sizes each trade as the minimum of the taker remainder and
the head maker remainder. -/
theorem claim_C3 (e : MatchingEngine) (o : PlaceOrder) (hinv : EngineInv e) :
    tradesOf (e.cross_phase o).2.2
      = (spec_cross_run o (e.book_view o.side.opposite) o.qty).1 :=
  (cross_phase_outcome e o hinv).trades_eq

theorem claim_C3_witness :
    tradesOf (((((MatchingEngine.new 16).process_place ⟨1, 1, .Ask, 10000, 100, .Limit⟩).1.process_place
        ⟨2, 2, .Ask, 10000, 100, .Limit⟩).1.process_place ⟨3, 3, .Ask, 10020, 100, .Limit⟩).1.cross_phase
        ⟨4, 9, .Bid, 10020, 250, .Limit⟩).2.2
      = (spec_cross_run ⟨4, 9, .Bid, 10020, 250, .Limit⟩
          (((((MatchingEngine.new 16).process_place ⟨1, 1, .Ask, 10000, 100, .Limit⟩).1.process_place
            ⟨2, 2, .Ask, 10000, 100, .Limit⟩).1.process_place ⟨3, 3, .Ask, 10020, 100, .Limit⟩).1.book_view
            ((⟨4, 9, .Bid, 10020, 250, .Limit⟩ : PlaceOrder).side.opposite))
          250).1 :=
  claim_C3 _ _
    (process_place_inv (process_place_inv (process_place_inv (inv_new (by decide)) _) _) _)

/-- C4: a Modify command runs the embedded cancel first; when no Canceled
event was emitted the result is exactly the cancel's events with no place
performed, and otherwise a new Limit order is placed carrying the new order
id, price and quantity with side and user id read from the original locator
entry, the final events being the cancel's followed by the place's. -/
theorem claim_C4 (g : Engine) (m : ModifyOrder) :
    (¬ ((g.matcher.process_cancel { order_id := m.order_id }).2.any
        OutputEvent.isCanceled = true) →
      g.process_command (.Modify m)
        = (Engine.mk (g.matcher.process_cancel { order_id := m.order_id }).1,
           (g.matcher.process_cancel { order_id := m.order_id }).2)) ∧
    ∀ nfo, g.matcher.book.get_order m.order_id = some nfo →
      ((g.matcher.process_cancel { order_id := m.order_id }).2.any
        OutputEvent.isCanceled = true) →
      g.process_command (.Modify m)
        = (Engine.mk ((g.matcher.process_cancel { order_id := m.order_id }).1.process_place
            { order_id := m.new_order_id, user_id := nfo.user_id, side := nfo.side, price := m.new_price, qty := m.new_qty, order_type := .Limit }).1,
           (g.matcher.process_cancel { order_id := m.order_id }).2 ++
           ((g.matcher.process_cancel { order_id := m.order_id }).1.process_place
            { order_id := m.new_order_id, user_id := nfo.user_id, side := nfo.side, price := m.new_price, qty := m.new_qty, order_type := .Limit }).2) := by
  constructor
  · intro hns
    rw [Engine.process_command]
    dsimp only
    rw [if_neg hns]
  · intro nfo hinfo hcs
    rw [Engine.process_command]
    dsimp only
    rw [if_pos hcs, hinfo]

theorem claim_C4_witness :
    ((Engine.new 16).process_command (.Place ⟨1, 7, .Bid, 10000, 100, .Limit⟩)).1.process_command
        (.Modify ⟨1, 2, 10500, 200⟩)
      = (Engine.mk (((((Engine.new 16).process_command
            (.Place ⟨1, 7, .Bid, 10000, 100, .Limit⟩)).1).matcher.process_cancel
            { order_id := 1 }).1.process_place
            { order_id := 2, user_id := (⟨0, .Bid, 10000, 7⟩ : OrderInfo).user_id, side := (⟨0, .Bid, 10000, 7⟩ : OrderInfo).side, price := 10500, qty := 200, order_type := .Limit }).1,
         ((((Engine.new 16).process_command
            (.Place ⟨1, 7, .Bid, 10000, 100, .Limit⟩)).1).matcher.process_cancel
            { order_id := 1 }).2 ++
         (((((Engine.new 16).process_command
            (.Place ⟨1, 7, .Bid, 10000, 100, .Limit⟩)).1).matcher.process_cancel
            { order_id := 1 }).1.process_place
            { order_id := 2, user_id := (⟨0, .Bid, 10000, 7⟩ : OrderInfo).user_id, side := (⟨0, .Bid, 10000, 7⟩ : OrderInfo).side, price := 10500, qty := 200, order_type := .Limit }).2) :=
  (claim_C4 _ ⟨1, 2, 10500, 200⟩).2 ⟨0, .Bid, 10000, 7⟩ (by decide) (by decide)

/-- C5: a Cancel of an unknown id emits exactly one Rejected event with
reason OrderNotFound and changes nothing; a Cancel of a known id reads the
residual quantity from the slab record, removes the order through the book
(possibly dropping its level and recomputing the best), frees the slab
entry, and emits exactly Canceled with the residual followed by a BookDelta
with the level's new quantity and count, the pair being zero when the level
was removed. -/
theorem claim_C5 (e : MatchingEngine) (c : CancelOrder) :
    (e.book.get_order c.order_id = none →
      e.process_cancel c
        = (e, [.Rejected { order_id := c.order_id, reason := .OrderNotFound }])) ∧
    ∀ nfo, e.book.get_order c.order_id = some nfo →
      e.process_cancel c
        = (MatchingEngine.mk (e.arena.free nfo.arena_index)
            ((e.book.remove_order e.arena c.order_id).1),
          [.Canceled { order_id := c.order_id, canceled_qty := (e.arena.get nfo.arena_index).qty },
           .BookDelta { side := nfo.side, price := nfo.price, new_qty := ((e.book.remove_order e.arena c.order_id).1.depth_at nfo.side nfo.price).1, new_count := ((e.book.remove_order e.arena c.order_id).1.depth_at nfo.side nfo.price).2 }]) ∧
      ((e.book.remove_order e.arena c.order_id).1.get_level nfo.side nfo.price = none →
        (e.book.remove_order e.arena c.order_id).1.depth_at nfo.side nfo.price = (0, 0)) := by
  constructor
  · intro hn
    rw [MatchingEngine.process_cancel, hn]
  · intro nfo hs
    refine ⟨process_cancel_step hs, ?_⟩
    intro hnone
    rw [OrderBook.depth_at, hnone]

theorem claim_C5_witness :
    ((MatchingEngine.new 16).process_place ⟨1, 7, .Bid, 10000, 100, .Limit⟩).1.process_cancel ⟨1⟩
      = (MatchingEngine.mk
          ((((MatchingEngine.new 16).process_place ⟨1, 7, .Bid, 10000, 100, .Limit⟩).1).arena.free
            (⟨0, .Bid, 10000, 7⟩ : OrderInfo).arena_index)
          (((((MatchingEngine.new 16).process_place ⟨1, 7, .Bid, 10000, 100, .Limit⟩).1).book.remove_order
            (((MatchingEngine.new 16).process_place ⟨1, 7, .Bid, 10000, 100, .Limit⟩).1).arena 1).1),
        [.Canceled { order_id := 1, canceled_qty := ((((MatchingEngine.new 16).process_place ⟨1, 7, .Bid, 10000, 100, .Limit⟩).1).arena.get (⟨0, .Bid, 10000, 7⟩ : OrderInfo).arena_index).qty },
         .BookDelta { side := (⟨0, .Bid, 10000, 7⟩ : OrderInfo).side, price := (⟨0, .Bid, 10000, 7⟩ : OrderInfo).price, new_qty := (((((MatchingEngine.new 16).process_place ⟨1, 7, .Bid, 10000, 100, .Limit⟩).1).book.remove_order (((MatchingEngine.new 16).process_place ⟨1, 7, .Bid, 10000, 100, .Limit⟩).1).arena 1).1.depth_at (⟨0, .Bid, 10000, 7⟩ : OrderInfo).side (⟨0, .Bid, 10000, 7⟩ : OrderInfo).price).1, new_count := (((((MatchingEngine.new 16).process_place ⟨1, 7, .Bid, 10000, 100, .Limit⟩).1).book.remove_order (((MatchingEngine.new 16).process_place ⟨1, 7, .Bid, 10000, 100, .Limit⟩).1).arena 1).1.depth_at (⟨0, .Bid, 10000, 7⟩ : OrderInfo).side (⟨0, .Bid, 10000, 7⟩ : OrderInfo).price).2 }]) ∧
    ((((((MatchingEngine.new 16).process_place ⟨1, 7, .Bid, 10000, 100, .Limit⟩).1).book.remove_order
        (((MatchingEngine.new 16).process_place ⟨1, 7, .Bid, 10000, 100, .Limit⟩).1).arena 1).1.get_level
        (⟨0, .Bid, 10000, 7⟩ : OrderInfo).side (⟨0, .Bid, 10000, 7⟩ : OrderInfo).price = none) →
      ((((MatchingEngine.new 16).process_place ⟨1, 7, .Bid, 10000, 100, .Limit⟩).1).book.remove_order
        (((MatchingEngine.new 16).process_place ⟨1, 7, .Bid, 10000, 100, .Limit⟩).1).arena 1).1.depth_at
        (⟨0, .Bid, 10000, 7⟩ : OrderInfo).side (⟨0, .Bid, 10000, 7⟩ : OrderInfo).price = (0, 0)) :=
  (claim_C5 _ ⟨1⟩).2 ⟨0, .Bid, 10000, 7⟩ (by decide)

/-- C6: after any command sequence processed from a fresh engine the best
price caches equal a full scan of the side maps: best_bid is the maximum key
of the bids map and best_ask the minimum key of the asks map, each being
none exactly when that map is empty. -/
theorem claim_C6 (cap : Nat) (hcap : cap < NULL_INDEX) (cmds : List Command) :
    ((Engine.new cap).run_all cmds).matcher.book.best_bid
        = keyMax (keysA ((Engine.new cap).run_all cmds).matcher.book.bids) ∧
    ((Engine.new cap).run_all cmds).matcher.book.best_ask
        = keyMin (keysA ((Engine.new cap).run_all cmds).matcher.book.asks) ∧
    (((Engine.new cap).run_all cmds).matcher.book.best_bid = none ↔
      ((Engine.new cap).run_all cmds).matcher.book.bids = []) ∧
    (((Engine.new cap).run_all cmds).matcher.book.best_ask = none ↔
      ((Engine.new cap).run_all cmds).matcher.book.asks = []) := by
  have hinv := @run_all_inv (Engine.new cap) (inv_new hcap) cmds
  refine ⟨hinv.best_bid_eq, hinv.best_ask_eq, ?_, ?_⟩
  · rw [hinv.best_bid_eq, keyMax_eq_none_iff, keysA_nil_iff]
  · rw [hinv.best_ask_eq, keyMin_eq_none_iff, keysA_nil_iff]

theorem claim_C6_witness :
    ((Engine.new 16).run_all
        [.Place ⟨1, 7, .Bid, 9000, 100, .Limit⟩, .Place ⟨2, 8, .Ask, 10000, 50, .Limit⟩,
         .Place ⟨3, 9, .Bid, 9500, 10, .Limit⟩,
         .Cancel ⟨3⟩]).matcher.book.best_bid
        = keyMax (keysA ((Engine.new 16).run_all
            [.Place ⟨1, 7, .Bid, 9000, 100, .Limit⟩, .Place ⟨2, 8, .Ask, 10000, 50, .Limit⟩,
             .Place ⟨3, 9, .Bid, 9500, 10, .Limit⟩,
             .Cancel ⟨3⟩]).matcher.book.bids) ∧
    ((Engine.new 16).run_all
        [.Place ⟨1, 7, .Bid, 9000, 100, .Limit⟩, .Place ⟨2, 8, .Ask, 10000, 50, .Limit⟩,
         .Place ⟨3, 9, .Bid, 9500, 10, .Limit⟩,
         .Cancel ⟨3⟩]).matcher.book.best_ask
        = keyMin (keysA ((Engine.new 16).run_all
            [.Place ⟨1, 7, .Bid, 9000, 100, .Limit⟩, .Place ⟨2, 8, .Ask, 10000, 50, .Limit⟩,
             .Place ⟨3, 9, .Bid, 9500, 10, .Limit⟩,
             .Cancel ⟨3⟩]).matcher.book.asks) ∧
    (((Engine.new 16).run_all
        [.Place ⟨1, 7, .Bid, 9000, 100, .Limit⟩, .Place ⟨2, 8, .Ask, 10000, 50, .Limit⟩,
         .Place ⟨3, 9, .Bid, 9500, 10, .Limit⟩,
         .Cancel ⟨3⟩]).matcher.book.best_bid = none ↔
      ((Engine.new 16).run_all
        [.Place ⟨1, 7, .Bid, 9000, 100, .Limit⟩, .Place ⟨2, 8, .Ask, 10000, 50, .Limit⟩,
         .Place ⟨3, 9, .Bid, 9500, 10, .Limit⟩,
         .Cancel ⟨3⟩]).matcher.book.bids = []) ∧
    (((Engine.new 16).run_all
        [.Place ⟨1, 7, .Bid, 9000, 100, .Limit⟩, .Place ⟨2, 8, .Ask, 10000, 50, .Limit⟩,
         .Place ⟨3, 9, .Bid, 9500, 10, .Limit⟩,
         .Cancel ⟨3⟩]).matcher.book.best_ask = none ↔
      ((Engine.new 16).run_all
        [.Place ⟨1, 7, .Bid, 9000, 100, .Limit⟩, .Place ⟨2, 8, .Ask, 10000, 50, .Limit⟩,
         .Place ⟨3, 9, .Bid, 9500, 10, .Limit⟩,
         .Cancel ⟨3⟩]).matcher.book.asks = []) :=
  claim_C6 16 (by decide)
    [.Place ⟨1, 7, .Bid, 9000, 100, .Limit⟩, .Place ⟨2, 8, .Ask, 10000, 50, .Limit⟩,
     .Place ⟨3, 9, .Bid, 9500, 10, .Limit⟩,
     .Cancel ⟨3⟩]

/-- C7: after any command sequence processed from a fresh engine the book is
never crossed at rest: whenever both best prices exist the best bid is
strictly below the best ask. -/
theorem claim_C7 (cap : Nat) (hcap : cap < NULL_INDEX) (cmds : List Command)
    (b a : Nat)
    (hb : ((Engine.new cap).run_all cmds).matcher.book.best_bid = some b)
    (ha : ((Engine.new cap).run_all cmds).matcher.book.best_ask = some a) :
    b < a :=
  (@run_all_inv (Engine.new cap) (inv_new hcap) cmds).not_crossed b a hb ha

theorem claim_C7_witness : (9000 : Nat) < 10000 :=
  claim_C7 16 (by decide)
    [.Place ⟨1, 7, .Bid, 9000, 100, .Limit⟩, .Place ⟨2, 8, .Ask, 10000, 50, .Limit⟩]
    9000 10000 (by decide) (by decide)

/-- C8: the engine is deterministic: two engines freshly constructed with the
same capacity produce, on the same command sequence, the same trace of event
lists and state hashes and the same final state hash. -/
theorem claim_C8 (cap : Nat) (cmds : List Command) (g1 g2 : Engine)
    (h1 : g1 = Engine.new cap) (h2 : g2 = Engine.new cap) :
    g1.trace cmds = g2.trace cmds ∧
    (g1.run_all cmds).state_hash = (g2.run_all cmds).state_hash := by
  subst h1
  subst h2
  exact ⟨rfl, rfl⟩

theorem claim_C8_witness :
    (Engine.new 16).trace [.Place ⟨1, 7, .Bid, 9000, 100, .Limit⟩, .Cancel ⟨1⟩]
        = (Engine.new 16).trace [.Place ⟨1, 7, .Bid, 9000, 100, .Limit⟩, .Cancel ⟨1⟩] ∧
    ((Engine.new 16).run_all [.Place ⟨1, 7, .Bid, 9000, 100, .Limit⟩, .Cancel ⟨1⟩]).state_hash
        = ((Engine.new 16).run_all
            [.Place ⟨1, 7, .Bid, 9000, 100, .Limit⟩, .Cancel ⟨1⟩]).state_hash :=
  claim_C8 16 [.Place ⟨1, 7, .Bid, 9000, 100, .Limit⟩, .Cancel ⟨1⟩]
    (Engine.new 16) (Engine.new 16) rfl rfl

/-- C9: a Limit place that rests without trading, acknowledged by an Accepted
event, followed immediately by a Cancel of the same id, returns the book to
its prior state: the state hash after the cancel equals the state hash before
the place, the slab free list order being invisible to the hash. -/
theorem claim_C9 (e : MatchingEngine) (o : PlaceOrder) (hinv : EngineInv e)
    (hlim : o.order_type = OrderType.Limit) (hq : o.qty ≠ 0)
    (hdup : e.book.contains_order o.order_id = false)
    (hcross : e.cross_phase o = (e, o.qty, []))
    (hfree : e.arena.free_head ≠ NULL_INDEX) :
    OutputEvent.Accepted
        { order_id := o.order_id, price := o.price, qty := o.qty, side := o.side }
      ∈ (e.process_place o).2 ∧
    ((e.process_place o).1.process_cancel { order_id := o.order_id }).1.state_hash
      = e.state_hash :=
  place_cancel_restore hinv hlim hq hdup hcross hfree

theorem claim_C9_witness :
    OutputEvent.Accepted { order_id := 1, price := 10000, qty := 100, side := .Bid }
      ∈ ((MatchingEngine.new 16).process_place ⟨1, 7, .Bid, 10000, 100, .Limit⟩).2 ∧
    (((MatchingEngine.new 16).process_place
        ⟨1, 7, .Bid, 10000, 100, .Limit⟩).1.process_cancel { order_id := 1 }).1.state_hash
      = (MatchingEngine.new 16).state_hash :=
  claim_C9 _ ⟨1, 7, .Bid, 10000, 100, .Limit⟩ (inv_new (by decide)) rfl (by decide)
    (by decide) (by decide) (by decide)

/-- C10: Arena.new is total with a fully threaded free list for every
positive capacity below the sentinel, but not for capacity zero: the source
threads the free list with a loop bounded by capacity - 1 on an unsigned
integer, so new(0) aborts instead of returning an empty arena; the model
renders both failure modes of that underflow as none. -/
theorem claim_C10 :
    (∀ c, 0 < c → c < NULL_INDEX → ∃ a, Arena.new c = some a ∧ a.allocated = 0 ∧
      a.capacity = c ∧ FreeChain a a.free_head (List.range c)) ∧
    Arena.new 0 = none := by
  constructor
  · intro c h0 hc
    refine ⟨Arena.init c, ?_, rfl, rfl, ?_⟩
    · rw [Arena.new, if_pos hc, if_neg (by omega)]
    · cases hc0 : c with
      | zero => omega
      | succ c2 =>
        rw [hc0] at hc
        have h2 := Arena.init_chain (c2 + 1) hc (c2 + 1) 0 (by omega)
        rw [if_neg (Nat.succ_ne_zero c2)] at h2
        rw [List.range_eq_range']
        rw [show (Arena.init (c2 + 1)).free_head = 0 from by
          show (if 0 < c2 + 1 then 0 else NULL_INDEX) = 0
          rw [if_pos (Nat.succ_pos c2)]]
        exact h2
  · rfl

theorem claim_C10_witness :
    (∃ a, Arena.new 3 = some a ∧ a.allocated = 0 ∧ a.capacity = 3 ∧
      FreeChain a a.free_head (List.range 3)) ∧
    Arena.new 0 = none :=
  ⟨claim_C10.1 3 (by decide) (by decide), claim_C10.2⟩
